import Mathlib

/-!
# orderfc: checkout orchestration, order store and payment reactors

A shallow embedding of the order service (usecase, service, repository, kafka
producer and consumers) together with the properties of its specification.

Conventions of the embedding
* Go `int`/`int64` values are `Int`; quantities are bounded by validation
  (at most 10000 per line), so no arithmetic of the program can wrap.
* A `float64` that the program computes (an order amount) is a `Float64`:
  IEEE 754 binary64 with rounding to nearest, the infinities and NaN. A
  `float64` that `encoding/json` read from a request or from a stored text (a
  unit price, the user ID of the session) is finite, and is held as the
  rational number it stands for.
* `time.Now()` is a parameter `now`.
* A call that reaches the database or the broker takes a parameter
  `fault : Option String`: `none` when the database (broker) carries the call
  out, `some msg` when it reports an error with text `msg`
  (`Err.external msg`).
* `encoding/json` is a parameter (`JSON`) because the declarations of the
  serialised types, with their field tags, are in `models/order.go`, which
  is not among the sources.
-/

namespace OrderFC

/-! ## Errors -/

/-- The error values that travel through the program. -/
inductive Err where
  /-- Go: `errors.New("order already created, please check again!")` -/
  | orderAlreadyCreated
  /-- Go: `fmt.Errorf("duplicate product: %d", id)` -/
  | duplicateProduct (id : Int)
  /-- Go: `fmt.Errorf("invalid quantity for %d", id)` -/
  | invalidQuantity (id : Int)
  /-- Go: `fmt.Errorf("invalid price for %d", id)` -/
  | invalidPrice (id : Int)
  /-- Go: `gorm.ErrRecordNotFound` -/
  | ErrRecordNotFound
  /-- Go: `gorm.ErrMissingWhereClause` -/
  | ErrMissingWhereClause
  /-- Any error reported by the database, the broker or the JSON decoder, with its text. -/
  | external (msg : String)
  deriving DecidableEq, Repr

/-- The text of an error (`err.Error()`). -/
def Err.Error : Err → String
  | .orderAlreadyCreated => "order already created, please check again!"
  | .duplicateProduct id => "duplicate product: " ++ toString id
  | .invalidQuantity id => "invalid quantity for " ++ toString id
  | .invalidPrice id => "invalid price for " ++ toString id
  | .ErrRecordNotFound => "record not found"
  | .ErrMissingWhereClause => "WHERE conditions required"
  | .external msg => msg

/-! ## Constants (`infrastructure/constant/helper.go`) -/

def OrderStatusCreated : Int := 0
def OrderStatusProcessing : Int := 1
def OrderStatusCompleted : Int := 2
def OrderStatusCancelled : Int := 3

/-! ## Arithmetic of `float64`

Go's `float64` is IEEE 754 binary64. A value is a rational number with a
significand of 53 bits (exponents down to 2^-1074, magnitudes below 2^1024),
an infinity or NaN. Every operation yields the exact result rounded to the
nearest value, ties to the even significand; a rounded magnitude of 2^1024 or
more is an infinity. The sign of a zero is not kept (a sum that starts from
+0, as the order amount does, is never -0), and each operation is rounded on
its own (no fused multiply-add). -/

/-- A `float64` value. -/
inductive Float64 where
  | finite (v : ℚ)
  | inf (negative : Bool)
  | nan
  deriving DecidableEq, Repr

namespace Float64

instance (n : Nat) : OfNat Float64 n := ⟨finite n⟩

/-- The exponent of the spacing of `float64` values at magnitude `a`: 53
significant bits from the leading one, and never finer than 2^-1074. -/
def quantum (a : ℚ) : Int :=
  max (Int.log 2 a - 52) (-1074)

/-- The integer nearest to `x`, the even one of the two when `x` lies half
way. -/
def roundHalfEven (x : ℚ) : Int :=
  if x - ⌊x⌋ < 1 / 2 then ⌊x⌋
  else if 1 / 2 < x - ⌊x⌋ then ⌊x⌋ + 1
  else if ⌊x⌋ % 2 = 0 then ⌊x⌋ else ⌊x⌋ + 1

/-- The `float64` nearest to the rational `q` (round to nearest, ties to
even, overflow to an infinity). -/
@[irreducible]
def round (q : ℚ) : Float64 :=
  let r : ℚ := (roundHalfEven (q / 2 ^ quantum |q|) : ℚ) * 2 ^ quantum |q|
  if (2 : ℚ) ^ (1024 : Nat) ≤ |r| then inf (decide (q < 0)) else finite r

/-- Go: `x + y` on `float64`. -/
def add : Float64 → Float64 → Float64
  | finite a, finite b => round (a + b)
  | finite _, inf s => inf s
  | inf s, finite _ => inf s
  | inf s, inf t => if s = t then inf s else nan
  | _, _ => nan

/-- Go: `x * y` on `float64`. -/
def mul : Float64 → Float64 → Float64
  | finite a, finite b => round (a * b)
  | finite a, inf s => if a = 0 then nan else inf (s != decide (a < 0))
  | inf s, finite b => if b = 0 then nan else inf (s != decide (b < 0))
  | inf s, inf t => inf (s != t)
  | _, _ => nan

/-- Go: `float64(n)` for an integer `n`. -/
def ofInt (n : Int) : Float64 :=
  round n

/-- The `float64` held in a field whose value is given as the rational `q`:
`q` itself when `q` is a `float64` value, and otherwise the `float64` nearest
to `q`, which is how the JSON decoder (`strconv.ParseFloat`) reads a decimal
number. -/
def ofRat (q : ℚ) : Float64 :=
  round q

end Float64

/-! ## Data model -/

/-- Modelled from the spec: `models.CheckoutItem` (declared in the absent
`models/order.go`); product ID, quantity and unit price, as the usecase reads
them. The price is the rational value of the `float64` field, which is
finite when it comes from the JSON decoder (`Float64.ofRat` is the field as a
`float64`). -/
structure CheckoutItem where
  ProductID : Int
  Quantity : Int
  Price : ℚ
  deriving DecidableEq, Repr

/-- Type `models.ProductItem` (`models/product.go`). -/
structure ProductItem where
  ProductID : Int
  Qty : Int
  deriving DecidableEq, Repr

/-- Type `models.ProductStockUpdateEvent` (`models/product.go`). -/
structure ProductStockUpdateEvent where
  OrderID : Int
  Products : List ProductItem
  EventTime : Nat
  deriving DecidableEq, Repr

/-- Modelled from the spec: `models.OrderCreatedEvent` (absent
`models/order.go`), with the five fields `CheckoutOrder` fills in. -/
structure OrderCreatedEvent where
  OrderID : Int
  UserID : Int
  TotalAmount : Float64
  PaymentMethod : String
  ShippingAddress : String
  deriving DecidableEq, Repr

/-- Modelled from the spec: `models.PaymentUpdateStatusEvent` (absent
`models/order.go`); the reactors read only its order ID. -/
structure PaymentUpdateStatusEvent where
  OrderID : Int
  deriving DecidableEq, Repr

/-- Modelled from the spec: `models.CheckoutRequest` (absent
`models/order.go`), with the fields the handler and the usecase use. -/
structure CheckoutRequest where
  UserID : Int
  Items : List CheckoutItem
  PaymentMethod : String
  ShippingAddress : String
  IdempotencyToken : String
  deriving DecidableEq, Repr

/-- Modelled from the spec: `models.Order` (absent `models/order.go`): the
row of table `orders`. -/
structure Order where
  ID : Int
  UserID : Int
  OrderDetailID : Int
  Amount : Float64
  TotalQty : Int
  Status : Int
  PaymentMethod : String
  ShippingAddress : String
  CreateTime : Nat
  UpdateTime : Nat
  deriving DecidableEq, Repr

/-- Modelled from the spec: `models.OrderDetail` (absent `models/order.go`):
the row of table `order_detail`, two serialised texts. -/
structure OrderDetail where
  ID : Int
  Products : String
  OrderHistory : String
  deriving DecidableEq, Repr

/-- Modelled from the spec: `models.OrderRequestLog` (absent
`models/order.go`): the row of table `order_request_log`. -/
structure OrderRequestLog where
  IdempotencyToken : String
  CreateTime : Nat
  deriving DecidableEq, Repr

/-- Modelled from the spec: `models.StatusHistory` (absent
`models/order.go`): one status-change record. -/
structure StatusHistory where
  Status : String
  Timestamp : Nat
  deriving DecidableEq, Repr

/-- Modelled from the spec: `models.OrderHistoryParam` (absent
`models/order.go`): caller identity and status filter (0 = all). -/
structure OrderHistoryParam where
  UserID : Int
  Status : Int
  deriving DecidableEq, Repr

/-- The Go zero value of `models.Order`. -/
def Order.zero : Order :=
  { ID := 0, UserID := 0, OrderDetailID := 0, Amount := 0, TotalQty := 0, Status := 0,
    PaymentMethod := "", ShippingAddress := "", CreateTime := 0, UpdateTime := 0 }

/-- The Go zero value of `models.OrderDetail`. -/
def OrderDetail.zero : OrderDetail :=
  { ID := 0, Products := "", OrderHistory := "" }

/-- The functions of `encoding/json` at the types the program serialises. -/
structure JSON where
  /-- Go: `json.Marshal(items)` for `[]models.CheckoutItem` -/
  marshalItems : List CheckoutItem → String
  /-- Go: `json.Unmarshal(text, &products)` for `[]models.CheckoutItem` -/
  unmarshalItems : String → Except Err (List CheckoutItem)
  /-- What `json.Unmarshal(text, &products)` leaves in a nil `products` when
  it returns an error: nothing after a syntax error; after a value that does
  not fit its field, the elements it decoded, that field left zero. -/
  itemsOnError : String → List CheckoutItem
  /-- Go: `json.Marshal(history)` for the seeded history entry, stamped `now` -/
  marshalHistory : Nat → String
  /-- Go: `json.Unmarshal(text, &history)` for `[]models.StatusHistory` -/
  unmarshalHistory : String → Except Err (List StatusHistory)
  /-- What `json.Unmarshal(text, &history)` leaves in a nil `history` when it
  returns an error. -/
  historyOnError : String → List StatusHistory
  /-- Go: `json.Unmarshal(message.Value, &event)` -/
  unmarshalEvent : String → Except Err PaymentUpdateStatusEvent
  /-- The text `json.Marshal(event)` gives a `models.OrderCreatedEvent` whose
  amount is finite. -/
  orderCreatedText : OrderCreatedEvent → String
  /-- Go: `json.Marshal(event)` for `models.ProductStockUpdateEvent`: integers
  and a `time.Time`, which is refused when its year is outside 0..9999. -/
  marshalProductStock : ProductStockUpdateEvent → Except Err String

/-- Go: `json.Marshal(event)` for `models.OrderCreatedEvent`. The encoder
refuses a `float64` that is an infinity or NaN (`UnsupportedValueError`);
the integers and strings of the event always encode. -/
def JSON.marshalOrderCreated (json : JSON) (event : OrderCreatedEvent) : Except Err String :=
  match event.TotalAmount with
  | .finite _ => .ok (json.orderCreatedText event)
  | .inf false => .error (.external "json: unsupported value: +Inf")
  | .inf true => .error (.external "json: unsupported value: -Inf")
  | .nan => .error (.external "json: unsupported value: NaN")

/-! ## Usecase helpers (`cmd/order/usecase/usecase.go`) -/

namespace OrderUsecase

/-- The loop of `validateProducts`, started with the product IDs `seen` so
far; `none` is the nil error. -/
def validateProductsFrom (seen : List Int) : List CheckoutItem → Option Err
  | [] => none
  | item :: rest =>
    if item.ProductID ∈ seen then some (.duplicateProduct item.ProductID)
    else if item.Quantity ≤ 0 ∨ item.Quantity > 10000 then some (.invalidQuantity item.ProductID)
    else if item.Price ≤ 0 then some (.invalidPrice item.ProductID)
    else validateProductsFrom (item.ProductID :: seen) rest

/-- Function `validateProducts`: the first violation met in request order, or nil. -/
def validateProducts (items : List CheckoutItem) : Option Err :=
  validateProductsFrom [] items

/-- The loop of `calculateOrderSummary`, from running totals. -/
def calculateOrderSummaryFrom (totalQty : Int) (totalAmount : Float64) :
    List CheckoutItem → Int × Float64
  | [] => (totalQty, totalAmount)
  | item :: rest =>
    calculateOrderSummaryFrom (totalQty + item.Quantity)
      (totalAmount.add ((Float64.ofInt item.Quantity).mul (Float64.ofRat item.Price))) rest

/-- Function `calculateOrderSummary`: total quantity and total amount. -/
def calculateOrderSummary (items : List CheckoutItem) : Int × Float64 :=
  calculateOrderSummaryFrom 0 0 items

/-- Function `constructOrderDetail`: the two serialised texts; its error is always nil. -/
def constructOrderDetail (json : JSON) (now : Nat) (items : List CheckoutItem) :
    String × String × Option Err :=
  (json.marshalItems items, json.marshalHistory now, none)

/-- Function `convertCheckoutItemToProductItems` (the usecase and the consumer package
each declare the same function). -/
def convertCheckoutItemToProductItems (source : List CheckoutItem) : List ProductItem :=
  source.map fun item => { ProductID := item.ProductID, Qty := item.Quantity }

end OrderUsecase

/-! ## The store (`cmd/order/repository`)

`gorm.io/gorm` is a library outside the repository. The part of it the
repository calls is embedded below: a handle (`Database`) over three tables,
and statements (`DB`) that collect `Where` conditions until a finisher
(`Find`, `First`, `Updates`) runs them. A finisher works with the conditions
collected before it is called; a `Where` chained after a finisher adds its
condition to the returned statement, which nothing executes any more.

The table schema is not among the sources: the column `order_id` of the
lookups and the column `o.id` of the history query are both read as the
order's ID, which the store assigns from a sequence. -/

/-- The database behind `r.Database`: the three tables, the sequences that
issue row IDs, and the handle's `AllowGlobalUpdate` setting (the handle is
built by `resource.InitDB`, not among the sources; gorm's default is off). -/
structure Database where
  AllowGlobalUpdate : Bool
  orders : List Order
  order_detail : List OrderDetail
  order_request_log : List OrderRequestLog
  ordersSeq : Int
  orderDetailSeq : Int
  deriving DecidableEq, Repr

/-- A gorm statement on a table with rows `α`: the conditions attached so far
and the error of the finisher that ran, if any. -/
structure DB (α : Type) where
  rows : List α
  AllowGlobalUpdate : Bool
  conds : List (α → Bool)
  Error : Option Err

namespace DB

variable {α : Type}

/-- Whether a row meets every condition of the statement. -/
def selects (db : DB α) (row : α) : Bool :=
  db.conds.all fun c => c row

/-- Chain method `Where`: attaches one more condition. -/
def Where (db : DB α) (cond : α → Bool) : DB α :=
  { db with conds := db.conds ++ [cond] }

/-- Finisher `Find(&result)` into a single struct: `result` receives the
selected row, or keeps its zero value when no row is selected; that is not an
error. -/
def Find (db : DB α) (fault : Option String) (zero : α) : α × DB α :=
  match fault with
  | some msg => (zero, { db with Error := some (.external msg) })
  | none => ((db.rows.find? db.selects).getD zero, db)

/-- Finisher `First(&result)`: the first selected row, or
`ErrRecordNotFound`. -/
def First (db : DB α) (fault : Option String) : Option α × DB α :=
  match fault with
  | some msg => (none, { db with Error := some (.external msg) })
  | none =>
    match db.rows.find? db.selects with
    | some row => (some row, db)
    | none => (none, { db with Error := some .ErrRecordNotFound })

/-- Finisher `Updates(values)` on a model whose primary key is zero (here
`Model(&models.Order{})`, which adds no condition of its own): with no
condition attached it is refused with `ErrMissingWhereClause` unless the
handle allows global updates; otherwise every selected row is rewritten. -/
def Updates (db : DB α) (fault : Option String) (set : α → α) : DB α :=
  if db.conds.isEmpty && !db.AllowGlobalUpdate then
    { db with Error := some .ErrMissingWhereClause }
  else
    match fault with
    | some msg => { db with Error := some (.external msg) }
    | none => { db with rows := db.rows.map fun row => if db.selects row then set row else row }

end DB

/-- Go: `r.Database.Table("orders")` -/
def Database.TableOrders (d : Database) : DB Order :=
  { rows := d.orders, AllowGlobalUpdate := d.AllowGlobalUpdate, conds := [], Error := none }

/-- Go: `r.Database.Table("order_detail")` -/
def Database.TableOrderDetail (d : Database) : DB OrderDetail :=
  { rows := d.order_detail, AllowGlobalUpdate := d.AllowGlobalUpdate, conds := [], Error := none }

/-- Go: `r.Database.Table("order_request_log")` -/
def Database.TableOrderRequestLog (d : Database) : DB OrderRequestLog :=
  { rows := d.order_request_log, AllowGlobalUpdate := d.AllowGlobalUpdate, conds := [],
    Error := none }

/-- A transaction (`r.Database.Begin()`): the database as it was at `Begin`
and the database with the writes made so far inside the transaction. -/
structure Tx where
  begun : Database
  pending : Database
  deriving DecidableEq, Repr

/-- How a transaction ended. -/
inductive TxEnd where
  | committed
  | rolledBack
  | commitFailed
  deriving DecidableEq, Repr

/-- Go: `r.Database.Begin()` -/
def Database.Begin (d : Database) : Tx :=
  { begun := d, pending := d }

/-- Go: `tx.Rollback()`: the rows are those at `Begin`; IDs issued by the
sequences in the meantime are not given back. -/
def Tx.Rollback (tx : Tx) : Database :=
  { tx.begun with ordersSeq := tx.pending.ordersSeq, orderDetailSeq := tx.pending.orderDetailSeq }

/-- Go: `tx.Commit()`: on success the pending writes become the database. -/
def Tx.Commit (tx : Tx) (fault : Option String) : Database × Option Err :=
  match fault with
  | some msg => (tx.Rollback, some (.external msg))
  | none => (tx.pending, none)

namespace OrderRepository

/-- Function `InsertOrderDetailTx`: `Create` inserts the row and stores the ID the
database assigned into `orderDetail.ID`. -/
def InsertOrderDetailTx (tx : Tx) (fault : Option String) (orderDetail : OrderDetail) :
    Tx × OrderDetail × Option Err :=
  match fault with
  | some msg => (tx, orderDetail, some (.external msg))
  | none =>
    let created := { orderDetail with ID := tx.pending.orderDetailSeq + 1 }
    ({ tx with pending := { tx.pending with
          order_detail := tx.pending.order_detail ++ [created],
          orderDetailSeq := tx.pending.orderDetailSeq + 1 } },
      created, none)

/-- Function `InsertOrderTx`: `Create` inserts the row and stores the ID the database
assigned into `order.ID`. -/
def InsertOrderTx (tx : Tx) (fault : Option String) (order : Order) : Tx × Order × Option Err :=
  match fault with
  | some msg => (tx, order, some (.external msg))
  | none =>
    let created := { order with ID := tx.pending.ordersSeq + 1 }
    ({ tx with pending := { tx.pending with
          orders := tx.pending.orders ++ [created],
          ordersSeq := tx.pending.ordersSeq + 1 } },
      created, none)

/-- Function `WithTransaction`: runs `fn` in a transaction; an error of `fn` rolls
back and is returned, otherwise the result of `Commit` is returned. `σ` is
what the closure leaves in the variables it captured. -/
def WithTransaction {σ : Type} (d : Database) (commitFault : Option String)
    (fn : Tx → Tx × σ × Option Err) : Database × TxEnd × σ × Option Err :=
  let tx := d.Begin
  match fn tx with
  | (tx1, captured, some err) => (tx1.Rollback, .rolledBack, captured, some err)
  | (tx1, captured, none) =>
    match tx1.Commit commitFault with
    | (d1, some err) => (d1, .commitFailed, captured, some err)
    | (d1, none) => (d1, .committed, captured, none)

/-- Function `CheckIdempotency`: whether a request-log row with the token exists. -/
def CheckIdempotency (d : Database) (fault : Option String) (token : String) :
    Bool × Option Err :=
  let err :=
    ((d.TableOrderRequestLog.Where fun log => log.IdempotencyToken == token).First fault).2.Error
  if err = some .ErrRecordNotFound then (false, none)
  else (err == none, err)

/-- Function `SaveIdempotencyToken`: inserts a request-log row for the token. -/
def SaveIdempotencyToken (d : Database) (fault : Option String) (now : Nat) (token : String) :
    Database × Option Err :=
  let log : OrderRequestLog := { IdempotencyToken := token, CreateTime := now }
  match fault with
  | some msg => (d, some (.external msg))
  | none => ({ d with order_request_log := d.order_request_log ++ [log] }, none)

/-- Function `UpdateOrderStatus`: the statement is built on `Table("orders")` with
`Model(&models.Order{})`, `Updates` runs it, and only then is
`Where("order_id = ?", orderID)` chained; the error read is that of the
returned statement. -/
def UpdateOrderStatus (d : Database) (fault : Option String) (now : Nat) (orderID : Int)
    (status : Int) : Database × Option Err :=
  let stmt :=
    (d.TableOrders.Updates fault fun order => { order with Status := status, UpdateTime := now }).Where
      fun order => order.ID == orderID
  ({ d with orders := stmt.rows }, stmt.Error)

/-- Function `GetOrderInfoByOrderID`: `Where("order_id = ?", orderID).Find(&result)`. -/
def GetOrderInfoByOrderID (d : Database) (fault : Option String) (orderID : Int) :
    Order × Option Err :=
  let found := (d.TableOrders.Where fun order => order.ID == orderID).Find fault Order.zero
  match found.2.Error with
  | some err => (Order.zero, some err)
  | none => (found.1, none)

/-- Function `GetOrderDetailByOrderDetailID`: `Where("id = ?", orderDetailID).Find(&result)`. -/
def GetOrderDetailByOrderDetailID (d : Database) (fault : Option String) (orderDetailID : Int) :
    OrderDetail × Option Err :=
  let found :=
    (d.TableOrderDetail.Where fun detail => detail.ID == orderDetailID).Find fault OrderDetail.zero
  match found.2.Error with
  | some err => (OrderDetail.zero, some err)
  | none => (found.1, none)

end OrderRepository

/-- Table `OrderStatusTranslated`: the display label of a status; a status
that is not a key of the map yields the empty string. -/
def OrderStatusTranslated (status : Int) : String :=
  if status = OrderStatusCreated then "Created"
  else if status = OrderStatusProcessing then "Processing"
  else if status = OrderStatusCompleted then "Completed"
  else if status = OrderStatusCancelled then "Cancelled"
  else ""

/-- Modelled from the spec: `models.OrderJoinResult` (absent
`models/order.go`): one row of the history query. -/
structure OrderJoinResult where
  ID : Int
  Amount : Float64
  TotalQty : Int
  Status : Int
  PaymentMethod : String
  ShippingAddress : String
  Products : String
  OrderHistory : String
  deriving DecidableEq, Repr

/-- Modelled from the spec: `models.OrderHistoryResponse` (absent
`models/order.go`): one entry of the history response. -/
structure OrderHistoryResponse where
  OrderID : Int
  TotalAmount : Float64
  TotalQty : Int
  Status : String
  PaymentMethod : String
  ShippingAddress : String
  Products : List CheckoutItem
  History : List StatusHistory
  deriving DecidableEq, Repr

/-- The SQL of the history query: `orders AS o JOIN order_detail d ON
o.order_detail_id = d.id WHERE o.user_id = ?`, `AND o.status = ?` when the
filter is positive, `ORDER BY o.id DESC`. -/
def historyQuery (d : Database) (param : OrderHistoryParam) : List OrderJoinResult :=
  let joined := d.orders.flatMap fun o =>
    (d.order_detail.filter fun dt => o.OrderDetailID == dt.ID).map fun dt => (o, dt)
  let ofUser := joined.filter fun row => row.1.UserID == param.UserID
  let filtered :=
    if param.Status > 0 then ofUser.filter fun row => row.1.Status == param.Status else ofUser
  (filtered.insertionSort fun a b => b.1.ID ≤ a.1.ID).map fun row =>
    { ID := row.1.ID, Amount := row.1.Amount, TotalQty := row.1.TotalQty,
      Status := row.1.Status, PaymentMethod := row.1.PaymentMethod,
      ShippingAddress := row.1.ShippingAddress, Products := row.2.Products,
      OrderHistory := row.2.OrderHistory }

/-- Go: `_ = json.Unmarshal(text, &v)` into a nil slice `v`, read
afterwards: the error is dropped, and `v` holds the decoded list, or what the
decoder had stored when it returned the error (`onError`). -/
def decodeIgnoringError {β : Type} (r : Except Err (List β)) (onError : List β) : List β :=
  match r with
  | .ok v => v
  | .error _ => onError

namespace OrderRepository

/-- Function `GetOrderHistoriesByUserID`: the rows of the history query, each turned
into a response entry with decoded products and history. -/
def GetOrderHistoriesByUserID (json : JSON) (d : Database) (fault : Option String)
    (param : OrderHistoryParam) : List OrderHistoryResponse × Option Err :=
  match fault with
  | some msg => ([], some (.external msg))
  | none =>
    ((historyQuery d param).map fun row =>
      { OrderID := row.ID, TotalAmount := row.Amount, TotalQty := row.TotalQty,
        Status := OrderStatusTranslated row.Status, PaymentMethod := row.PaymentMethod,
        ShippingAddress := row.ShippingAddress,
        Products :=
          decodeIgnoringError (json.unmarshalItems row.Products) (json.itemsOnError row.Products),
        History :=
          decodeIgnoringError (json.unmarshalHistory row.OrderHistory)
            (json.historyOnError row.OrderHistory) }, none)

end OrderRepository

/-! ## Service (`cmd/order/service/service.go`) -/

namespace OrderService

/-- Service `CheckIdempotency`: forwards the repository's answer. -/
def CheckIdempotency (d : Database) (fault : Option String) (token : String) : Bool × Option Err :=
  match OrderRepository.CheckIdempotency d fault token with
  | (_, some err) => (false, some err)
  | (isExist, none) => (isExist, none)

/-- Service `SaveIdempotencyToken`: forwards the repository's answer. -/
def SaveIdempotencyToken (d : Database) (fault : Option String) (now : Nat) (token : String) :
    Database × Option Err :=
  OrderRepository.SaveIdempotencyToken d fault now token

/-- Service `GetOrderInfoByOrderID`: forwards the repository's answer. -/
def GetOrderInfoByOrderID (d : Database) (fault : Option String) (orderID : Int) :
    Order × Option Err :=
  match OrderRepository.GetOrderInfoByOrderID d fault orderID with
  | (_, some err) => (Order.zero, some err)
  | (orderInfo, none) => (orderInfo, none)

/-- Service `GetOrderDetailByOrderDetailID`: forwards the repository's answer. -/
def GetOrderDetailByOrderDetailID (d : Database) (fault : Option String) (orderDetailID : Int) :
    OrderDetail × Option Err :=
  match OrderRepository.GetOrderDetailByOrderDetailID d fault orderDetailID with
  | (_, some err) => (OrderDetail.zero, some err)
  | (orderDetail, none) => (orderDetail, none)

/-- Service `UpdateOrderStatus`: forwards the repository's answer. -/
def UpdateOrderStatus (d : Database) (fault : Option String) (now : Nat) (orderID : Int)
    (status : Int) : Database × Option Err :=
  OrderRepository.UpdateOrderStatus d fault now orderID status

/-- The outcome of `SaveOrderAndOrderDetail`. -/
structure SaveResult where
  db : Database
  txEnd : TxEnd
  orderID : Int
  err : Option Err
  deriving DecidableEq, Repr

/-- Service `SaveOrderAndOrderDetail`: inside one transaction, inserts the
detail, copies its ID into the order, inserts the order and keeps the order's
ID; any error yields ID 0. -/
def SaveOrderAndOrderDetail (d : Database) (detailFault orderFault commitFault : Option String)
    (order : Order) (orderDetail : OrderDetail) : SaveResult :=
  let run := OrderRepository.WithTransaction d commitFault fun tx =>
    match OrderRepository.InsertOrderDetailTx tx detailFault orderDetail with
    | (tx1, _, some err) => (tx1, (0 : Int), some err)
    | (tx1, orderDetail1, none) =>
      match OrderRepository.InsertOrderTx tx1 orderFault
          { order with OrderDetailID := orderDetail1.ID } with
      | (tx2, _, some err) => (tx2, (0 : Int), some err)
      | (tx2, order1, none) => (tx2, order1.ID, none)
  match run with
  | (d1, txEnd, _, some err) => { db := d1, txEnd := txEnd, orderID := 0, err := some err }
  | (d1, txEnd, orderID, none) => { db := d1, txEnd := txEnd, orderID := orderID, err := none }

/-- Service `GetOrderHistoriesByUserID`: forwards the repository's answer. -/
def GetOrderHistoriesByUserID (json : JSON) (d : Database) (fault : Option String)
    (param : OrderHistoryParam) : List OrderHistoryResponse × Option Err :=
  match OrderRepository.GetOrderHistoriesByUserID json d fault param with
  | (_, some err) => ([], some err)
  | (orderHistories, none) => (orderHistories, none)

end OrderService

/-! ## Event publisher (`kafka/producer.go`) -/

/-- An event handed to a publisher. -/
inductive Payload where
  | orderCreated (event : OrderCreatedEvent)
  | productStock (event : ProductStockUpdateEvent)
  deriving DecidableEq, Repr

/-- Type `kafka.Message`: key, value (the serialised event) and topic. -/
structure Message where
  Key : String
  Value : String
  Topic : String
  deriving DecidableEq, Repr

namespace KafkaProducer

/-- Go: `p.writer.WriteMessages(ctx, msg)`: the broker appends the message or
reports an error. -/
def WriteMessages (broker : List Message) (fault : Option String) (msg : Message) :
    List Message × Option Err :=
  match fault with
  | some msg => (broker, some (.external msg))
  | none => (broker ++ [msg], none)

/-- Go: `fmt.Sprintf("order-%d", orderID)` -/
def messageKey (orderID : Int) : String :=
  "order-" ++ toString orderID

/-- Publisher `PublishOrderCreated`: the error of `json.Marshal`, or one
message on `order.created`. -/
def PublishOrderCreated (json : JSON) (broker : List Message) (fault : Option String)
    (event : OrderCreatedEvent) : List Message × Option Err :=
  match json.marshalOrderCreated event with
  | .error err => (broker, some err)
  | .ok value =>
    WriteMessages broker fault
      { Key := messageKey event.OrderID, Value := value, Topic := "order.created" }

/-- Publisher `PublishProductStockUpdate`: the error of `json.Marshal`, or one
message on `stock.update`. -/
def PublishProductStockUpdate (json : JSON) (broker : List Message) (fault : Option String)
    (event : ProductStockUpdateEvent) : List Message × Option Err :=
  match json.marshalProductStock event with
  | .error err => (broker, some err)
  | .ok value =>
    WriteMessages broker fault
      { Key := messageKey event.OrderID, Value := value, Topic := "stock.update" }

/-- Publisher `PublishProductStockRollback`: the error of `json.Marshal`, or
one message on `stock.rollback`. -/
def PublishProductStockRollback (json : JSON) (broker : List Message) (fault : Option String)
    (event : ProductStockUpdateEvent) : List Message × Option Err :=
  match json.marshalProductStock event with
  | .error err => (broker, some err)
  | .ok value =>
    WriteMessages broker fault
      { Key := messageKey event.OrderID, Value := value, Topic := "stock.rollback" }

end KafkaProducer

/-! ## Checkout (`cmd/order/usecase/usecase.go`) -/

/-- The database and the broker the process works against. -/
structure State where
  db : Database
  broker : List Message
  deriving DecidableEq, Repr

/-- What the database and the broker answer to each call one `CheckoutOrder`
makes (`none`: the call is carried out). -/
structure CheckoutFaults where
  CheckIdempotency : Option String
  InsertOrderDetailTx : Option String
  InsertOrderTx : Option String
  Commit : Option String
  SaveIdempotencyToken : Option String
  PublishOrderCreated : Option String
  PublishProductStockUpdate : Option String
  deriving DecidableEq, Repr

/-- Every call of a checkout is carried out. -/
def CheckoutFaults.none : CheckoutFaults :=
  { CheckIdempotency := Option.none, InsertOrderDetailTx := Option.none,
    InsertOrderTx := Option.none, Commit := Option.none, SaveIdempotencyToken := Option.none,
    PublishOrderCreated := Option.none, PublishProductStockUpdate := Option.none }

/-- The outcome of `CheckoutOrder`: the state it leaves, the two return
values, and the events handed to the two goroutines, in program order. -/
structure CheckoutResult where
  state : State
  orderID : Int
  err : Option Err
  dispatched : List Payload
  deriving DecidableEq, Repr

namespace OrderUsecase

/-- The first block of `CheckoutOrder`: with a non-empty token, the error of
the idempotency query or the duplicate-request error when a record exists. -/
def idempotencyGuard (d : Database) (fault : Option String) (token : String) : Option Err :=
  if token ≠ "" then
    match OrderService.CheckIdempotency d fault token with
    | (_, some err) => some err
    | (true, none) => some .orderAlreadyCreated
    | (false, none) => none
  else none

/-- The `models.Order` literal `CheckoutOrder` builds. -/
def newOrder (param : CheckoutRequest) (totalQty : Int) (totalAmount : Float64) : Order :=
  { Order.zero with
    UserID := param.UserID, Amount := totalAmount, TotalQty := totalQty,
    Status := OrderStatusCreated, PaymentMethod := param.PaymentMethod,
    ShippingAddress := param.ShippingAddress }

/-- Function `CheckoutOrder`. The two goroutines are run to completion, in
program order, before the state is observed. -/
def CheckoutOrder (json : JSON) (now : Nat) (f : CheckoutFaults) (st : State)
    (param : CheckoutRequest) : CheckoutResult :=
  match idempotencyGuard st.db f.CheckIdempotency param.IdempotencyToken with
  | some err => { state := st, orderID := 0, err := some err, dispatched := [] }
  | none =>
    match validateProducts param.Items with
    | some err => { state := st, orderID := 0, err := some err, dispatched := [] }
    | none =>
      let summary := calculateOrderSummary param.Items
      match constructOrderDetail json now param.Items with
      | (_, _, some err) => { state := st, orderID := 0, err := some err, dispatched := [] }
      | (productJSON, historyJSON, none) =>
        let orderDetail : OrderDetail :=
          { OrderDetail.zero with Products := productJSON, OrderHistory := historyJSON }
        let order := newOrder param summary.1 summary.2
        let saved := OrderService.SaveOrderAndOrderDetail st.db f.InsertOrderDetailTx
          f.InsertOrderTx f.Commit order orderDetail
        match saved.err with
        | some err =>
          { state := { st with db := saved.db }, orderID := 0, err := some err, dispatched := [] }
        | none =>
          let db1 :=
            if param.IdempotencyToken ≠ "" then
              (OrderService.SaveIdempotencyToken saved.db f.SaveIdempotencyToken now
                param.IdempotencyToken).1
            else saved.db
          let event : OrderCreatedEvent :=
            { OrderID := saved.orderID, UserID := param.UserID, TotalAmount := order.Amount,
              PaymentMethod := param.PaymentMethod, ShippingAddress := param.ShippingAddress }
          let broker1 := (KafkaProducer.PublishOrderCreated json st.broker f.PublishOrderCreated event).1
          let updateStockEvent : ProductStockUpdateEvent :=
            { OrderID := saved.orderID,
              Products := convertCheckoutItemToProductItems param.Items, EventTime := now }
          let broker2 :=
            (KafkaProducer.PublishProductStockUpdate json broker1 f.PublishProductStockUpdate
              updateStockEvent).1
          { state := { db := db1, broker := broker2 }, orderID := saved.orderID, err := none,
            dispatched := [.orderCreated event, .productStock updateStockEvent] }

/-- Usecase `GetOrderHistory`: forwards the service's answer. -/
def GetOrderHistory (json : JSON) (d : Database) (fault : Option String)
    (param : OrderHistoryParam) : List OrderHistoryResponse × Option Err :=
  match OrderService.GetOrderHistoriesByUserID json d fault param with
  | (_, some err) => ([], some err)
  | (orderHistory, none) => (orderHistory, none)

end OrderUsecase

/-! ## Payment reactors (`kafka/consumer`) -/

/-- What the database and the broker answer to each call made for one
inbound message. -/
structure ReactorFaults where
  UpdateOrderStatus : Option String
  GetOrderInfoByOrderID : Option String
  GetOrderDetailByOrderDetailID : Option String
  PublishProductStockRollback : Option String
  deriving DecidableEq, Repr

/-- Every call made for a message is carried out. -/
def ReactorFaults.none : ReactorFaults :=
  { UpdateOrderStatus := Option.none, GetOrderInfoByOrderID := Option.none,
    GetOrderDetailByOrderDetailID := Option.none, PublishProductStockRollback := Option.none }

/-- One turn of a reactor loop: the result of `ReadMessage` (the message
value or an error), the time, and the answers to the calls of that turn. -/
structure Inbound where
  read : Except Err String
  now : Nat
  faults : ReactorFaults

namespace PaymentSuccessConsumer

/-- The body of the loop of `StartPaymentSuccessConsumer`, for one turn. -/
def turn (json : JSON) (st : State) (m : Inbound) : State :=
  match m.read with
  | .error _ => st
  | .ok value =>
    match json.unmarshalEvent value with
    | .error _ => st
    | .ok event =>
      match OrderService.UpdateOrderStatus st.db m.faults.UpdateOrderStatus m.now event.OrderID
          OrderStatusCompleted with
      | (d1, some _) => { st with db := d1 }
      | (d1, none) => { st with db := d1 }

/-- Function `StartPaymentSuccessConsumer` on the first turns of the endless
loop, one per element of `inbox`. -/
def StartPaymentSuccessConsumer (json : JSON) (st : State) (inbox : List Inbound) : State :=
  inbox.foldl (turn json) st

end PaymentSuccessConsumer

namespace PaymentFailedConsumer

/-- The body of the loop of `Start`, for one turn; each `continue` of the
source returns the state reached so far. -/
def turn (json : JSON) (st : State) (m : Inbound) : State :=
  match m.read with
  | .error _ => st
  | .ok value =>
    match json.unmarshalEvent value with
    | .error _ => st
    | .ok event =>
      match OrderService.UpdateOrderStatus st.db m.faults.UpdateOrderStatus m.now event.OrderID
          OrderStatusCancelled with
      | (d1, some _) => { st with db := d1 }
      | (d1, none) =>
        match OrderService.GetOrderInfoByOrderID d1 m.faults.GetOrderInfoByOrderID
            event.OrderID with
        | (_, some _) => { st with db := d1 }
        | (orderInfo, none) =>
          match OrderService.GetOrderDetailByOrderDetailID d1
              m.faults.GetOrderDetailByOrderDetailID orderInfo.OrderDetailID with
          | (_, some _) => { st with db := d1 }
          | (orderDetailInfo, none) =>
            match json.unmarshalItems orderDetailInfo.Products with
            | .error _ => { st with db := d1 }
            | .ok products =>
              let updateStockEvent : ProductStockUpdateEvent :=
                { OrderID := event.OrderID,
                  Products := OrderUsecase.convertCheckoutItemToProductItems products,
                  EventTime := m.now }
              { db := d1,
                broker := (KafkaProducer.PublishProductStockRollback json st.broker
                  m.faults.PublishProductStockRollback updateStockEvent).1 }

/-- Function `Start` on the first turns of the endless loop, one per element
of `inbox`. -/
def Start (json : JSON) (st : State) (inbox : List Inbound) : State :=
  inbox.foldl (turn json) st

end PaymentFailedConsumer

/-! ## HTTP handler (`cmd/order/handler/handler.go`) -/

/-- What `c.JSON(code, body)` sends: the status code and the fields of the
body, values as text. -/
structure Response where
  code : Nat
  body : List (String × String)
  deriving DecidableEq, Repr

/-- The value the gin context holds under `user_id`: a `float64`, or
something else. -/
inductive ContextValue where
  | float64 (v : ℚ)
  | other
  deriving DecidableEq, Repr

/-- Go: `int64(userID)` for a `float64`: the fraction is dropped. -/
def truncate (v : ℚ) : Int :=
  if 0 ≤ v then Rat.floor v else -Rat.floor (-v)

namespace OrderHandler

/-- Handler `Checkout`. `bound` is what `c.ShouldBindJSON(&param)` yields (the
request, or the text of the binding error) and `userID` what
`c.Get("user_id")` yields (`none` when the key is absent). -/
def Checkout (json : JSON) (now : Nat) (f : CheckoutFaults) (st : State)
    (bound : Except String CheckoutRequest) (userID : Option ContextValue) : State × Response :=
  match bound with
  | .error details =>
    (st, { code := 400, body := [("error", "invalid request"), ("details", details)] })
  | .ok param =>
    if param.Items.length = 0 then
      (st, { code := 400, body := [("error", "items must not be empty")] })
    else
      match userID with
      | none => (st, { code := 401, body := [("error_message", "Unauthorized")] })
      | some .other => (st, { code := 401, body := [("error_message", "Invalid user id")] })
      | some (.float64 v) =>
        if truncate v = 0 then
          (st, { code := 400,
                 body := [("error", "Invalid session, please try to login again!")] })
        else
          let result := OrderUsecase.CheckoutOrder json now f st { param with UserID := truncate v }
          match result.err with
          | some err => (result.state, { code := 500, body := [("error", err.Error)] })
          | none =>
            (result.state,
              { code := 200,
                body := [("order_id", toString result.orderID), ("status", "created")] })

end OrderHandler

/-! ## A concrete codec

`JSON.sample` instantiates the `JSON` parameter with a codec that writes and
reads the text form `encoding/json` gives to item lists and payment events
(with integral prices), and that reads an item list in which a string stands
where a number belongs the way `encoding/json` does: the field stays zero,
the rest is decoded and the mismatch is the error. It serves to evaluate the
program on concrete inputs; no general property below depends on it. -/

namespace SampleCodec

/-- Decimal digits of a natural number. -/
def natText (n : Nat) : List Char := Nat.toDigits 10 n

/-- Decimal text of an integer. -/
def intText : Int → List Char
  | .ofNat n => natText n
  | .negSucc n => '-' :: natText (n + 1)

/-- Reads the digits at the head of the input, most significant first. -/
def readDigits (acc : Nat) : List Char → Nat × List Char
  | [] => (acc, [])
  | c :: rest =>
    if c.isDigit then readDigits (10 * acc + (c.toNat - 48)) rest else (acc, c :: rest)

/-- Reads a natural number: at least one digit. -/
def readNat : List Char → Option (Nat × List Char)
  | [] => none
  | c :: rest => if c.isDigit then some (readDigits 0 (c :: rest)) else none

/-- Reads an integer with an optional minus sign. -/
def readInt : List Char → Option (Int × List Char)
  | '-' :: rest => (readNat rest).map fun r => (-(r.1 : Int), r.2)
  | input => (readNat input).map fun r => ((r.1 : Int), r.2)

/-- Strips `lit` from the head of the input. -/
def expect : List Char → List Char → Option (List Char)
  | [], input => some input
  | _ :: _, [] => none
  | l :: lit, c :: rest => if l = c then expect lit rest else none

def keyProduct : List Char := "\x7b\"product_id\":".toList
def keyQuantity : List Char := ",\"quantity\":".toList
def keyPrice : List Char := ",\"price\":".toList

/-- Text of one item; the price is written as an integer. -/
def itemText (item : CheckoutItem) : List Char :=
  keyProduct ++ intText item.ProductID ++ keyQuantity ++ intText item.Quantity ++ keyPrice ++
    intText item.Price.num ++ ['\x7d']

/-- Skips a string literal (one without escapes) after its opening quote. -/
def skipString : List Char → Option (List Char)
  | [] => none
  | '\x22' :: rest => some rest
  | _ :: rest => skipString rest

/-- Reads the value of a numeric field: an integer, or a string literal,
which does not fit the field (the field stays 0 and the mismatch is noted). -/
def readField : List Char → Option (Int × Bool × List Char)
  | '\x22' :: rest => (skipString rest).map fun r => (0, true, r)
  | input => (readInt input).map fun r => (r.1, false, r.2)

/-- Reads one item, and whether one of its values did not fit its field. -/
def readItem (input : List Char) : Option ((CheckoutItem × Bool) × List Char) := do
  let r1 ← expect keyProduct input
  let (productID, m1, r2) ← readField r1
  let r3 ← expect keyQuantity r2
  let (quantity, m2, r4) ← readField r3
  let r5 ← expect keyPrice r4
  let (price, m3, r6) ← readField r5
  let r7 ← expect ['\x7d'] r6
  pure (({ ProductID := productID, Quantity := quantity, Price := price }, m1 || m2 || m3), r7)

/-- Text of the items after the first, each behind a comma. -/
def tailText : List CheckoutItem → List Char
  | [] => [']']
  | item :: rest => ',' :: itemText item ++ tailText rest

/-- Text of an item list. -/
def itemsText : List CheckoutItem → List Char
  | [] => ['[', ']']
  | item :: rest => '[' :: itemText item ++ tailText rest

/-- Reads the items after the first, up to the closing bracket. -/
def readTail : Nat → List Char → Option (List (CheckoutItem × Bool))
  | _, [']'] => some []
  | fuel + 1, ',' :: rest =>
    match readItem rest with
    | some (item, rest1) => (readTail fuel rest1).map fun items => item :: items
    | none => none
  | _, _ => none

/-- Reads an item list: `none` for a text that is not of the form, else the
items, each with the note whether a value did not fit. -/
def readItems : List Char → Option (List (CheckoutItem × Bool))
  | ['[', ']'] => some []
  | '[' :: rest =>
    match readItem rest with
    | some (item, rest1) => (readTail rest1.length rest1).map fun items => item :: items
    | none => none
  | _ => none

def keyOrder : List Char := "\x7b\"order_id\":".toList

/-- Reads a payment event. -/
def readEvent (input : List Char) : Option PaymentUpdateStatusEvent := do
  let r1 ← expect keyOrder input
  let (orderID, r2) ← readInt r1
  match r2 with
  | ['\x7d'] => pure { OrderID := orderID }
  | _ => none

/-- Turns a failed read into a decoding error. -/
def orSyntaxError {β : Type} : Option β → Except Err β
  | some v => .ok v
  | none => .error (.external "invalid character or unexpected end of JSON input")

/-- The result of `json.Unmarshal` on an item list: a syntax error, the
mismatch error when a value did not fit, else the items. -/
def decodeItems (input : List Char) : Except Err (List CheckoutItem) :=
  match readItems input with
  | none => .error (.external "invalid character or unexpected end of JSON input")
  | some read =>
    if read.any (·.2) then
      .error (.external "json: cannot unmarshal string into Go struct field of CheckoutItem")
    else .ok (read.map (·.1))

/-- What `json.Unmarshal` stored: nothing for a text that is not of the form,
else every item read. -/
def storedItems (input : List Char) : List CheckoutItem :=
  match readItems input with
  | none => []
  | some read => read.map (·.1)

/-- Text of the products of a stock event. -/
def productsText : List ProductItem → List Char
  | [] => []
  | [p] => "\x7b\"product_id\":".toList ++ intText p.ProductID ++ ",\"qty\":".toList ++
      intText p.Qty ++ ['\x7d']
  | p :: rest => "\x7b\"product_id\":".toList ++ intText p.ProductID ++ ",\"qty\":".toList ++
      intText p.Qty ++ ['\x7d', ','] ++ productsText rest

/-- Text of a stock event. -/
def stockEventText (event : ProductStockUpdateEvent) : List Char :=
  keyOrder ++ intText event.OrderID ++ ",\"products\":[".toList ++ productsText event.Products ++
    "],\"event_time\":".toList ++ natText event.EventTime ++ ['\x7d']

/-- Text of an order-created event with a finite, integral amount. -/
def orderCreatedText (event : OrderCreatedEvent) : List Char :=
  keyOrder ++ intText event.OrderID ++ ",\"user_id\":".toList ++ intText event.UserID ++
    ",\"total_amount\":".toList ++
    (match event.TotalAmount with
      | .finite v => intText v.num
      | _ => []) ++
    ",\"payment_method\":\"".toList ++ event.PaymentMethod.data ++
    "\",\"shipping_address\":\"".toList ++ event.ShippingAddress.data ++ "\"\x7d".toList

end SampleCodec

/-- A codec for the `JSON` parameter, in the format of `encoding/json` with
integral prices and amounts; the history text is not decoded. -/
def JSON.sample : JSON where
  marshalItems items := String.mk (SampleCodec.itemsText items)
  unmarshalItems text := SampleCodec.decodeItems text.data
  itemsOnError text := SampleCodec.storedItems text.data
  marshalHistory now :=
    String.mk ("[\x7b\"status\":\"created\",\"timestamp\":".toList ++ SampleCodec.natText now ++
      "\x7d]".toList)
  unmarshalHistory _ := .error (.external "unsupported")
  historyOnError _ := []
  unmarshalEvent text := SampleCodec.orSyntaxError (SampleCodec.readEvent text.data)
  orderCreatedText event := String.mk (SampleCodec.orderCreatedText event)
  marshalProductStock event := .ok (String.mk (SampleCodec.stockEventText event))

/-! ## Auxiliary notions used to state the properties -/

/-- The spec's valid item list: pairwise distinct product IDs, every
quantity in 1..10000, every price positive. -/
def ValidItems (items : List CheckoutItem) : Prop :=
  (items.map (·.ProductID)).Nodup ∧
    ∀ item ∈ items, 1 ≤ item.Quantity ∧ item.Quantity ≤ 10000 ∧ 0 < item.Price

/-- The `float64` amount of one line: `float64(item.Quantity) * item.Price`. -/
def lineAmount (item : CheckoutItem) : Float64 :=
  (Float64.ofInt item.Quantity).mul (Float64.ofRat item.Price)

/-- The `float64` sum of a list, added from the left starting at 0. -/
def Float64.sum (values : List Float64) : Float64 :=
  values.foldl Float64.add 0

/-- The sum of quantity times price over the items, in exact arithmetic. -/
def exactAmount (items : List CheckoutItem) : ℚ :=
  (items.map fun item => (item.Quantity : ℚ) * item.Price).sum

/-- Whether the request log holds a record for the token. -/
def Database.hasToken (d : Database) (token : String) : Prop :=
  ∃ log ∈ d.order_request_log, log.IdempotencyToken = token

/-- The order row a successful checkout of `param` inserts into database
`d`. -/
def insertedOrder (d : Database) (param : CheckoutRequest) : Order :=
  { OrderUsecase.newOrder param (OrderUsecase.calculateOrderSummary param.Items).1
      (OrderUsecase.calculateOrderSummary param.Items).2
    with ID := d.ordersSeq + 1, OrderDetailID := d.orderDetailSeq + 1 }

/-- The detail row a successful checkout of `param` inserts into database
`d`. -/
def insertedDetail (json : JSON) (now : Nat) (d : Database) (param : CheckoutRequest) :
    OrderDetail :=
  { ID := d.orderDetailSeq + 1, Products := json.marshalItems param.Items,
    OrderHistory := json.marshalHistory now }

/-- The invariants of the data model the history query relies on: order IDs
and detail IDs are pairwise distinct and every order references a detail
row. -/
def Database.WellFormed (d : Database) : Prop :=
  (d.orders.map (·.ID)).Nodup ∧ (d.order_detail.map (·.ID)).Nodup ∧
    ∀ o ∈ d.orders, ∃ dt ∈ d.order_detail, dt.ID = o.OrderDetailID

/-- The invariant the store keeps: the data model's invariants, and no row
carries an ID beyond the last one its sequence issued. -/
def Database.Inv (d : Database) : Prop :=
  d.WellFormed ∧ (∀ o ∈ d.orders, o.ID ≤ d.ordersSeq) ∧
    ∀ dt ∈ d.order_detail, dt.ID ≤ d.orderDetailSeq

/-- The IDs the store hands out are positive: the sequences never went below
zero and every row carries an ID of at least 1. -/
def Database.PositiveIDs (d : Database) : Prop :=
  0 ≤ d.ordersSeq ∧ 0 ≤ d.orderDetailSeq ∧ (∀ o ∈ d.orders, 1 ≤ o.ID) ∧
    ∀ dt ∈ d.order_detail, 1 ≤ dt.ID

/-- The orders the history query is to report: those of the user, with the
given status when the filter is positive. -/
def historySelects (param : OrderHistoryParam) (o : Order) : Bool :=
  o.UserID == param.UserID && (!decide (param.Status > 0) || o.Status == param.Status)

/-- A database with empty tables, opened with gorm's default settings. -/
def Database.empty : Database :=
  { AllowGlobalUpdate := false, orders := [], order_detail := [], order_request_log := [],
    ordersSeq := 0, orderDetailSeq := 0 }

/-- One move of the process: a checkout, or one turn of a reactor. -/
inductive Step (json : JSON) : State → State → Prop where
  | checkout (st : State) (now : Nat) (f : CheckoutFaults) (param : CheckoutRequest) :
    Step json st (OrderUsecase.CheckoutOrder json now f st param).state
  | paymentSuccess (st : State) (m : Inbound) :
    Step json st (PaymentSuccessConsumer.turn json st m)
  | paymentFailed (st : State) (m : Inbound) :
    Step json st (PaymentFailedConsumer.turn json st m)

/-- Any number of moves of the process. -/
inductive Steps (json : JSON) : State → State → Prop where
  | refl (st : State) : Steps json st st
  | tail {a b c : State} : Steps json a b → Step json b c → Steps json a c

/-- The states the process can reach from empty tables and an empty broker,
with either setting of the handle. -/
def Reachable (json : JSON) (st : State) : Prop :=
  ∃ g : Bool,
    Steps json { db := { Database.empty with AllowGlobalUpdate := g }, broker := [] } st

/-- The database holds order `orderID` with a detail row whose products text
is `products`. -/
def Database.holdsOrder (d : Database) (orderID : Int) (products : String) : Prop :=
  ∃ o ∈ d.orders, o.ID = orderID ∧
    ∃ dt ∈ d.order_detail, dt.ID = o.OrderDetailID ∧ dt.Products = products

/-- The state of a process started on an empty database and broker. -/
def State.empty : State :=
  { db := Database.empty, broker := [] }

/-- A checkout request: the two items of the spec's example, with a token. -/
def CheckoutRequest.sample : CheckoutRequest :=
  { UserID := 7,
    Items := [{ ProductID := 1, Quantity := 2, Price := 10 },
      { ProductID := 2, Quantity := 1, Price := 5 }],
    PaymentMethod := "card", ShippingAddress := "Jl. Merdeka 1", IdempotencyToken := "tok-1" }

/-- A database holding three orders of two users, opened with gorm's default
settings. -/
def Database.sample : Database :=
  { AllowGlobalUpdate := false,
    orders :=
      [{ Order.zero with ID := 1, UserID := 7, OrderDetailID := 1, Status := OrderStatusCompleted },
        { Order.zero with ID := 2, UserID := 8, OrderDetailID := 2, Status := OrderStatusCompleted },
        { Order.zero with ID := 3, UserID := 7, OrderDetailID := 3, Status := OrderStatusCreated }],
    order_detail :=
      [{ OrderDetail.zero with ID := 1 }, { OrderDetail.zero with ID := 2 },
        { OrderDetail.zero with ID := 3 }],
    order_request_log := [], ordersSeq := 3, orderDetailSeq := 3 }

/-- A database whose three orders of user 7 have detail rows with a products
text that decodes (order 1), one in which a string stands where the quantity
belongs (order 2), and one that is not JSON (order 3). -/
def Database.malformed : Database :=
  { AllowGlobalUpdate := false,
    orders :=
      [{ Order.zero with ID := 1, UserID := 7, OrderDetailID := 1, Status := OrderStatusCompleted },
        { Order.zero with ID := 2, UserID := 7, OrderDetailID := 2, Status := OrderStatusCancelled },
        { Order.zero with ID := 3, UserID := 7, OrderDetailID := 3, Status := OrderStatusCreated }],
    order_detail :=
      [{ OrderDetail.zero with
          ID := 1, Products := "[\x7b\"product_id\":1,\"quantity\":2,\"price\":10\x7d]" },
        { OrderDetail.zero with
          ID := 2,
          Products := "[\x7b\"product_id\":1,\"quantity\":2,\"price\":10\x7d," ++
            "\x7b\"product_id\":2,\"quantity\":\"x\",\"price\":5\x7d]" },
        { OrderDetail.zero with ID := 3, Products := "not json" }],
    order_request_log := [], ordersSeq := 3, orderDetailSeq := 3 }

/-- The rational value of the `float64` that the decimal 0.1 denotes. -/
def Float64.value0_1 : ℚ :=
  3602879701896397 / 36028797018963968

/-- The rational value of the `float64` that the decimal 1e308 denotes. -/
def Float64.value1e308 : ℚ :=
  156575653125701 * 2 ^ 976

/-- A valid request whose amount overflows: 10000 units at the price 1e308. -/
def CheckoutRequest.overflow : CheckoutRequest :=
  { UserID := 7,
    Items := [{ ProductID := 1, Quantity := 10000, Price := Float64.value1e308 }],
    PaymentMethod := "card", ShippingAddress := "Jl. Merdeka 1", IdempotencyToken := "" }

/-- The state after the sample request was checked out on an empty state:
order 1, status Created. -/
def State.afterCheckout : State :=
  (OrderUsecase.CheckoutOrder JSON.sample 1 CheckoutFaults.none State.empty
    CheckoutRequest.sample).state

/-- A payment event for order 1, delivered at time 9 with every call carried
out. -/
def Inbound.sample : Inbound :=
  { read := .ok "\x7b\"order_id\":1\x7d", now := 9, faults := ReactorFaults.none }

/-! ## Reading decimal text back -/

/-- The value of a decimal digit character. -/
def digitValue (c : Char) : Nat := c.toNat - 48

/-- The number a list of decimal digit characters stands for, most
significant digit first, continuing from `acc`. -/
def decimalValueFrom (acc : Nat) (text : List Char) : Nat :=
  text.foldl (fun a c => 10 * a + digitValue c) acc

/-- The integer a decimal text with an optional minus sign stands for. -/
def decimalInt (text : List Char) : Int :=
  if text.head? = some '-' then -(decimalValueFrom 0 text.tail : Int)
  else (decimalValueFrom 0 text : Int)

/-! ### Rounding -/

namespace Float64

/-- An integer is its own nearest integer. -/
theorem roundHalfEven_intCast (k : Int) : roundHalfEven (k : ℚ) = k := by
  simp [roundHalfEven]

/-- The nearest integer is not below the floor. -/
theorem floor_le_roundHalfEven (x : ℚ) : ⌊x⌋ ≤ roundHalfEven x := by
  unfold roundHalfEven
  split_ifs <;> omega

/-- The nearest integer is not above the ceiling. -/
theorem roundHalfEven_le_of_le (x : ℚ) (n : Int) (h : x ≤ n) : roundHalfEven x ≤ n := by
  by_cases hx : x = (⌊x⌋ : ℚ)
  · rw [hx, roundHalfEven_intCast]
    exact Int.floor_le_floor h |>.trans (by simp)
  · have hlt : (⌊x⌋ : ℚ) < n := lt_of_lt_of_le (lt_of_le_of_ne (Int.floor_le x) (Ne.symm hx)) h
    have hlt1 : ⌊x⌋ < n := by exact_mod_cast hlt
    unfold roundHalfEven
    split_ifs <;> omega

/-- The spacing at magnitude `a` is at most 2^e when `a` is below 2^(e+53)
and `e` is in the exponent range. -/
theorem quantum_le (a : ℚ) (e : Int) (ha : 0 < a) (hlt : a < 2 ^ (e + 53)) (he : -1074 ≤ e) :
    quantum a ≤ e := by
  have h1 : (2 : ℚ) ^ Int.log 2 a ≤ a := by
    simpa using Int.zpow_log_le_self (b := 2) (by norm_num) ha
  have h2 : (2 : ℚ) ^ Int.log 2 a < 2 ^ (e + 53) := lt_of_le_of_lt h1 hlt
  have h3 : Int.log 2 a < e + 53 := (zpow_lt_zpow_iff_right₀ (by norm_num : (1 : ℚ) < 2)).mp h2
  unfold quantum
  omega

/-- A rational that is a `float64` value rounds to itself: `m * 2^e` with a
significand below 2^53 in absolute value, `e` at least -1074 and magnitude
below 2^1024. -/
theorem round_exact (m e : Int) (hm : |m| < 2 ^ 53) (he : -1074 ≤ e)
    (hfin : |(m : ℚ) * 2 ^ e| < 2 ^ (1024 : Nat)) :
    round ((m : ℚ) * 2 ^ e) = finite ((m : ℚ) * 2 ^ e) := by
  have h2 : (0 : ℚ) < 2 := by norm_num
  have hpos : ∀ z : Int, (0 : ℚ) < 2 ^ z := fun z => zpow_pos h2 z
  have key : ((roundHalfEven ((m : ℚ) * 2 ^ e / 2 ^ quantum |(m : ℚ) * 2 ^ e|) : Int) : ℚ) *
      2 ^ quantum |(m : ℚ) * 2 ^ e| = (m : ℚ) * 2 ^ e := by
    by_cases hm0 : m = 0
    · subst hm0
      simp [roundHalfEven]
    · have ha : 0 < |(m : ℚ) * 2 ^ e| := by
        rw [abs_pos]
        exact mul_ne_zero (by exact_mod_cast hm0) (ne_of_gt (hpos e))
      have hlt : |(m : ℚ) * 2 ^ e| < 2 ^ (e + 53) := by
        rw [abs_mul, abs_of_pos (hpos e), zpow_add₀ (ne_of_gt h2), mul_comm ((2 : ℚ) ^ e)]
        apply mul_lt_mul_of_pos_right _ (hpos e)
        exact_mod_cast hm
      have hq := quantum_le _ e ha hlt he
      obtain ⟨d, hd⟩ : ∃ d : Nat, e = quantum |(m : ℚ) * 2 ^ e| + d :=
        ⟨(e - quantum |(m : ℚ) * 2 ^ e|).toNat, by omega⟩
      generalize quantum |(m : ℚ) * 2 ^ e| = E at hd ⊢
      have hdiv : (m : ℚ) * 2 ^ e / 2 ^ E = ((m * 2 ^ d : Int) : ℚ) := by
        rw [hd, zpow_add₀ (ne_of_gt h2), zpow_natCast]
        field_simp
        ring
      rw [hdiv, roundHalfEven_intCast, hd, zpow_add₀ (ne_of_gt h2), zpow_natCast]
      push_cast
      ring
  unfold round
  simp only [key]
  rw [if_neg (not_le.mpr hfin)]

/-- An integer below 2^53 in absolute value converts without rounding. -/
theorem ofInt_exact (n : Int) (hn : |n| < 2 ^ 53) : ofInt n = finite n := by
  have h1 : |(n : ℚ)| < 2 ^ (53 : Nat) := by exact_mod_cast hn
  have h2 : (2 : ℚ) ^ (53 : Nat) < 2 ^ (1024 : Nat) := pow_lt_pow_right₀ (by norm_num) (by norm_num)
  have h := round_exact n 0 hn (by norm_num) (by
    rw [zpow_zero, mul_one]
    exact lt_trans h1 h2)
  rw [zpow_zero, mul_one] at h
  exact h

/-- A rational of magnitude 2^1024 or more rounds to the infinity of its
sign. -/
theorem round_overflow (q : ℚ) (h : 2 ^ (1024 : Nat) ≤ |q|) : round q = inf (decide (q < 0)) := by
  have h2 : (0 : ℚ) < 2 := by norm_num
  have hpos : ∀ z : Int, (0 : ℚ) < 2 ^ z := fun z => zpow_pos h2 z
  have ha : 0 < |q| := lt_of_lt_of_le (by positivity) h
  have hlog : (1024 : Int) ≤ Int.log 2 |q| := by
    by_contra hlt
    have h1 : Int.log 2 |q| + 1 ≤ ((1024 : Nat) : Int) := by omega
    have h3 : |q| < (2 : ℚ) ^ (Int.log 2 |q| + 1) := by
      simpa using Int.lt_zpow_succ_log_self (b := 2) (by norm_num) |q|
    have h4 : (2 : ℚ) ^ (Int.log 2 |q| + 1) ≤ 2 ^ ((1024 : Nat) : Int) :=
      zpow_le_zpow_right₀ (by norm_num) h1
    rw [zpow_natCast] at h4
    exact absurd (lt_of_lt_of_le h3 h4) (not_lt.mpr h)
  have hq : quantum |q| = Int.log 2 |q| - 52 := by
    unfold quantum
    omega
  have hle : (2 : ℚ) ^ Int.log 2 |q| ≤ |q| := by
    simpa using Int.zpow_log_le_self (b := 2) (by norm_num) ha
  have hbig : (2 : ℚ) ^ (1024 : Nat) ≤ 2 ^ Int.log 2 |q| := by
    rw [← zpow_natCast]
    exact zpow_le_zpow_right₀ (by norm_num) (by simpa using hlog)
  have hsplit : (2 : ℚ) ^ Int.log 2 |q| = 2 ^ (52 : Nat) * 2 ^ quantum |q| := by
    rw [hq, ← zpow_natCast, ← zpow_add₀ (ne_of_gt h2)]
    congr 1
    simp
  have hscaled : (2 : ℚ) ^ (52 : Nat) ≤ |q| / 2 ^ quantum |q| := by
    rw [le_div_iff₀ (hpos _), ← hsplit]
    exact hle
  have hc : (((2 : Int) ^ (52 : Nat) : Int) : ℚ) = (2 : ℚ) ^ (52 : Nat) := by
    simp only [Int.cast_pow, Int.cast_ofNat]
  unfold round
  simp only
  rw [if_pos]
  generalize quantum |q| = E at hsplit hscaled ⊢
  rw [abs_mul, abs_of_pos (hpos _)]
  refine le_trans hbig ?_
  rw [hsplit]
  apply mul_le_mul_of_nonneg_right _ (le_of_lt (hpos _))
  rcases le_or_lt 0 q with h0 | h0
  · rw [abs_of_nonneg h0, ← hc] at hscaled
    have h3 : (2 : Int) ^ (52 : Nat) ≤ roundHalfEven (q / 2 ^ E) :=
      le_trans (Int.le_floor.mpr hscaled) (floor_le_roundHalfEven _)
    have h4 : (((2 : Int) ^ (52 : Nat) : Int) : ℚ) ≤ (roundHalfEven (q / 2 ^ E) : ℚ) :=
      Int.cast_le.mpr h3
    rw [hc] at h4
    exact le_trans h4 (le_abs_self _)
  · rw [abs_of_neg h0, neg_div, ← hc] at hscaled
    have h1 : q / 2 ^ E ≤ ((-((2 : Int) ^ (52 : Nat)) : Int) : ℚ) := by
      rw [Int.cast_neg]
      linarith
    have h3 := roundHalfEven_le_of_le _ _ h1
    have h4 : (roundHalfEven (q / 2 ^ E) : ℚ) ≤ ((-((2 : Int) ^ (52 : Nat)) : Int) : ℚ) :=
      Int.cast_le.mpr h3
    rw [Int.cast_neg, hc] at h4
    refine le_trans ?_ (neg_le_abs _)
    linarith

/-- Half way above an odd integer the nearest even integer is the next one. -/
theorem roundHalfEven_half_odd (f : Int) (hodd : f % 2 = 1) :
    roundHalfEven ((f : ℚ) + 1 / 2) = f + 1 := by
  have hfloor : ⌊(f : ℚ) + 1 / 2⌋ = f := by
    rw [Int.floor_eq_iff]
    constructor <;> linarith
  unfold roundHalfEven
  rw [hfloor]
  have h1 : ¬ ((f : ℚ) + 1 / 2 - f < 1 / 2) := by simp
  have h2 : ¬ ((1 : ℚ) / 2 < (f : ℚ) + 1 / 2 - f) := by simp
  have h3 : ¬ (f % 2 = 0) := by omega
  rw [if_neg h1, if_neg h2, if_neg h3]

/-- Rounding a rational whose binary exponent `b` is known and in the range
of normal numbers: the scaled value is rounded to an integer `m`, and the
result is `m * 2^(b - 52)` when that is below 2^1024. -/
theorem round_of_exponent (q : ℚ) (b m : Int) (hlo : (2 : ℚ) ^ b ≤ |q|)
    (hhi : |q| < (2 : ℚ) ^ (b + 1)) (hb : -1022 ≤ b)
    (hm : roundHalfEven (q / 2 ^ (b - 52)) = m)
    (hfin : |(m : ℚ) * 2 ^ (b - 52)| < 2 ^ (1024 : Nat)) :
    round q = finite ((m : ℚ) * 2 ^ (b - 52)) := by
  have hpos : 0 < |q| := lt_of_lt_of_le (zpow_pos (by norm_num) b) hlo
  have hlog : Int.log 2 |q| = b := by
    have h1 : b ≤ Int.log 2 |q| := by
      rw [← Int.zpow_le_iff_le_log (by norm_num) hpos]
      simpa using hlo
    have h2 : Int.log 2 |q| < b + 1 := by
      rw [← Int.lt_zpow_iff_log_lt (by norm_num) hpos]
      simpa using hhi
    omega
  have hq : quantum |q| = b - 52 := by
    unfold quantum
    rw [hlog]
    omega
  unfold round
  simp only [hq, hm]
  rw [if_neg (not_le.mpr hfin)]

end Float64
/-! ## Properties

### Validation -/

namespace OrderUsecase

/-- The loop of `validateProducts` returns nil exactly when no product ID is
among those seen before or repeats, and every quantity and price is in
range. -/
theorem validateProductsFrom_eq_none (seen : List Int) (items : List CheckoutItem) :
    validateProductsFrom seen items = none ↔
      (∀ item ∈ items, item.ProductID ∉ seen) ∧ (items.map (·.ProductID)).Nodup ∧
        ∀ item ∈ items, 1 ≤ item.Quantity ∧ item.Quantity ≤ 10000 ∧ 0 < item.Price := by
  induction items generalizing seen with
  | nil => simp [validateProductsFrom]
  | cons item rest ih =>
    unfold validateProductsFrom
    by_cases h1 : item.ProductID ∈ seen
    · simp [h1]
    · by_cases h2 : item.Quantity ≤ 0 ∨ item.Quantity > 10000
      · simp only [h1, h2, if_true, if_false]
        constructor
        · intro h; cases h
        · rintro ⟨_, _, h⟩
          have := h item (List.mem_cons_self _ _)
          omega
      · by_cases h3 : item.Price ≤ 0
        · simp only [h1, h2, h3, if_true, if_false]
          constructor
          · intro h; cases h
          · rintro ⟨_, _, h⟩
            have := (h item (List.mem_cons_self _ _)).2.2
            exact absurd this (not_lt.mpr h3)
        · simp only [h1, h2, h3, if_false, ih]
          push_neg at h2 h3
          simp only [List.mem_cons, List.map_cons, List.nodup_cons, List.mem_map]
          constructor
          · rintro ⟨ha, hb, hc⟩
            refine ⟨?_, ⟨?_, hb⟩, ?_⟩
            · rintro x (rfl | hx)
              · exact h1
              · exact fun hm => ha x hx (Or.inr hm)
            · rintro ⟨x, hx, hxe⟩
              exact ha x hx (Or.inl hxe)
            · rintro x (rfl | hx)
              · exact ⟨by omega, by omega, h3⟩
              · exact hc x hx
          · rintro ⟨ha, ⟨hb1, hb2⟩, hc⟩
            refine ⟨?_, hb2, fun x hx => hc x (Or.inr hx)⟩
            rintro x hx (hm | hm)
            · exact hb1 ⟨x, hx, hm⟩
            · exact ha x (Or.inr hx) hm

/-- Function `validateProducts` returns nil exactly on the lists with pairwise
distinct product IDs, quantities in 1..10000 and positive prices. -/
theorem validateProducts_eq_none (items : List CheckoutItem) :
    validateProducts items = none ↔
      (items.map (·.ProductID)).Nodup ∧
        ∀ item ∈ items, 1 ≤ item.Quantity ∧ item.Quantity ≤ 10000 ∧ 0 < item.Price := by
  simp [validateProducts, validateProductsFrom_eq_none]

/-- A product ID at two positions means the list of product IDs has a
repetition. -/
theorem not_nodup_of_two_positions (items : List CheckoutItem) (i j : Fin items.length)
    (hij : i ≠ j) (h : (items.get i).ProductID = (items.get j).ProductID) :
    ¬ (items.map (·.ProductID)).Nodup := by
  intro hnd
  rw [List.nodup_iff_injective_get] at hnd
  have hi : i.1 < (items.map (·.ProductID)).length := by simp
  have hj : j.1 < (items.map (·.ProductID)).length := by simp
  have := @hnd ⟨i.1, hi⟩ ⟨j.1, hj⟩ (by simpa using h)
  exact hij (Fin.ext (by simpa using this))

/-- When the idempotency block returns an error, `CheckoutOrder` returns it
with ID 0 and does nothing else. -/
theorem CheckoutOrder_of_guard (json : JSON) (now : Nat) (f : CheckoutFaults) (st : State)
    (param : CheckoutRequest) (err : Err)
    (h : idempotencyGuard st.db f.CheckIdempotency param.IdempotencyToken = some err) :
    CheckoutOrder json now f st param =
      { state := st, orderID := 0, err := some err, dispatched := [] } := by
  simp only [CheckoutOrder, h]

/-- When the idempotency block passes and validation fails, `CheckoutOrder`
returns the validation error with ID 0 and does nothing else. -/
theorem CheckoutOrder_of_invalid (json : JSON) (now : Nat) (f : CheckoutFaults) (st : State)
    (param : CheckoutRequest) (err : Err)
    (hg : idempotencyGuard st.db f.CheckIdempotency param.IdempotencyToken = none)
    (h : validateProducts param.Items = some err) :
    CheckoutOrder json now f st param =
      { state := st, orderID := 0, err := some err, dispatched := [] } := by
  simp only [CheckoutOrder, hg, h]

/-- Whatever the idempotency block does, a request whose items fail
validation is refused with ID 0, no state change and no event. -/
theorem CheckoutOrder_refuses_invalid (json : JSON) (now : Nat) (f : CheckoutFaults)
    (st : State) (param : CheckoutRequest) (err : Err)
    (h : validateProducts param.Items = some err) :
    ∃ e, CheckoutOrder json now f st param =
      { state := st, orderID := 0, err := some e, dispatched := [] } := by
  cases hg : idempotencyGuard st.db f.CheckIdempotency param.IdempotencyToken with
  | some e => exact ⟨e, CheckoutOrder_of_guard json now f st param e hg⟩
  | none => exact ⟨err, CheckoutOrder_of_invalid json now f st param err hg h⟩

end OrderUsecase

/-! ### Idempotency query -/

/-- A statement with a single condition selects the rows meeting it. -/
theorem DB.selects_single {α : Type} (rows : List α) (g : Bool) (c : α → Bool)
    (e : Option Err) :
    DB.selects { rows := rows, AllowGlobalUpdate := g, conds := [c], Error := e } = c := by
  funext row
  simp [DB.selects]

/-- With a record for the token and the query carried out, the check
answers true. -/
theorem CheckIdempotency_of_record (d : Database) (token : String)
    (h : ∃ log ∈ d.order_request_log, log.IdempotencyToken = token) :
    OrderService.CheckIdempotency d none token = (true, none) := by
  obtain ⟨log, hmem, htok⟩ := h
  have hfind : (d.order_request_log.find? fun l => l.IdempotencyToken == token).isSome := by
    rw [List.find?_isSome]
    exact ⟨log, hmem, by simp [htok]⟩
  obtain ⟨row, hrow⟩ := Option.isSome_iff_exists.mp hfind
  simp [OrderService.CheckIdempotency, OrderRepository.CheckIdempotency, DB.First,
    Database.TableOrderRequestLog, DB.Where, DB.selects_single, hrow]

/-- Without a record for the token and the query carried out, the check
answers false. -/
theorem CheckIdempotency_of_fresh (d : Database) (token : String)
    (h : ∀ log ∈ d.order_request_log, log.IdempotencyToken ≠ token) :
    OrderService.CheckIdempotency d none token = (false, none) := by
  have hfind : (d.order_request_log.find? fun l => l.IdempotencyToken == token) = none := by
    rw [List.find?_eq_none]
    intro x hx
    simpa using h x hx
  simp [OrderService.CheckIdempotency, OrderRepository.CheckIdempotency, DB.First,
    Database.TableOrderRequestLog, DB.Where, DB.selects_single, hfind]

/-- When the query fails, the check returns the error. -/
theorem CheckIdempotency_of_fault (d : Database) (token msg : String) :
    OrderService.CheckIdempotency d (some msg) token = (false, some (.external msg)) := by
  simp [OrderService.CheckIdempotency, OrderRepository.CheckIdempotency, DB.First, DB.Where,
    Database.TableOrderRequestLog]

namespace OrderUsecase

/-- With a non-empty token that has a record, the idempotency block always
returns an error: the duplicate-request error when the query is carried
out. -/
theorem idempotencyGuard_of_record (d : Database) (fault : Option String) (token : String)
    (hne : token ≠ "") (h : ∃ log ∈ d.order_request_log, log.IdempotencyToken = token) :
    ∃ e, idempotencyGuard d fault token = some e ∧ (fault = none → e = .orderAlreadyCreated) := by
  cases fault with
  | none =>
    exact ⟨.orderAlreadyCreated, by simp [idempotencyGuard, hne, CheckIdempotency_of_record d token h]⟩
  | some msg =>
    exact ⟨.external msg, by simp [idempotencyGuard, hne, CheckIdempotency_of_fault]⟩

/-- With an empty token, or a token without record and the query carried
out, the idempotency block passes. -/
theorem idempotencyGuard_of_fresh (d : Database) (token : String)
    (h : ∀ log ∈ d.order_request_log, log.IdempotencyToken ≠ token) :
    idempotencyGuard d none token = none := by
  by_cases hne : token = ""
  · simp [idempotencyGuard, hne]
  · simp [idempotencyGuard, hne, CheckIdempotency_of_fresh d token h]

end OrderUsecase

/-! ### The atomic write -/

namespace OrderService

/-- The database after both inserts and the commit went through. -/
theorem SaveOrderAndOrderDetail_ok (d : Database) (order : Order) (orderDetail : OrderDetail) :
    SaveOrderAndOrderDetail d none none none order orderDetail =
      { db := { d with
          order_detail := d.order_detail ++ [{ orderDetail with ID := d.orderDetailSeq + 1 }],
          orderDetailSeq := d.orderDetailSeq + 1,
          orders := d.orders ++
            [{ order with OrderDetailID := d.orderDetailSeq + 1, ID := d.ordersSeq + 1 }],
          ordersSeq := d.ordersSeq + 1 },
        txEnd := .committed, orderID := d.ordersSeq + 1, err := none } := by
  rfl

/-- A failed write leaves the rows of every table as they were and returns
ID 0. -/
theorem SaveOrderAndOrderDetail_err (d : Database) (detailFault orderFault commitFault : Option String)
    (order : Order) (orderDetail : OrderDetail) (err : Err)
    (h : (SaveOrderAndOrderDetail d detailFault orderFault commitFault order orderDetail).err =
      some err) :
    (SaveOrderAndOrderDetail d detailFault orderFault commitFault order orderDetail).orderID = 0 ∧
    (SaveOrderAndOrderDetail d detailFault orderFault commitFault order orderDetail).txEnd ≠
      .committed ∧
    (SaveOrderAndOrderDetail d detailFault orderFault commitFault order orderDetail).db.orders =
      d.orders ∧
    (SaveOrderAndOrderDetail d detailFault orderFault commitFault order
      orderDetail).db.order_detail = d.order_detail ∧
    (SaveOrderAndOrderDetail d detailFault orderFault commitFault order
      orderDetail).db.order_request_log = d.order_request_log ∧
    (SaveOrderAndOrderDetail d detailFault orderFault commitFault order
      orderDetail).db.AllowGlobalUpdate = d.AllowGlobalUpdate := by
  cases detailFault <;> cases orderFault <;> cases commitFault <;>
    simp_all [SaveOrderAndOrderDetail, OrderRepository.WithTransaction,
      OrderRepository.InsertOrderDetailTx, OrderRepository.InsertOrderTx, Tx.Commit, Tx.Rollback,
      Database.Begin]

/-- A write returns no error exactly when no call of it failed. -/
theorem SaveOrderAndOrderDetail_err_eq_none (d : Database)
    (detailFault orderFault commitFault : Option String) (order : Order)
    (orderDetail : OrderDetail) :
    (SaveOrderAndOrderDetail d detailFault orderFault commitFault order orderDetail).err = none ↔
      detailFault = none ∧ orderFault = none ∧ commitFault = none := by
  cases detailFault <;> cases orderFault <;> cases commitFault <;>
    simp [SaveOrderAndOrderDetail, OrderRepository.WithTransaction,
      OrderRepository.InsertOrderDetailTx, OrderRepository.InsertOrderTx, Tx.Commit, Tx.Rollback,
      Database.Begin]

end OrderService

/-- C6: `SaveOrderAndOrderDetail` is all-or-nothing. When the detail insert
goes through and the order insert fails, the call returns ID 0 with that
error, the transaction ends rolled back, and the tables hold the rows they
held before. When both inserts and the commit go through, the transaction
ends committed, each table has gained one row, the order row references the
ID generated for the detail row, and the returned ID is the one generated for
the order row. -/
theorem SaveOrderAndOrderDetail_all_or_nothing (d : Database) (order : Order)
    (orderDetail : OrderDetail) :
    (∀ (msg : String) (commitFault : Option String),
      (OrderService.SaveOrderAndOrderDetail d none (some msg) commitFault order
        orderDetail).orderID = 0 ∧
      (OrderService.SaveOrderAndOrderDetail d none (some msg) commitFault order
        orderDetail).err = some (.external msg) ∧
      (OrderService.SaveOrderAndOrderDetail d none (some msg) commitFault order
        orderDetail).txEnd = .rolledBack ∧
      (OrderService.SaveOrderAndOrderDetail d none (some msg) commitFault order
        orderDetail).db.orders = d.orders ∧
      (OrderService.SaveOrderAndOrderDetail d none (some msg) commitFault order
        orderDetail).db.order_detail = d.order_detail ∧
      (OrderService.SaveOrderAndOrderDetail d none (some msg) commitFault order
        orderDetail).db.order_request_log = d.order_request_log) ∧
    (∃ (newOrder : Order) (newDetail : OrderDetail),
      newDetail = { orderDetail with ID := d.orderDetailSeq + 1 } ∧
      newOrder = { order with ID := d.ordersSeq + 1, OrderDetailID := newDetail.ID } ∧
      (OrderService.SaveOrderAndOrderDetail d none none none order orderDetail).err = none ∧
      (OrderService.SaveOrderAndOrderDetail d none none none order orderDetail).txEnd =
        .committed ∧
      (OrderService.SaveOrderAndOrderDetail d none none none order orderDetail).orderID =
        newOrder.ID ∧
      (OrderService.SaveOrderAndOrderDetail d none none none order orderDetail).db.orders =
        d.orders ++ [newOrder] ∧
      (OrderService.SaveOrderAndOrderDetail d none none none order orderDetail).db.order_detail =
        d.order_detail ++ [newDetail]) := by
  refine ⟨fun msg commitFault => ?_, _, _, rfl, rfl, ?_⟩
  · cases commitFault <;> exact ⟨rfl, rfl, rfl, rfl, rfl, rfl⟩
  · rw [OrderService.SaveOrderAndOrderDetail_ok]
    exact ⟨rfl, rfl, rfl, rfl, rfl⟩

/-! ### Checkout -/

namespace OrderUsecase

/-- The loop of `calculateOrderSummary` adds the quantities of the remaining
items to the running quantity and their line amounts, one after the other,
to the running amount. -/
theorem calculateOrderSummaryFrom_eq (totalQty : Int) (totalAmount : Float64)
    (items : List CheckoutItem) :
    calculateOrderSummaryFrom totalQty totalAmount items =
      (totalQty + (items.map (·.Quantity)).sum,
        (items.map lineAmount).foldl Float64.add totalAmount) := by
  induction items generalizing totalQty totalAmount with
  | nil => simp [calculateOrderSummaryFrom]
  | cons item rest ih =>
    simp only [calculateOrderSummaryFrom, ih, List.map_cons, List.sum_cons, List.foldl_cons,
      lineAmount]
    rw [add_assoc]

/-- Function `calculateOrderSummary` returns the sum of the quantities and the
`float64` sum of the line amounts. -/
theorem calculateOrderSummary_eq (items : List CheckoutItem) :
    calculateOrderSummary items =
      ((items.map (·.Quantity)).sum, Float64.sum (items.map lineAmount)) := by
  simp [calculateOrderSummary, calculateOrderSummaryFrom_eq, Float64.sum]

/-- A nonnegative multiple of 2^-k below 2^(53-k), with `k` at most 1074, is a
`float64` value. -/
theorem round_dyadic (k : Nat) (hk : k ≤ 1074) (c : Int) (h0 : 0 ≤ c) (hc : c < 2 ^ 53) :
    Float64.round ((c : ℚ) / 2 ^ k) = .finite ((c : ℚ) / 2 ^ k) := by
  have habs : |c| < 2 ^ 53 := by rw [abs_of_nonneg h0]; exact hc
  have heq : (c : ℚ) / 2 ^ k = (c : ℚ) * 2 ^ (-(k : Int)) := by
    rw [zpow_neg, zpow_natCast, div_eq_mul_inv]
  have hc0 : (0 : ℚ) ≤ c := by exact_mod_cast h0
  have hpow : (1 : ℚ) ≤ 2 ^ k := one_le_pow₀ (by norm_num)
  have hle : (c : ℚ) / 2 ^ k ≤ c := div_le_self hc0 hpow
  have h1 : (c : ℚ) < 2 ^ (53 : Nat) := by exact_mod_cast hc
  have h2 : (2 : ℚ) ^ (53 : Nat) < 2 ^ (1024 : Nat) :=
    pow_lt_pow_right₀ (by norm_num) (by norm_num)
  have hfin : |(c : ℚ) * 2 ^ (-(k : Int))| < 2 ^ (1024 : Nat) := by
    rw [← heq, abs_of_nonneg (div_nonneg hc0 (by positivity))]
    exact lt_of_le_of_lt hle (lt_trans h1 h2)
  rw [heq]
  exact Float64.round_exact c (-(k : Int)) habs (by omega) hfin

/-- A nonnegative rational whose multiple by 2^k is an integer below 2^53
rounds to itself. -/
theorem round_of_scaled (k : Nat) (hk : k ≤ 1074) (q : ℚ) (h0 : 0 ≤ q) (c : Int)
    (hc : q * 2 ^ k = c) (hlt : q * 2 ^ k < 2 ^ 53) : Float64.round q = .finite q := by
  have hpk : (0 : ℚ) < 2 ^ k := by positivity
  have hq : q = (c : ℚ) / 2 ^ k := by rw [← hc]; field_simp
  have hc0 : 0 ≤ c := by
    have : (0 : ℚ) ≤ c := by rw [← hc]; exact mul_nonneg h0 (le_of_lt hpk)
    exact_mod_cast this
  have hc1 : c < 2 ^ 53 := by
    have : (c : ℚ) < ((2 ^ 53 : Int) : ℚ) := by rw [← hc]; push_cast; exact hlt
    exact_mod_cast this
  rw [hq]
  exact round_dyadic k hk c hc0 hc1

/-- The loop of `calculateOrderSummary` is exact when nothing has to be
rounded: quantities are in 1..10000, prices are not negative, the running
amount and every price are multiples of 2^-k, and the exact total is below
2^(53-k). -/
theorem calculateOrderSummaryFrom_exact (k : Nat) (hk : k ≤ 1074) (items : List CheckoutItem)
    (hitems : ∀ item ∈ items, 1 ≤ item.Quantity ∧ item.Quantity ≤ 10000 ∧ 0 ≤ item.Price ∧
      ∃ c : Int, item.Price * 2 ^ k = c)
    (totalQty : Int) (totalAmount : ℚ) (h0 : 0 ≤ totalAmount)
    (hacc : ∃ c : Int, totalAmount * 2 ^ k = c)
    (hsmall : (totalAmount + exactAmount items) * 2 ^ k < 2 ^ 53) :
    calculateOrderSummaryFrom totalQty (.finite totalAmount) items =
      (totalQty + (items.map (·.Quantity)).sum, .finite (totalAmount + exactAmount items)) := by
  have hpk : (0 : ℚ) < 2 ^ k := by positivity
  induction items generalizing totalQty totalAmount with
  | nil => simp [calculateOrderSummaryFrom, exactAmount]
  | cons item rest ih =>
    obtain ⟨hq, hq1, hp, cp, hcp⟩ := hitems item (List.mem_cons_self _ _)
    obtain ⟨ca, hca⟩ := hacc
    have hrest0 : 0 ≤ exactAmount rest := by
      unfold exactAmount
      apply List.sum_nonneg
      intro x hx
      obtain ⟨it, hit, rfl⟩ := List.mem_map.mp hx
      obtain ⟨h1, -, h2, -⟩ := hitems it (List.mem_cons_of_mem _ hit)
      have h3 : (0 : ℚ) ≤ it.Quantity := by exact_mod_cast (by omega : (0 : Int) ≤ it.Quantity)
      exact mul_nonneg h3 h2
    have hq0 : (0 : ℚ) ≤ item.Quantity := by exact_mod_cast (by omega : (0 : Int) ≤ item.Quantity)
    have hq1' : (1 : ℚ) ≤ item.Quantity := by exact_mod_cast hq
    have hline0 : 0 ≤ (item.Quantity : ℚ) * item.Price := mul_nonneg hq0 hp
    have hcons : exactAmount (item :: rest) =
        (item.Quantity : ℚ) * item.Price + exactAmount rest := by
      simp [exactAmount]
    rw [hcons] at hsmall
    have hofInt : Float64.ofInt item.Quantity = .finite item.Quantity :=
      Float64.ofInt_exact _ (by rw [abs_of_nonneg (by omega)]; omega)
    have hofRat : Float64.ofRat item.Price = .finite item.Price := by
      apply round_of_scaled k hk _ hp cp hcp
      nlinarith [mul_nonneg hp (le_of_lt hpk), mul_nonneg h0 (le_of_lt hpk),
        mul_nonneg hrest0 (le_of_lt hpk),
        mul_nonneg (sub_nonneg.mpr hq1') (mul_nonneg hp (le_of_lt hpk))]
    have hline : Float64.round ((item.Quantity : ℚ) * item.Price) =
        .finite ((item.Quantity : ℚ) * item.Price) := by
      apply round_of_scaled k hk _ hline0 (item.Quantity * cp)
      · rw [Int.cast_mul, ← hcp]; ring
      · nlinarith
    have hadd : Float64.round (totalAmount + (item.Quantity : ℚ) * item.Price) =
        .finite (totalAmount + (item.Quantity : ℚ) * item.Price) := by
      apply round_of_scaled k hk _ (add_nonneg h0 hline0) (ca + item.Quantity * cp)
      · rw [Int.cast_add, Int.cast_mul, ← hcp, ← hca]; ring
      · nlinarith
    simp only [calculateOrderSummaryFrom, hofInt, hofRat, Float64.mul, hline, Float64.add, hadd]
    rw [ih (fun it hit => hitems it (List.mem_cons_of_mem _ hit)) _ _ (add_nonneg h0 hline0)
      ⟨ca + item.Quantity * cp, by rw [Int.cast_add, Int.cast_mul, ← hcp, ← hca]; ring⟩
      (by rw [add_assoc]; exact hsmall)]
    simp only [List.map_cons, List.sum_cons, hcons]
    refine Prod.ext ?_ ?_ <;> simp only [] <;> ring_nf

/-- Function `calculateOrderSummary` returns the exact sum of quantity times
price when nothing has to be rounded. -/
theorem calculateOrderSummary_exact (k : Nat) (hk : k ≤ 1074) (items : List CheckoutItem)
    (hitems : ∀ item ∈ items, 1 ≤ item.Quantity ∧ item.Quantity ≤ 10000 ∧ 0 ≤ item.Price ∧
      ∃ c : Int, item.Price * 2 ^ k = c)
    (hsmall : exactAmount items * 2 ^ k < 2 ^ 53) :
    calculateOrderSummary items = ((items.map (·.Quantity)).sum, .finite (exactAmount items)) := by
  have h := calculateOrderSummaryFrom_exact k hk items hitems 0 0 le_rfl ⟨0, by simp⟩
    (by simpa using hsmall)
  have h0 : (0 : Float64) = .finite 0 := by
    show Float64.finite ((0 : Nat) : ℚ) = _
    simp
  simpa [calculateOrderSummary, h0] using h

/-- The summary of the spec's example: quantity 3 and amount 25, whatever the
product IDs. -/
theorem calculateOrderSummary_example (p1 p2 : Int) :
    calculateOrderSummary
      [{ ProductID := p1, Quantity := 2, Price := 10 },
        { ProductID := p2, Quantity := 1, Price := 5 }] = (3, .finite 25) := by
  have h := calculateOrderSummary_exact 0 (by norm_num)
    [{ ProductID := p1, Quantity := 2, Price := 10 },
      { ProductID := p2, Quantity := 1, Price := 5 }]
    (by
      intro item hitem
      simp only [List.mem_cons, List.mem_singleton, List.not_mem_nil, or_false] at hitem
      rcases hitem with rfl | rfl
      · exact ⟨by norm_num, by norm_num, by norm_num, 10, by norm_num⟩
      · exact ⟨by norm_num, by norm_num, by norm_num, 5, by norm_num⟩)
    (by norm_num [exactAmount])
  rw [h]
  norm_num [exactAmount]

/-- The result of `CheckoutOrder` when the idempotency block and validation
pass and the write goes through. -/
theorem CheckoutOrder_ok (json : JSON) (now : Nat) (f : CheckoutFaults) (st : State)
    (param : CheckoutRequest)
    (hg : idempotencyGuard st.db f.CheckIdempotency param.IdempotencyToken = none)
    (hv : validateProducts param.Items = none)
    (hd : f.InsertOrderDetailTx = none) (ho : f.InsertOrderTx = none) (hc : f.Commit = none) :
    (CheckoutOrder json now f st param).err = none ∧
    (CheckoutOrder json now f st param).orderID = st.db.ordersSeq + 1 ∧
    (CheckoutOrder json now f st param).state.db.orders =
      st.db.orders ++ [insertedOrder st.db param] ∧
    (CheckoutOrder json now f st param).state.db.order_detail =
      st.db.order_detail ++ [insertedDetail json now st.db param] ∧
    (CheckoutOrder json now f st param).state.db.order_request_log =
      (if param.IdempotencyToken ≠ "" ∧ f.SaveIdempotencyToken = none then
        st.db.order_request_log ++
          [{ IdempotencyToken := param.IdempotencyToken, CreateTime := now }]
      else st.db.order_request_log) ∧
    (CheckoutOrder json now f st param).dispatched =
      [.orderCreated
          { OrderID := st.db.ordersSeq + 1, UserID := param.UserID,
            TotalAmount := (insertedOrder st.db param).Amount,
            PaymentMethod := param.PaymentMethod, ShippingAddress := param.ShippingAddress },
        .productStock
          { OrderID := st.db.ordersSeq + 1,
            Products := convertCheckoutItemToProductItems param.Items, EventTime := now }] := by
  simp only [CheckoutOrder, hg, hv, constructOrderDetail, hd, ho, hc,
    OrderService.SaveOrderAndOrderDetail_ok]
  by_cases hne : param.IdempotencyToken = ""
  · simp [hne, insertedOrder, insertedDetail, OrderDetail.zero]
  · cases hs : f.SaveIdempotencyToken <;>
      simp [hne, insertedOrder, insertedDetail, OrderDetail.zero,
        OrderService.SaveIdempotencyToken, OrderRepository.SaveIdempotencyToken]

/-- Function `CheckoutOrder` returns an error together with ID 0, leaves the rows of
the order tables and the request log as they were, writes no message and
dispatches no event. -/
theorem CheckoutOrder_err (json : JSON) (now : Nat) (f : CheckoutFaults) (st : State)
    (param : CheckoutRequest) (err : Err)
    (h : (CheckoutOrder json now f st param).err = some err) :
    (CheckoutOrder json now f st param).orderID = 0 ∧
    (CheckoutOrder json now f st param).state.db.orders = st.db.orders ∧
    (CheckoutOrder json now f st param).state.db.order_detail = st.db.order_detail ∧
    (CheckoutOrder json now f st param).state.db.order_request_log = st.db.order_request_log ∧
    (CheckoutOrder json now f st param).state.broker = st.broker ∧
    (CheckoutOrder json now f st param).dispatched = [] := by
  cases hg : idempotencyGuard st.db f.CheckIdempotency param.IdempotencyToken with
  | some e => simp [CheckoutOrder_of_guard json now f st param e hg]
  | none =>
    cases hv : validateProducts param.Items with
    | some e => simp [CheckoutOrder_of_invalid json now f st param e hg hv]
    | none =>
      simp only [CheckoutOrder, hg, hv, constructOrderDetail] at h ⊢
      split at h
      · rename_i e hs
        have := OrderService.SaveOrderAndOrderDetail_err _ _ _ _ _ _ e hs
        simp [hs, this]
      · simp at h

end OrderUsecase

/-! ### Claims on checkout -/

/-- The idempotency block passes when the token is empty, or has no record
and the query is carried out. -/
theorem OrderUsecase.idempotencyGuard_passes (d : Database) (fault : Option String)
    (token : String) (h : token = "" ∨ (fault = none ∧ ¬ d.hasToken token)) :
    OrderUsecase.idempotencyGuard d fault token = none := by
  rcases h with h | ⟨hf, h⟩
  · simp [OrderUsecase.idempotencyGuard, h]
  · subst hf
    apply OrderUsecase.idempotencyGuard_of_fresh
    intro log hlog heq
    exact h ⟨log, hlog, heq⟩

/-- C1: a valid request with a non-empty token that has no record, run with
every call to the database carried out, succeeds and returns the ID of the
order row it inserted; a second call with the same token (whatever its items,
its idempotency query carried out) returns ID 0 with the error "order already
created, please check again!" and leaves the order and order-detail rows as
the first call left them. -/
theorem checkout_succeeds_once_per_token (json : JSON) (now now2 : Nat) (f f2 : CheckoutFaults)
    (st : State) (param param2 : CheckoutRequest)
    (hvalid : ValidItems param.Items) (htoken : param.IdempotencyToken ≠ "")
    (hfresh : ¬ st.db.hasToken param.IdempotencyToken)
    (hf : f.CheckIdempotency = none ∧ f.InsertOrderDetailTx = none ∧ f.InsertOrderTx = none ∧
      f.Commit = none ∧ f.SaveIdempotencyToken = none)
    (hsame : param2.IdempotencyToken = param.IdempotencyToken)
    (hf2 : f2.CheckIdempotency = none) :
    (OrderUsecase.CheckoutOrder json now f st param).err = none ∧
    (OrderUsecase.CheckoutOrder json now f st param).state.db.orders =
      st.db.orders ++ [insertedOrder st.db param] ∧
    (OrderUsecase.CheckoutOrder json now f st param).state.db.order_detail =
      st.db.order_detail ++ [insertedDetail json now st.db param] ∧
    (OrderUsecase.CheckoutOrder json now f st param).orderID = (insertedOrder st.db param).ID ∧
    OrderUsecase.CheckoutOrder json now2 f2
        (OrderUsecase.CheckoutOrder json now f st param).state param2 =
      { state := (OrderUsecase.CheckoutOrder json now f st param).state, orderID := 0,
        err := some .orderAlreadyCreated, dispatched := [] } ∧
    Err.orderAlreadyCreated.Error = "order already created, please check again!" := by
  obtain ⟨hq, hd, ho, hc, hs⟩ := hf
  have hg := OrderUsecase.idempotencyGuard_passes st.db f.CheckIdempotency
    param.IdempotencyToken (Or.inr ⟨hq, hfresh⟩)
  have hv := (OrderUsecase.validateProducts_eq_none param.Items).mpr hvalid
  obtain ⟨h1, h2, h3, h4, h5, -⟩ := OrderUsecase.CheckoutOrder_ok json now f st param hg hv hd ho hc
  refine ⟨h1, h3, h4, h2, ?_, rfl⟩
  have hrec : (OrderUsecase.CheckoutOrder json now f st param).state.db.hasToken
      param2.IdempotencyToken := by
    refine ⟨{ IdempotencyToken := param.IdempotencyToken, CreateTime := now }, ?_, hsame.symm⟩
    rw [h5]
    simp [htoken, hs]
  obtain ⟨e, he, hdup⟩ := OrderUsecase.idempotencyGuard_of_record _ f2.CheckIdempotency
    param2.IdempotencyToken (hsame ▸ htoken) hrec
  rw [hdup hf2] at he
  exact OrderUsecase.CheckoutOrder_of_guard json now2 f2 _ param2 _ he

/-- The sample request checked out twice, starting from an empty state. -/
theorem checkout_succeeds_once_per_token_witness :
    ValidItems CheckoutRequest.sample.Items ∧
    (OrderUsecase.CheckoutOrder JSON.sample 1 CheckoutFaults.none State.empty
      CheckoutRequest.sample).orderID = 1 ∧
    (OrderUsecase.CheckoutOrder JSON.sample 2 CheckoutFaults.none
      (OrderUsecase.CheckoutOrder JSON.sample 1 CheckoutFaults.none State.empty
        CheckoutRequest.sample).state CheckoutRequest.sample).err =
      some .orderAlreadyCreated := by
  have hvalid : ValidItems CheckoutRequest.sample.Items := by
    refine ⟨by decide, ?_⟩
    intro item hitem
    simp [CheckoutRequest.sample] at hitem
    rcases hitem with rfl | rfl <;> norm_num
  have h := checkout_succeeds_once_per_token JSON.sample 1 2 CheckoutFaults.none
    CheckoutFaults.none State.empty CheckoutRequest.sample CheckoutRequest.sample hvalid
    (by decide) (by simp [Database.hasToken, State.empty, Database.empty])
    ⟨rfl, rfl, rfl, rfl, rfl⟩ rfl rfl
  refine ⟨hvalid, ?_, ?_⟩
  · rw [h.2.2.2.1]; rfl
  · rw [h.2.2.2.2.1]

/-- C2: with a non-empty token that already has a record, `CheckoutOrder`
returns ID 0 with an error, the duplicate-request error whenever the
idempotency query is carried out, and does nothing else: the database and the
broker are left as they were and no event is dispatched, whatever the items
are. -/
theorem checkout_recorded_token_rejected (json : JSON) (now : Nat) (f : CheckoutFaults)
    (st : State) (param : CheckoutRequest) (htoken : param.IdempotencyToken ≠ "")
    (hrec : st.db.hasToken param.IdempotencyToken) :
    ∃ e, OrderUsecase.CheckoutOrder json now f st param =
        { state := st, orderID := 0, err := some e, dispatched := [] } ∧
      (f.CheckIdempotency = none → e = .orderAlreadyCreated) := by
  obtain ⟨e, he, hdup⟩ := OrderUsecase.idempotencyGuard_of_record st.db f.CheckIdempotency
    param.IdempotencyToken htoken hrec
  exact ⟨e, OrderUsecase.CheckoutOrder_of_guard json now f st param e he, hdup⟩

/-- The sample request on a state whose request log already holds its
token. -/
theorem checkout_recorded_token_rejected_witness :
    OrderUsecase.CheckoutOrder JSON.sample 5 CheckoutFaults.none
        { State.empty with db := { Database.empty with
            order_request_log := [{ IdempotencyToken := "tok-1", CreateTime := 1 }] } }
        CheckoutRequest.sample =
      { state := { State.empty with db := { Database.empty with
          order_request_log := [{ IdempotencyToken := "tok-1", CreateTime := 1 }] } },
        orderID := 0, err := some .orderAlreadyCreated, dispatched := [] } := by
  obtain ⟨e, h1, h2⟩ := checkout_recorded_token_rejected JSON.sample 5 CheckoutFaults.none
    { State.empty with db := { Database.empty with
        order_request_log := [{ IdempotencyToken := "tok-1", CreateTime := 1 }] } }
    CheckoutRequest.sample (by decide) ⟨_, List.mem_singleton.mpr rfl, rfl⟩
  rw [h1, h2 rfl]

/-- C3: when some product ID occurs at two positions of the item list,
`validateProducts` returns an error, and `CheckoutOrder` returns ID 0 with an
error (the validation error when the idempotency block passes), leaves the
database and the broker as they were and dispatches no event. -/
theorem checkout_duplicate_product_rejected (json : JSON) (now : Nat) (f : CheckoutFaults)
    (st : State) (param : CheckoutRequest) (i j : Fin param.Items.length) (hij : i ≠ j)
    (hdup : (param.Items.get i).ProductID = (param.Items.get j).ProductID) :
    ∃ verr, OrderUsecase.validateProducts param.Items = some verr ∧
      ∃ e, OrderUsecase.CheckoutOrder json now f st param =
          { state := st, orderID := 0, err := some e, dispatched := [] } ∧
        (OrderUsecase.idempotencyGuard st.db f.CheckIdempotency param.IdempotencyToken = none →
          e = verr) := by
  have hnd := OrderUsecase.not_nodup_of_two_positions param.Items i j hij hdup
  cases hv : OrderUsecase.validateProducts param.Items with
  | none => exact absurd ((OrderUsecase.validateProducts_eq_none _).mp hv).1 hnd
  | some verr =>
    refine ⟨verr, rfl, ?_⟩
    cases hg : OrderUsecase.idempotencyGuard st.db f.CheckIdempotency param.IdempotencyToken with
    | some e =>
      exact ⟨e, OrderUsecase.CheckoutOrder_of_guard json now f st param e hg, fun h => by cases h⟩
    | none =>
      exact ⟨verr, OrderUsecase.CheckoutOrder_of_invalid json now f st param verr hg hv,
        fun _ => rfl⟩

/-- A request that lists product 1 twice, on an empty state. -/
theorem checkout_duplicate_product_rejected_witness :
    OrderUsecase.validateProducts
        [{ ProductID := 1, Quantity := 2, Price := 10 },
          { ProductID := 1, Quantity := 1, Price := 5 }] = some (.duplicateProduct 1) ∧
      ∃ e, OrderUsecase.CheckoutOrder JSON.sample 3 CheckoutFaults.none State.empty
          { CheckoutRequest.sample with
            Items := [{ ProductID := 1, Quantity := 2, Price := 10 },
              { ProductID := 1, Quantity := 1, Price := 5 }] } =
          { state := State.empty, orderID := 0, err := some e, dispatched := [] } := by
  obtain ⟨verr, -, e, h2, -⟩ := checkout_duplicate_product_rejected JSON.sample 3
    CheckoutFaults.none State.empty
    { CheckoutRequest.sample with
      Items := [{ ProductID := 1, Quantity := 2, Price := 10 },
        { ProductID := 1, Quantity := 1, Price := 5 }] }
    ⟨0, by decide⟩ ⟨1, by decide⟩ (by decide) rfl
  exact ⟨by decide, e, h2⟩

/-- C4: `validateProducts` returns nil exactly on the valid item lists
(pairwise distinct product IDs, every quantity in 1..10000, every price
positive); on a list with an item whose quantity is at most 0 or above 10000,
or whose price is at most 0, it returns an error and `CheckoutOrder` fails:
it returns ID 0 with an error, changes nothing and dispatches no event. -/
theorem validateProducts_nil_iff_valid (items : List CheckoutItem) :
    (OrderUsecase.validateProducts items = none ↔ ValidItems items) ∧
    ((∃ item ∈ items, item.Quantity ≤ 0 ∨ item.Quantity > 10000 ∨ item.Price ≤ 0) →
      (∃ verr, OrderUsecase.validateProducts items = some verr) ∧
      ∀ (json : JSON) (now : Nat) (f : CheckoutFaults) (st : State) (param : CheckoutRequest),
        param.Items = items →
        ∃ e, OrderUsecase.CheckoutOrder json now f st param =
          { state := st, orderID := 0, err := some e, dispatched := [] }) := by
  refine ⟨OrderUsecase.validateProducts_eq_none items, ?_⟩
  rintro ⟨item, hmem, hbad⟩
  have hv : ∃ verr, OrderUsecase.validateProducts items = some verr := by
    cases hv : OrderUsecase.validateProducts items with
    | some verr => exact ⟨verr, rfl⟩
    | none =>
      have := ((OrderUsecase.validateProducts_eq_none items).mp hv).2 item hmem
      rcases hbad with h | h | h
      · omega
      · omega
      · exact absurd this.2.2 (not_lt.mpr h)
  refine ⟨hv, ?_⟩
  obtain ⟨verr, hverr⟩ := hv
  intro json now f st param hitems
  exact OrderUsecase.CheckoutOrder_refuses_invalid json now f st param verr (hitems ▸ hverr)

/-- A list with quantity 0 is refused by `validateProducts` and by
`CheckoutOrder`. -/
theorem validateProducts_nil_iff_valid_witness :
    (∃ verr, OrderUsecase.validateProducts [{ ProductID := 1, Quantity := 0, Price := 10 }] =
      some verr) ∧
    ∃ e, OrderUsecase.CheckoutOrder JSON.sample 3 CheckoutFaults.none State.empty
        { CheckoutRequest.sample with
          Items := [{ ProductID := 1, Quantity := 0, Price := 10 }] } =
      { state := State.empty, orderID := 0, err := some e, dispatched := [] } :=
  have h := (validateProducts_nil_iff_valid [{ ProductID := 1, Quantity := 0, Price := 10 }]).2
    ⟨_, List.mem_singleton.mpr rfl, Or.inl (by decide)⟩
  ⟨h.1, h.2 JSON.sample 3 CheckoutFaults.none State.empty _ rfl⟩

/-- The product 3 * 0.1 is rounded: the exact product lies half way between
two `float64` values and goes to the one with the even significand, which
prints as 0.30000000000000004. -/
theorem lineAmount_rounds :
    lineAmount { ProductID := 1, Quantity := 3, Price := Float64.value0_1 } =
      .finite (1351079888211149 / 4503599627370496) := by
  have hof : Float64.ofInt 3 = .finite 3 := by
    have := Float64.ofInt_exact 3 (by norm_num)
    rw [this]
    norm_num
  have hq : (3 : ℚ) * Float64.value0_1 = 10808639105689191 / 36028797018963968 := by
    unfold Float64.value0_1
    norm_num
  have habs : |(3 : ℚ) * Float64.value0_1| = 10808639105689191 / 36028797018963968 := by
    rw [hq, abs_of_pos (by norm_num)]
  have hround : Float64.round (3 * Float64.value0_1) =
      .finite (((5404319552844596 : Int) : ℚ) * 2 ^ ((-2 : Int) - 52)) := by
    refine Float64.round_of_exponent _ (-2) 5404319552844596 ?_ ?_ (by norm_num) ?_ ?_
    · rw [habs]
      norm_num [zpow_neg]
    · rw [habs]
      norm_num [zpow_neg]
    · have h := Float64.roundHalfEven_half_odd 5404319552844595 (by norm_num)
      have hx : (3 : ℚ) * Float64.value0_1 / 2 ^ ((-2 : Int) - 52) =
          ((5404319552844595 : Int) : ℚ) + 1 / 2 := by
        rw [hq]
        norm_num [zpow_neg]
      rw [hx, h]
      norm_num
    · have h1 : |((5404319552844596 : Int) : ℚ) * 2 ^ ((-2 : Int) - 52)| < 2 ^ (0 : Nat) := by
        norm_num [zpow_neg, abs_of_pos]
      exact lt_trans h1 (pow_lt_pow_right₀ (by norm_num) (by norm_num))
  have hval : ((5404319552844596 : Int) : ℚ) * 2 ^ ((-2 : Int) - 52) =
      1351079888211149 / 4503599627370496 := by
    norm_num [zpow_neg]
  rw [hval] at hround
  have hprice : Float64.ofRat Float64.value0_1 = .finite Float64.value0_1 := by
    have h := OrderUsecase.round_dyadic 55 (by norm_num) 3602879701896397 (by norm_num)
      (by norm_num)
    have hv : ((3602879701896397 : Int) : ℚ) / 2 ^ 55 = Float64.value0_1 := by
      unfold Float64.value0_1
      norm_num
    rw [hv] at h
    exact h
  unfold lineAmount
  show Float64.mul (Float64.ofInt 3) (Float64.ofRat Float64.value0_1) = _
  rw [hof, hprice]
  show Float64.round (3 * Float64.value0_1) = _
  exact hround

/-- Three units at price 0.1: the order amount is the rounded 0.30000000000000004,
not the exact product of quantity and price. -/
theorem calculateOrderSummary_rounds :
    OrderUsecase.calculateOrderSummary
        [{ ProductID := 1, Quantity := 3, Price := Float64.value0_1 }] =
      (3, .finite (1351079888211149 / 4503599627370496)) ∧
    exactAmount [{ ProductID := 1, Quantity := 3, Price := Float64.value0_1 }] =
      10808639105689191 / 36028797018963968 ∧
    (1351079888211149 / 4503599627370496 : ℚ) ≠ 10808639105689191 / 36028797018963968 := by
  have hline := lineAmount_rounds
  have hexact : Float64.round (0 + 1351079888211149 / 4503599627370496) =
      .finite (1351079888211149 / 4503599627370496) := by
    have h := OrderUsecase.round_dyadic 52 (by norm_num) 1351079888211149 (by norm_num)
      (by norm_num)
    have hv : ((1351079888211149 : Int) : ℚ) / 2 ^ 52 =
        0 + 1351079888211149 / 4503599627370496 := by norm_num
    rw [hv] at h
    rw [h, zero_add]
  refine ⟨?_, ?_, by norm_num⟩
  · rw [OrderUsecase.calculateOrderSummary_eq]
    refine Prod.ext (by simp) ?_
    show Float64.sum [lineAmount { ProductID := 1, Quantity := 3, Price := Float64.value0_1 }] = _
    rw [hline]
    show Float64.round (((0 : Nat) : ℚ) + 1351079888211149 / 4503599627370496) = _
    rw [Nat.cast_zero]
    exact hexact
  · unfold exactAmount Float64.value0_1
    norm_num

/-- C5: for a valid item list, when the idempotency block passes (empty
token, or no record and the query carried out) and the write goes through,
the order row `CheckoutOrder` stores is the last row of the table, carries the
returned ID, and has `TotalQty` the sum of the quantities, `Amount` the sum of
quantity times price and `Status` Created (0). The amount is the sum the
program forms: each `float64(quantity) * price` and each addition, in request
order, rounded to `float64`; it is the exact sum of quantity times price
whenever the prices are multiples of some 2^-k and the exact total is below
2^(53-k), so that nothing is rounded. For the items (P1, 2, 10.0),
(P2, 1, 5.0) the summary is quantity 3 and amount 25. -/
theorem checkout_order_totals (json : JSON) (now : Nat) (f : CheckoutFaults) (st : State)
    (param : CheckoutRequest) (hvalid : ValidItems param.Items)
    (hguard : param.IdempotencyToken = "" ∨
      (f.CheckIdempotency = none ∧ ¬ st.db.hasToken param.IdempotencyToken))
    (hwrite : f.InsertOrderDetailTx = none ∧ f.InsertOrderTx = none ∧ f.Commit = none) :
    (∃ order, (OrderUsecase.CheckoutOrder json now f st param).state.db.orders =
        st.db.orders ++ [order] ∧
      (OrderUsecase.CheckoutOrder json now f st param).err = none ∧
      order.ID = (OrderUsecase.CheckoutOrder json now f st param).orderID ∧
      order.TotalQty = (param.Items.map (·.Quantity)).sum ∧
      order.Amount = Float64.sum (param.Items.map lineAmount) ∧
      (∀ k : Nat, k ≤ 1074 → (∀ item ∈ param.Items, ∃ c : Int, item.Price * 2 ^ k = c) →
        exactAmount param.Items * 2 ^ k < 2 ^ 53 →
        order.Amount = .finite (exactAmount param.Items)) ∧
      order.Status = OrderStatusCreated ∧ OrderStatusCreated = 0) ∧
    ∀ p1 p2 : Int, OrderUsecase.calculateOrderSummary
      [{ ProductID := p1, Quantity := 2, Price := 10 },
        { ProductID := p2, Quantity := 1, Price := 5 }] = (3, 25) := by
  have hg := OrderUsecase.idempotencyGuard_passes st.db f.CheckIdempotency
    param.IdempotencyToken hguard
  have hv := (OrderUsecase.validateProducts_eq_none param.Items).mpr hvalid
  obtain ⟨h1, h2, h3, -⟩ :=
    OrderUsecase.CheckoutOrder_ok json now f st param hg hv hwrite.1 hwrite.2.1 hwrite.2.2
  refine ⟨⟨insertedOrder st.db param, h3, h1, h2.symm, ?_, ?_, ?_, rfl, rfl⟩, ?_⟩
  · simp [insertedOrder, OrderUsecase.newOrder, OrderUsecase.calculateOrderSummary_eq]
  · simp [insertedOrder, OrderUsecase.newOrder, OrderUsecase.calculateOrderSummary_eq]
  · intro k hk hdyadic hsmall
    have hitems : ∀ item ∈ param.Items, 1 ≤ item.Quantity ∧ item.Quantity ≤ 10000 ∧
        0 ≤ item.Price ∧ ∃ c : Int, item.Price * 2 ^ k = c := by
      intro item hitem
      obtain ⟨hq1, hq2, hp⟩ := hvalid.2 item hitem
      exact ⟨hq1, hq2, le_of_lt hp, hdyadic item hitem⟩
    simp [insertedOrder, OrderUsecase.newOrder,
      OrderUsecase.calculateOrderSummary_exact k hk param.Items hitems hsmall]
  · intro p1 p2
    exact OrderUsecase.calculateOrderSummary_example p1 p2

/-- The sample request on an empty state: the stored order has total
quantity 3, amount 25 and status 0. -/
theorem checkout_order_totals_witness :
    ∃ order, (OrderUsecase.CheckoutOrder JSON.sample 1 CheckoutFaults.none State.empty
        CheckoutRequest.sample).state.db.orders = [order] ∧
      order.TotalQty = 3 ∧ order.Amount = 25 ∧ order.Status = 0 := by
  have hvalid : ValidItems CheckoutRequest.sample.Items := by
    refine ⟨by decide, ?_⟩
    intro item hitem
    simp [CheckoutRequest.sample] at hitem
    rcases hitem with rfl | rfl <;> norm_num
  obtain ⟨⟨order, h1, -, -, h2, -, h3, h4, h5⟩, -⟩ :=
    checkout_order_totals JSON.sample 1 CheckoutFaults.none State.empty CheckoutRequest.sample
      hvalid (Or.inr ⟨rfl, by simp [Database.hasToken, State.empty, Database.empty]⟩)
      ⟨rfl, rfl, rfl⟩
  refine ⟨order, by simpa [State.empty, Database.empty] using h1, ?_, ?_, h5 ▸ h4⟩
  · rw [h2]; simp [CheckoutRequest.sample]
  · rw [h3 0 (by norm_num) (by
        intro item hitem
        simp [CheckoutRequest.sample] at hitem
        rcases hitem with rfl | rfl
        · exact ⟨10, by norm_num⟩
        · exact ⟨5, by norm_num⟩)
      (by norm_num [exactAmount, CheckoutRequest.sample])]
    show Float64.finite _ = Float64.finite ((25 : Nat) : ℚ)
    norm_num [exactAmount, CheckoutRequest.sample]

/-! ### The history query -/

/-- In a table with pairwise distinct IDs, the rows with a given ID that
occurs are a single row. -/
theorem filter_detail_id_eq_singleton (details : List OrderDetail) (k : Int)
    (hnd : (details.map (·.ID)).Nodup) (hex : ∃ dt ∈ details, dt.ID = k) :
    ∃ dt, (details.filter fun dt => k == dt.ID) = [dt] := by
  induction details with
  | nil => simp at hex
  | cons d rest ih =>
    simp only [List.map_cons, List.nodup_cons, List.mem_map, not_exists, not_and] at hnd
    by_cases hk : d.ID = k
    · refine ⟨d, ?_⟩
      have hrest : (rest.filter fun dt => k == dt.ID) = [] := by
        rw [List.filter_eq_nil_iff]
        intro x hx
        have := hnd.1 x hx
        simp only [beq_iff_eq]
        intro h
        exact this (by rw [← h, hk])
      simp [List.filter_cons, hk, hrest]
    · have hex2 : ∃ dt ∈ rest, dt.ID = k := by
        obtain ⟨dt, hmem, hdt⟩ := hex
        rcases List.mem_cons.mp hmem with rfl | hmem
        · exact absurd hdt hk
        · exact ⟨dt, hmem, hdt⟩
      obtain ⟨dt, hdt⟩ := ih hnd.2 hex2
      refine ⟨dt, ?_⟩
      have : (k == d.ID) = false := by
        simp only [beq_eq_false_iff_ne, ne_eq]
        exact fun h => hk h.symm
      simp [List.filter_cons, this, hdt]

/-- The join of orders with their details lists each order once, in table
order, when every order references a detail row and detail IDs are pairwise
distinct. -/
theorem join_fst_eq (orders : List Order) (details : List OrderDetail)
    (hnd : (details.map (·.ID)).Nodup)
    (hfk : ∀ o ∈ orders, ∃ dt ∈ details, dt.ID = o.OrderDetailID) :
    (orders.flatMap fun o =>
      (details.filter fun dt => o.OrderDetailID == dt.ID).map fun dt => (o, dt)).map Prod.fst =
      orders := by
  induction orders with
  | nil => simp
  | cons o rest ih =>
    obtain ⟨dt, hdt⟩ := filter_detail_id_eq_singleton details o.OrderDetailID hnd
      (hfk o (List.mem_cons_self _ _))
    have ih2 := ih fun x hx => hfk x (List.mem_cons_of_mem _ hx)
    simp only [List.flatMap_cons, List.map_append, hdt, List.map_cons, List.map_nil, ih2,
      List.singleton_append]

/-- The rows of the history query, read as order IDs: a rearrangement of the
IDs of the selected orders, in strictly descending order. -/
theorem historyQuery_ids (d : Database) (param : OrderHistoryParam) (hwf : d.WellFormed) :
    ((historyQuery d param).map (·.ID)).Perm
        ((d.orders.filter (historySelects param)).map (·.ID)) ∧
      ((historyQuery d param).map (·.ID)).Sorted (· > ·) := by
  obtain ⟨hon, hdn, hfk⟩ := hwf
  have hjoin := join_fst_eq d.orders d.order_detail hdn hfk
  -- the filtered join, read as orders
  have hfilt : ∀ filtered : List (Order × OrderDetail),
      filtered = (if param.Status > 0 then
        ((d.orders.flatMap fun o =>
          (d.order_detail.filter fun dt => o.OrderDetailID == dt.ID).map fun dt => (o, dt)).filter
            fun row => row.1.UserID == param.UserID).filter
              fun row => row.1.Status == param.Status
        else (d.orders.flatMap fun o =>
          (d.order_detail.filter fun dt => o.OrderDetailID == dt.ID).map fun dt => (o, dt)).filter
            fun row => row.1.UserID == param.UserID) →
      filtered.map Prod.fst = d.orders.filter (historySelects param) := by
    intro filtered hdef
    subst hdef
    by_cases hs : param.Status > 0
    · simp only [hs, if_true, List.filter_filter]
      have : (fun row : Order × OrderDetail =>
          (row.1.Status == param.Status && row.1.UserID == param.UserID)) =
          (historySelects param) ∘ Prod.fst := by
        funext row
        simp [historySelects, hs, Bool.and_comm]
      rw [this, ← List.filter_map, hjoin]
    · simp only [hs, if_false]
      have : (fun row : Order × OrderDetail => row.1.UserID == param.UserID) =
          (historySelects param) ∘ Prod.fst := by
        funext row
        simp [historySelects, hs]
      rw [this, ← List.filter_map, hjoin]
  haveI : IsTotal (Order × OrderDetail) (fun a b => b.1.ID ≤ a.1.ID) :=
    ⟨fun a b => le_total _ _⟩
  haveI : IsTrans (Order × OrderDetail) (fun a b => b.1.ID ≤ a.1.ID) :=
    ⟨fun a b c hab hbc => le_trans hbc hab⟩
  have hids : (historyQuery d param).map (·.ID) =
      ((if param.Status > 0 then
        ((d.orders.flatMap fun o =>
          (d.order_detail.filter fun dt => o.OrderDetailID == dt.ID).map fun dt => (o, dt)).filter
            fun row => row.1.UserID == param.UserID).filter
              fun row => row.1.Status == param.Status
        else (d.orders.flatMap fun o =>
          (d.order_detail.filter fun dt => o.OrderDetailID == dt.ID).map fun dt => (o, dt)).filter
            fun row => row.1.UserID == param.UserID).insertionSort
          fun a b => b.1.ID ≤ a.1.ID).map fun row => row.1.ID := by
    simp only [historyQuery, List.map_map]
    rfl
  rw [hids]
  generalize hF : (if param.Status > 0 then _ else _ : List (Order × OrderDetail)) = filtered
  have hmap := hfilt filtered hF.symm
  have hperm : ((filtered.insertionSort fun a b => b.1.ID ≤ a.1.ID).map fun row => row.1.ID).Perm
      ((d.orders.filter (historySelects param)).map (·.ID)) := by
    have h1 := (List.perm_insertionSort (fun a b : Order × OrderDetail => b.1.ID ≤ a.1.ID)
      filtered).map fun row => row.1.ID
    refine h1.trans ?_
    rw [← hmap, List.map_map]
    exact List.Perm.refl _
  refine ⟨hperm, ?_⟩
  have hnodup : ((filtered.insertionSort fun a b => b.1.ID ≤ a.1.ID).map
      fun row => row.1.ID).Nodup := by
    rw [hperm.nodup_iff]
    exact (List.filter_sublist _).map _ |>.nodup hon
  have hsorted := List.sorted_insertionSort (fun a b : Order × OrderDetail => b.1.ID ≤ a.1.ID)
    filtered
  have hge : ((filtered.insertionSort fun a b => b.1.ID ≤ a.1.ID).map
      fun row => row.1.ID).Pairwise (fun x y => y ≤ x) := by
    rw [List.pairwise_map]
    exact hsorted
  exact (hge.and hnodup).imp fun ⟨hle, hne⟩ => lt_of_le_of_ne hle (Ne.symm hne)

/-- The response of `GetOrderHistoriesByUserID` has one entry per row of the
query, with the row's order ID. -/
theorem GetOrderHistoriesByUserID_ids (json : JSON) (d : Database) (param : OrderHistoryParam) :
    OrderRepository.GetOrderHistoriesByUserID json d none param =
        ((OrderRepository.GetOrderHistoriesByUserID json d none param).1, none) ∧
      (OrderRepository.GetOrderHistoriesByUserID json d none param).1.map (·.OrderID) =
        (historyQuery d param).map (·.ID) := by
  simp [OrderRepository.GetOrderHistoriesByUserID, List.map_map, Function.comp_def]

/-- C10: on a database that meets the invariants of the data model (distinct
order IDs, distinct detail IDs, every order referencing a detail row), with
the query carried out, `GetOrderHistoriesByUserID` for user `U` with status
filter Completed (2) returns no error and a list whose order IDs are, each
exactly once, those of the orders of `U` with status Completed, in strictly
descending order; with filter 0 the same holds for all orders of `U`. -/
theorem history_query_by_user_and_status (json : JSON) (d : Database) (U : Int)
    (hwf : d.WellFormed) :
    ((OrderRepository.GetOrderHistoriesByUserID json d none
        { UserID := U, Status := OrderStatusCompleted }).2 = none ∧
      ((OrderRepository.GetOrderHistoriesByUserID json d none
          { UserID := U, Status := OrderStatusCompleted }).1.map (·.OrderID)).Perm
        ((d.orders.filter fun o => o.UserID == U && o.Status == OrderStatusCompleted).map
          (·.ID)) ∧
      ((OrderRepository.GetOrderHistoriesByUserID json d none
          { UserID := U, Status := OrderStatusCompleted }).1.map (·.OrderID)).Sorted (· > ·)) ∧
    ((OrderRepository.GetOrderHistoriesByUserID json d none { UserID := U, Status := 0 }).2 =
        none ∧
      ((OrderRepository.GetOrderHistoriesByUserID json d none
          { UserID := U, Status := 0 }).1.map (·.OrderID)).Perm
        ((d.orders.filter fun o => o.UserID == U).map (·.ID)) ∧
      ((OrderRepository.GetOrderHistoriesByUserID json d none
          { UserID := U, Status := 0 }).1.map (·.OrderID)).Sorted (· > ·)) := by
  have h2 := historyQuery_ids d { UserID := U, Status := OrderStatusCompleted } hwf
  have h0 := historyQuery_ids d { UserID := U, Status := 0 } hwf
  have e2 : historySelects { UserID := U, Status := OrderStatusCompleted } =
      fun o => o.UserID == U && o.Status == OrderStatusCompleted := by
    funext o
    simp [historySelects, OrderStatusCompleted]
  have e0 : historySelects { UserID := U, Status := 0 } = fun o => o.UserID == U := by
    funext o
    simp [historySelects]
  rw [e2] at h2
  rw [e0] at h0
  refine ⟨⟨rfl, ?_, ?_⟩, ⟨rfl, ?_, ?_⟩⟩
  · rw [(GetOrderHistoriesByUserID_ids json d _).2]; exact h2.1
  · rw [(GetOrderHistoriesByUserID_ids json d _).2]; exact h2.2
  · rw [(GetOrderHistoriesByUserID_ids json d _).2]; exact h0.1
  · rw [(GetOrderHistoriesByUserID_ids json d _).2]; exact h0.2

/-- The history of user 7 on the sample database: the completed order 1 and
the created order 3; order 2 belongs to user 8. -/
theorem history_query_by_user_and_status_witness :
    Database.sample.WellFormed ∧
    (OrderRepository.GetOrderHistoriesByUserID JSON.sample Database.sample none
      { UserID := 7, Status := OrderStatusCompleted }).1.map (·.OrderID) = [1] ∧
    (OrderRepository.GetOrderHistoriesByUserID JSON.sample Database.sample none
      { UserID := 7, Status := 0 }).1.map (·.OrderID) = [3, 1] ∧
    ((OrderRepository.GetOrderHistoriesByUserID JSON.sample Database.sample none
      { UserID := 7, Status := 0 }).1.map (·.OrderID)).Sorted (· > ·) := by
  have hwf : Database.sample.WellFormed := by
    refine ⟨by decide, by decide, ?_⟩
    decide
  exact ⟨hwf, by rfl, by rfl,
    (history_query_by_user_and_status JSON.sample Database.sample 7 hwf).2.2.2⟩

/-! ### The invariant of the store -/


/-- An empty database meets the invariant. -/
theorem Database.empty_inv (g : Bool) : ({ Database.empty with AllowGlobalUpdate := g }).Inv := by
  simp [Database.Inv, Database.WellFormed, Database.empty]

/-- Appending an order and its detail with the next IDs keeps the invariant. -/
theorem Database.Inv.insert {d d1 : Database} (h : d.Inv) (o : Order) (dt : OrderDetail)
    (ho : d1.orders = d.orders ++ [o]) (hd : d1.order_detail = d.order_detail ++ [dt])
    (hoid : o.ID = d.ordersSeq + 1) (hdid : dt.ID = d.orderDetailSeq + 1)
    (hfk : o.OrderDetailID = dt.ID) (hos : d1.ordersSeq = d.ordersSeq + 1)
    (hds : d1.orderDetailSeq = d.orderDetailSeq + 1) : d1.Inv := by
  obtain ⟨⟨hon, hdn, hfk0⟩, hob, hdb⟩ := h
  refine ⟨⟨?_, ?_, ?_⟩, ?_, ?_⟩
  · rw [ho, List.map_append, List.nodup_append]
    refine ⟨hon, by simp, ?_⟩
    intro x hx hx1
    simp only [List.map_cons, List.map_nil, List.mem_singleton] at hx1
    obtain ⟨y, hy, hyx⟩ := List.mem_map.mp hx
    have := hob y hy
    omega
  · rw [hd, List.map_append, List.nodup_append]
    refine ⟨hdn, by simp, ?_⟩
    intro x hx hx1
    simp only [List.map_cons, List.map_nil, List.mem_singleton] at hx1
    obtain ⟨y, hy, hyx⟩ := List.mem_map.mp hx
    have := hdb y hy
    omega
  · intro x hx
    rw [ho] at hx
    rw [hd]
    rcases List.mem_append.mp hx with hx | hx
    · obtain ⟨y, hy, hyx⟩ := hfk0 x hx
      exact ⟨y, List.mem_append_left _ hy, hyx⟩
    · rw [List.mem_singleton] at hx
      subst hx
      exact ⟨dt, by simp, hfk.symm⟩
  · intro x hx
    rw [ho] at hx
    rw [hos]
    rcases List.mem_append.mp hx with hx | hx
    · have := hob x hx; omega
    · rw [List.mem_singleton] at hx; subst hx; omega
  · intro x hx
    rw [hd] at hx
    rw [hds]
    rcases List.mem_append.mp hx with hx | hx
    · have := hdb x hx; omega
    · rw [List.mem_singleton] at hx; subst hx; omega

/-- Keeping the rows and not lowering the sequences keeps the invariant. -/
theorem Database.Inv.of_rows_eq {d d1 : Database} (h : d.Inv) (ho : d1.orders = d.orders)
    (hd : d1.order_detail = d.order_detail) (hos : d.ordersSeq ≤ d1.ordersSeq)
    (hds : d.orderDetailSeq ≤ d1.orderDetailSeq) : d1.Inv := by
  obtain ⟨⟨hon, hdn, hfk0⟩, hob, hdb⟩ := h
  refine ⟨⟨ho ▸ hon, hd ▸ hdn, ?_⟩, ?_, ?_⟩
  · rw [ho, hd]; exact hfk0
  · rw [ho]; intro x hx; have := hob x hx; omega
  · rw [hd]; intro x hx; have := hdb x hx; omega

/-- The atomic write keeps the invariant, whether it goes through or not. -/
theorem SaveOrderAndOrderDetail_inv (d : Database) (detailFault orderFault commitFault : Option String)
    (order : Order) (orderDetail : OrderDetail) (h : d.Inv) :
    (OrderService.SaveOrderAndOrderDetail d detailFault orderFault commitFault order
      orderDetail).db.Inv := by
  cases detailFault <;> cases orderFault <;> cases commitFault
  · rw [OrderService.SaveOrderAndOrderDetail_ok]
    exact h.insert _ _ rfl rfl rfl rfl rfl rfl rfl
  all_goals
    refine h.of_rows_eq ?_ ?_ ?_ ?_ <;>
      simp [OrderService.SaveOrderAndOrderDetail, OrderRepository.WithTransaction,
        OrderRepository.InsertOrderDetailTx, OrderRepository.InsertOrderTx, Tx.Commit,
        Tx.Rollback, Database.Begin]

/-- A checkout keeps the invariant, whatever its outcome. -/
theorem CheckoutOrder_inv (json : JSON) (now : Nat) (f : CheckoutFaults) (st : State)
    (param : CheckoutRequest) (h : st.db.Inv) :
    (OrderUsecase.CheckoutOrder json now f st param).state.db.Inv := by
  unfold OrderUsecase.CheckoutOrder
  split
  · exact h
  · split
    · exact h
    · simp only [OrderUsecase.constructOrderDetail]
      split
      · exact SaveOrderAndOrderDetail_inv _ _ _ _ _ _ h
      · have hs := SaveOrderAndOrderDetail_inv st.db f.InsertOrderDetailTx f.InsertOrderTx
          f.Commit
          (OrderUsecase.newOrder param (OrderUsecase.calculateOrderSummary param.Items).1
            (OrderUsecase.calculateOrderSummary param.Items).2)
          { OrderDetail.zero with Products := json.marshalItems param.Items,
                                  OrderHistory := json.marshalHistory now } h
        simp only []
        split
        · cases hf : f.SaveIdempotencyToken <;>
            exact hs.of_rows_eq (by simp [OrderService.SaveIdempotencyToken,
              OrderRepository.SaveIdempotencyToken, hf]) (by simp [OrderService.SaveIdempotencyToken,
              OrderRepository.SaveIdempotencyToken, hf]) (by simp [OrderService.SaveIdempotencyToken,
              OrderRepository.SaveIdempotencyToken, hf]) (by simp [OrderService.SaveIdempotencyToken,
              OrderRepository.SaveIdempotencyToken, hf])
        · exact hs

/-- `UpdateOrderStatus` keeps the invariant: it changes no ID and no
reference. -/
theorem UpdateOrderStatus_inv (d : Database) (fault : Option String) (now : Nat)
    (orderID status : Int) (h : d.Inv) :
    (OrderRepository.UpdateOrderStatus d fault now orderID status).1.Inv := by
  have hrows : (OrderRepository.UpdateOrderStatus d fault now orderID status).1.orders = d.orders ∨
      (OrderRepository.UpdateOrderStatus d fault now orderID status).1.orders =
        d.orders.map fun order => { order with Status := status, UpdateTime := now } := by
    cases hg : d.AllowGlobalUpdate <;> cases fault <;>
      simp [OrderRepository.UpdateOrderStatus, DB.Where, DB.Updates, Database.TableOrders, hg,
        DB.selects]
  obtain ⟨⟨hon, hdn, hfk0⟩, hob, hdb⟩ := h
  rcases hrows with hr | hr
  · exact ⟨⟨hr ▸ hon, hdn, by rw [hr]; exact hfk0⟩, by rw [hr]; exact hob, hdb⟩
  · refine ⟨⟨?_, hdn, ?_⟩, ?_, hdb⟩
    · rw [hr, List.map_map]; exact hon
    · rw [hr]
      intro x hx
      obtain ⟨y, hy, rfl⟩ := List.mem_map.mp hx
      exact hfk0 y hy
    · rw [hr]
      intro x hx
      obtain ⟨y, hy, rfl⟩ := List.mem_map.mp hx
      exact hob y hy

/-- A turn of the success reactor keeps the invariant. -/
theorem success_turn_inv (json : JSON) (st : State) (m : Inbound) (h : st.db.Inv) :
    (PaymentSuccessConsumer.turn json st m).db.Inv := by
  unfold PaymentSuccessConsumer.turn
  split
  · exact h
  · split
    · exact h
    · rename_i event _
      have := UpdateOrderStatus_inv st.db m.faults.UpdateOrderStatus m.now event.OrderID
        OrderStatusCompleted h
      split <;> rename_i heq <;> simp only [OrderService.UpdateOrderStatus] at heq <;>
        rw [heq] at this <;> exact this

/-- A turn of the failure reactor keeps the invariant. -/
theorem failed_turn_inv (json : JSON) (st : State) (m : Inbound) (h : st.db.Inv) :
    (PaymentFailedConsumer.turn json st m).db.Inv := by
  unfold PaymentFailedConsumer.turn
  split
  · exact h
  · split
    · exact h
    · rename_i event _
      have := UpdateOrderStatus_inv st.db m.faults.UpdateOrderStatus m.now event.OrderID
        OrderStatusCancelled h
      split
      · rename_i heq
        simp only [OrderService.UpdateOrderStatus] at heq
        rw [heq] at this
        exact this
      · rename_i heq
        simp only [OrderService.UpdateOrderStatus] at heq
        rw [heq] at this
        repeat' split
        all_goals exact this

/-- A move of the process keeps the invariant. -/
theorem Step.inv {json : JSON} {a b : State} (h : Step json a b) (ha : a.db.Inv) : b.db.Inv := by
  cases h with
  | checkout now f param => exact CheckoutOrder_inv json now f a param ha
  | paymentSuccess m => exact success_turn_inv json a m ha
  | paymentFailed m => exact failed_turn_inv json a m ha

/-- Any number of moves keeps the invariant. -/
theorem Steps.inv_of_inv {json : JSON} {a b : State} (h : Steps json a b) (ha : a.db.Inv) :
    b.db.Inv := by
  induction h with
  | refl => exact ha
  | tail _ hstep ih => exact hstep.inv ih

/-- Every reachable state meets the invariant of the store; in particular its
database is well formed. -/
theorem Reachable.inv_of_reachable {json : JSON} {st : State} (h : Reachable json st) :
    st.db.Inv := by
  obtain ⟨g, hsteps⟩ := h
  exact hsteps.inv_of_inv (Database.empty_inv g)

/-! ### The status update and the payment reactors -/

/-- The outcome of `UpdateOrderStatus` is the same for every order ID: the
condition on the ID is attached after `Updates` has run. -/
theorem UpdateOrderStatus_orderID_irrelevant (d : Database) (fault : Option String) (now : Nat)
    (orderID orderID2 : Int) (status : Int) :
    OrderRepository.UpdateOrderStatus d fault now orderID status =
      OrderRepository.UpdateOrderStatus d fault now orderID2 status := by
  simp [OrderRepository.UpdateOrderStatus, DB.Where]

/-- On a handle with gorm's default settings `UpdateOrderStatus` is refused
with `ErrMissingWhereClause` and changes nothing. -/
theorem UpdateOrderStatus_of_default (d : Database) (fault : Option String) (now : Nat)
    (orderID status : Int) (h : d.AllowGlobalUpdate = false) :
    OrderRepository.UpdateOrderStatus d fault now orderID status =
      (d, some .ErrMissingWhereClause) := by
  cases d
  simp_all [OrderRepository.UpdateOrderStatus, DB.Where, DB.Updates, Database.TableOrders]

/-- On a handle that allows global updates, a carried-out `UpdateOrderStatus`
rewrites the status of every order. -/
theorem UpdateOrderStatus_of_global (d : Database) (now : Nat) (orderID status : Int)
    (h : d.AllowGlobalUpdate = true) :
    OrderRepository.UpdateOrderStatus d none now orderID status =
      ({ d with orders := d.orders.map fun order =>
          { order with Status := status, UpdateTime := now } }, none) := by
  cases d
  simp_all [OrderRepository.UpdateOrderStatus, DB.Where, DB.Updates, Database.TableOrders,
    DB.selects]

/-- With gorm's default settings a turn of the failure reactor leaves the
state as it was. -/
theorem PaymentFailedConsumer.failed_turn_of_default (json : JSON) (st : State) (m : Inbound)
    (h : st.db.AllowGlobalUpdate = false) : PaymentFailedConsumer.turn json st m = st := by
  unfold PaymentFailedConsumer.turn
  split
  · rfl
  · split
    · rfl
    · simp [OrderService.UpdateOrderStatus, UpdateOrderStatus_of_default _ _ _ _ _ h]

/-- With gorm's default settings a turn of the success reactor leaves the
state as it was. -/
theorem PaymentSuccessConsumer.success_turn_of_default (json : JSON) (st : State) (m : Inbound)
    (h : st.db.AllowGlobalUpdate = false) : PaymentSuccessConsumer.turn json st m = st := by
  unfold PaymentSuccessConsumer.turn
  split
  · rfl
  · split
    · rfl
    · simp [OrderService.UpdateOrderStatus, UpdateOrderStatus_of_default _ _ _ _ _ h]

/-- With gorm's default settings the failure reactor never changes the state,
whatever it is sent. -/
theorem PaymentFailedConsumer.Start_of_default (json : JSON) (st : State) (inbox : List Inbound)
    (h : st.db.AllowGlobalUpdate = false) : PaymentFailedConsumer.Start json st inbox = st := by
  induction inbox with
  | nil => rfl
  | cons m rest ih =>
    simp only [PaymentFailedConsumer.Start, List.foldl_cons,
      PaymentFailedConsumer.failed_turn_of_default json st m h]
    exact ih

/-- With gorm's default settings the success reactor never changes the state,
whatever it is sent. -/
theorem PaymentSuccessConsumer.StartPaymentSuccessConsumer_of_default (json : JSON) (st : State)
    (inbox : List Inbound) (h : st.db.AllowGlobalUpdate = false) :
    PaymentSuccessConsumer.StartPaymentSuccessConsumer json st inbox = st := by
  induction inbox with
  | nil => rfl
  | cons m rest ih =>
    simp only [PaymentSuccessConsumer.StartPaymentSuccessConsumer, List.foldl_cons,
      PaymentSuccessConsumer.success_turn_of_default json st m h]
    exact ih

/-- The messages on the broker after the sample checkout. -/
theorem State.afterCheckout_broker :
    State.afterCheckout.broker =
      [{ Key := "order-1",
         Value := JSON.sample.orderCreatedText
           { OrderID := 1, UserID := 7, TotalAmount := .finite 25, PaymentMethod := "card",
             ShippingAddress := "Jl. Merdeka 1" },
         Topic := "order.created" },
       { Key := "order-1",
         Value := String.mk (SampleCodec.stockEventText
           { OrderID := 1, Products := [{ ProductID := 1, Qty := 2 }, { ProductID := 2, Qty := 1 }],
             EventTime := 1 }),
         Topic := "stock.update" }] := by
  have hs := OrderUsecase.calculateOrderSummary_example 1 2
  simp only [State.afterCheckout, OrderUsecase.CheckoutOrder, CheckoutRequest.sample, hs]
  rfl

/-- C7 (the code departs from the claim): order 1 was created by a successful
checkout of the sample items; a failure payment event for order 1 arrives and
every call to the store and the broker is carried out. With gorm's default
settings `UpdateOrderStatus` is refused with `ErrMissingWhereClause` before it
reaches the database (its `Where` follows `Updates`), so the turn stops there:
the order keeps status Created, not Cancelled, and no message is written to
`stock.rollback`. -/
theorem payment_failed_event_not_applied :
    JSON.sample.unmarshalEvent "\x7b\"order_id\":1\x7d" = .ok { OrderID := 1 } ∧
    State.afterCheckout.db.orders.map (fun o => (o.ID, o.Status)) = [(1, OrderStatusCreated)] ∧
    (OrderService.UpdateOrderStatus State.afterCheckout.db none 9 1 OrderStatusCancelled).2 =
      some .ErrMissingWhereClause ∧
    PaymentFailedConsumer.Start JSON.sample State.afterCheckout [Inbound.sample] =
      State.afterCheckout ∧
    ((PaymentFailedConsumer.Start JSON.sample State.afterCheckout [Inbound.sample]).db.orders.map
      fun o => (o.ID, o.Status)) = [(1, OrderStatusCreated)] ∧
    ((PaymentFailedConsumer.Start JSON.sample State.afterCheckout [Inbound.sample]).broker.filter
      fun msg => msg.Topic == "stock.rollback") = [] := by
  refine ⟨rfl, rfl, rfl, rfl, rfl, ?_⟩
  rw [PaymentFailedConsumer.Start_of_default _ _ _ rfl, State.afterCheckout_broker]
  rfl

/-- C8 (the code departs from the claim): order 1 exists with status Created;
a success payment event for order 1 arrives and every call is carried out.
With gorm's default settings `UpdateOrderStatus` is refused, so after the
event, and after its redelivery, the order still has status Created, not
Completed. -/
theorem payment_success_event_not_applied :
    JSON.sample.unmarshalEvent "\x7b\"order_id\":1\x7d" = .ok { OrderID := 1 } ∧
    State.afterCheckout.db.orders.map (fun o => (o.ID, o.Status)) = [(1, OrderStatusCreated)] ∧
    (OrderService.UpdateOrderStatus State.afterCheckout.db none 9 1 OrderStatusCompleted).2 =
      some .ErrMissingWhereClause ∧
    ((PaymentSuccessConsumer.StartPaymentSuccessConsumer JSON.sample State.afterCheckout
      [Inbound.sample]).db.orders.map fun o => (o.ID, o.Status)) = [(1, OrderStatusCreated)] ∧
    ((PaymentSuccessConsumer.StartPaymentSuccessConsumer JSON.sample State.afterCheckout
      [Inbound.sample, Inbound.sample]).db.orders.map fun o => (o.ID, o.Status)) =
      [(1, OrderStatusCreated)] := by
  refine ⟨rfl, rfl, rfl, rfl, rfl⟩

/-- C9 (the code departs from the claim): `UpdateOrderStatus` for order 1 on
a table with orders 1, 2 and 3. With gorm's default settings the call is
refused with `ErrMissingWhereClause` and order 1 keeps its status; on a
handle that allows global updates the call succeeds and orders 2 and 3 get
the new status as well. In neither case does the order ID restrict the
update. -/
theorem UpdateOrderStatus_not_by_orderID :
    Database.sample.orders.map (fun o => (o.ID, o.Status)) = [(1, 2), (2, 2), (3, 0)] ∧
    OrderRepository.UpdateOrderStatus Database.sample none 9 1 OrderStatusCancelled =
      (Database.sample, some .ErrMissingWhereClause) ∧
    (OrderRepository.UpdateOrderStatus { Database.sample with AllowGlobalUpdate := true } none 9 1
      OrderStatusCancelled).2 = none ∧
    ((OrderRepository.UpdateOrderStatus { Database.sample with AllowGlobalUpdate := true } none 9 1
      OrderStatusCancelled).1.orders.map fun o => (o.ID, o.Status)) =
      [(1, 3), (2, 3), (3, 3)] := by
  refine ⟨rfl, rfl, rfl, rfl⟩

/-! ### The reactors on a handle that allows global updates

The rest of each reactor does what the specification says once the status
update goes through; the update itself then reaches every order. -/

/-- Finding a row by ID after the rows were rewritten without touching IDs. -/
theorem find_map_of_id_preserved (orders : List Order) (f : Order → Order) (k : Int)
    (hid : ∀ o, (f o).ID = o.ID) :
    (orders.map f).find? (fun o => o.ID == k) = (orders.find? fun o => o.ID == k).map f := by
  induction orders with
  | nil => rfl
  | cons o rest ih =>
    by_cases h : o.ID = k
    · simp [List.find?_cons, hid, h]
    · simp [List.find?_cons, hid, h, ih]

/-- A success event that is read and decoded, on a handle that allows global
updates, sets every order of the table to Completed. -/
theorem success_turn_of_global (json : JSON) (st : State) (m : Inbound) (value : String)
    (event : PaymentUpdateStatusEvent) (hread : m.read = .ok value)
    (hdec : json.unmarshalEvent value = .ok event) (hg : st.db.AllowGlobalUpdate = true)
    (hf : m.faults.UpdateOrderStatus = none) :
    PaymentSuccessConsumer.turn json st m =
      { st with db := { st.db with orders := st.db.orders.map fun order =>
          { order with Status := OrderStatusCompleted, UpdateTime := m.now } } } := by
  simp [PaymentSuccessConsumer.turn, hread, hdec, hf, OrderService.UpdateOrderStatus,
    UpdateOrderStatus_of_global _ _ _ _ hg]

/-- A failure event that is read and decoded, on a handle that allows global
updates and with every call carried out, sets every order of the table to
Cancelled and writes one message to `stock.rollback`: the serialised rollback
event, with the items decoded from the detail row of the event's order. -/
theorem failed_turn_of_global (json : JSON) (st : State) (m : Inbound) (value : String)
    (event : PaymentUpdateStatusEvent) (order : Order) (detail : OrderDetail)
    (items : List CheckoutItem) (text : String) (hread : m.read = .ok value)
    (hdec : json.unmarshalEvent value = .ok event) (hg : st.db.AllowGlobalUpdate = true)
    (hf : m.faults.UpdateOrderStatus = none ∧ m.faults.GetOrderInfoByOrderID = none ∧
      m.faults.GetOrderDetailByOrderDetailID = none ∧
      m.faults.PublishProductStockRollback = none)
    (horder : st.db.orders.find? (fun o => o.ID == event.OrderID) = some order)
    (hdetail : st.db.order_detail.find? (fun dt => dt.ID == order.OrderDetailID) = some detail)
    (hitems : json.unmarshalItems detail.Products = .ok items)
    (hmarshal : json.marshalProductStock
      { OrderID := event.OrderID,
        Products := OrderUsecase.convertCheckoutItemToProductItems items,
        EventTime := m.now } = .ok text) :
    PaymentFailedConsumer.turn json st m =
      { db := { st.db with orders := st.db.orders.map fun order =>
          { order with Status := OrderStatusCancelled, UpdateTime := m.now } },
        broker := st.broker ++
          [{ Key := KafkaProducer.messageKey event.OrderID, Value := text,
             Topic := "stock.rollback" }] } := by
  have hfind := find_map_of_id_preserved st.db.orders
    (fun order => { order with Status := OrderStatusCancelled, UpdateTime := m.now })
    event.OrderID (fun _ => rfl)
  obtain ⟨hf1, hf2, hf3, hf4⟩ := hf
  simp [PaymentFailedConsumer.turn, hread, hdec, hf1, hf2, hf3, hf4,
    OrderService.UpdateOrderStatus, UpdateOrderStatus_of_global _ _ _ _ hg,
    OrderService.GetOrderInfoByOrderID, OrderRepository.GetOrderInfoByOrderID,
    OrderService.GetOrderDetailByOrderDetailID, OrderRepository.GetOrderDetailByOrderDetailID,
    DB.Find, DB.Where, Database.TableOrders, Database.TableOrderDetail, DB.selects_single,
    hfind, horder, hdetail, hitems, hmarshal, KafkaProducer.PublishProductStockRollback,
    KafkaProducer.WriteMessages]

/-- The atomic write leaves the setting of the handle as it was. -/
theorem SaveOrderAndOrderDetail_allowGlobalUpdate (d : Database)
    (detailFault orderFault commitFault : Option String) (order : Order)
    (orderDetail : OrderDetail) :
    (OrderService.SaveOrderAndOrderDetail d detailFault orderFault commitFault order
      orderDetail).db.AllowGlobalUpdate = d.AllowGlobalUpdate := by
  cases detailFault <;> cases orderFault <;> cases commitFault <;>
    simp [OrderService.SaveOrderAndOrderDetail, OrderRepository.WithTransaction,
      OrderRepository.InsertOrderDetailTx, OrderRepository.InsertOrderTx, Tx.Commit,
      Tx.Rollback, Database.Begin]

/-- A checkout leaves the setting of the handle as it was. -/
theorem CheckoutOrder_allowGlobalUpdate (json : JSON) (now : Nat) (f : CheckoutFaults)
    (st : State) (param : CheckoutRequest) :
    (OrderUsecase.CheckoutOrder json now f st param).state.db.AllowGlobalUpdate =
      st.db.AllowGlobalUpdate := by
  unfold OrderUsecase.CheckoutOrder
  split
  · rfl
  · split
    · rfl
    · simp only [OrderUsecase.constructOrderDetail]
      split
      · exact SaveOrderAndOrderDetail_allowGlobalUpdate _ _ _ _ _ _
      · simp only []
        split
        · cases hf : f.SaveIdempotencyToken <;>
            simp [OrderService.SaveIdempotencyToken, OrderRepository.SaveIdempotencyToken,
              SaveOrderAndOrderDetail_allowGlobalUpdate]
        · exact SaveOrderAndOrderDetail_allowGlobalUpdate _ _ _ _ _ _

/-- In a table whose IDs do not exceed `s`, a row appended with ID `s + 1` is
the one found under that ID. -/
theorem find_order_appended (orders : List Order) (s : Int) (o : Order)
    (hb : ∀ x ∈ orders, x.ID ≤ s) (ho : o.ID = s + 1) :
    (orders ++ [o]).find? (fun x => x.ID == s + 1) = some o := by
  induction orders with
  | nil => simp [ho]
  | cons x rest ih =>
    have hx := hb x (List.mem_cons_self _ _)
    have hne : (x.ID == s + 1) = false := by
      simp only [beq_eq_false_iff_ne, ne_eq]; omega
    simp only [List.cons_append, List.find?_cons, hne]
    exact ih fun y hy => hb y (List.mem_cons_of_mem _ hy)

/-- The same for the detail table. -/
theorem find_detail_appended (details : List OrderDetail) (s : Int) (dt : OrderDetail)
    (hb : ∀ x ∈ details, x.ID ≤ s) (hd : dt.ID = s + 1) :
    (details ++ [dt]).find? (fun x => x.ID == s + 1) = some dt := by
  induction details with
  | nil => simp [hd]
  | cons x rest ih =>
    have hx := hb x (List.mem_cons_self _ _)
    have hne : (x.ID == s + 1) = false := by
      simp only [beq_eq_false_iff_ne, ne_eq]; omega
    simp only [List.cons_append, List.find?_cons, hne]
    exact ih fun y hy => hb y (List.mem_cons_of_mem _ hy)

/-- The messages on the broker after the sample checkout on an empty state,
with either setting of the handle. -/
theorem sample_checkout_broker (g : Bool) :
    (OrderUsecase.CheckoutOrder JSON.sample 1 CheckoutFaults.none
      { State.empty with db := { Database.empty with AllowGlobalUpdate := g } }
      CheckoutRequest.sample).state.broker =
      [{ Key := "order-1",
         Value := JSON.sample.orderCreatedText
           { OrderID := 1, UserID := 7, TotalAmount := .finite 25, PaymentMethod := "card",
             ShippingAddress := "Jl. Merdeka 1" },
         Topic := "order.created" },
       { Key := "order-1",
         Value := String.mk (SampleCodec.stockEventText
           { OrderID := 1, Products := [{ ProductID := 1, Qty := 2 }, { ProductID := 2, Qty := 1 }],
             EventTime := 1 }),
         Topic := "stock.update" }] := by
  have hs := OrderUsecase.calculateOrderSummary_example 1 2
  simp only [OrderUsecase.CheckoutOrder, CheckoutRequest.sample, hs]
  rfl

/-- The failure reactor at the sample request, on an empty state whose handle
allows global updates: order 1 is cancelled and one rollback message carries
its two (product ID, quantity) pairs. -/
theorem failed_event_after_checkout_of_global_sample :
    ((PaymentFailedConsumer.turn JSON.sample
        (OrderUsecase.CheckoutOrder JSON.sample 1 CheckoutFaults.none
          { State.empty with db := { Database.empty with AllowGlobalUpdate := true } }
          CheckoutRequest.sample).state Inbound.sample).broker.filter
      fun msg => msg.Topic == "stock.rollback") =
      [{ Key := "order-1",
         Value := "\x7b\"order_id\":1,\"products\":[\x7b\"product_id\":1,\"qty\":2\x7d," ++
           "\x7b\"product_id\":2,\"qty\":1\x7d],\"event_time\":9\x7d",
         Topic := "stock.rollback" }] ∧
    ((PaymentFailedConsumer.turn JSON.sample
        (OrderUsecase.CheckoutOrder JSON.sample 1 CheckoutFaults.none
          { State.empty with db := { Database.empty with AllowGlobalUpdate := true } }
          CheckoutRequest.sample).state Inbound.sample).db.orders.map
      fun o => (o.ID, o.Status)) = [(1, OrderStatusCancelled)] := by
  have hturn := failed_turn_of_global JSON.sample
    (OrderUsecase.CheckoutOrder JSON.sample 1 CheckoutFaults.none
      { State.empty with db := { Database.empty with AllowGlobalUpdate := true } }
      CheckoutRequest.sample).state Inbound.sample "\x7b\"order_id\":1\x7d" { OrderID := 1 }
    _ _ CheckoutRequest.sample.Items _ rfl rfl rfl ⟨rfl, rfl, rfl, rfl⟩ rfl rfl rfl rfl
  rw [hturn]
  simp only [sample_checkout_broker true]
  exact ⟨by rfl, by rfl⟩

/-! ### Orders stay in the store -/

/-- A checkout that returns no error passed the idempotency block and
validation, and its write went through. -/
theorem CheckoutOrder_of_no_error (json : JSON) (now : Nat) (f : CheckoutFaults) (st : State)
    (param : CheckoutRequest)
    (h : (OrderUsecase.CheckoutOrder json now f st param).err = none) :
    OrderUsecase.idempotencyGuard st.db f.CheckIdempotency param.IdempotencyToken = none ∧
    OrderUsecase.validateProducts param.Items = none ∧
    f.InsertOrderDetailTx = none ∧ f.InsertOrderTx = none ∧ f.Commit = none := by
  cases hg : OrderUsecase.idempotencyGuard st.db f.CheckIdempotency param.IdempotencyToken with
  | some e => simp [OrderUsecase.CheckoutOrder_of_guard json now f st param e hg] at h
  | none =>
    cases hv : OrderUsecase.validateProducts param.Items with
    | some e => simp [OrderUsecase.CheckoutOrder_of_invalid json now f st param e hg hv] at h
    | none =>
      refine ⟨rfl, rfl, ?_⟩
      simp only [OrderUsecase.CheckoutOrder, hg, hv, OrderUsecase.constructOrderDetail] at h
      split at h
      · simp at h
      · rename_i hs
        exact (OrderService.SaveOrderAndOrderDetail_err_eq_none _ _ _ _ _ _).mp hs

/-- The status update keeps every order row, up to its status and update
time, and the detail table. -/
theorem UpdateOrderStatus_rows_kept (d : Database) (fault : Option String) (now : Nat)
    (orderID status : Int) :
    (∀ o ∈ d.orders, ∃ o2 ∈ (OrderRepository.UpdateOrderStatus d fault now orderID status).1.orders,
      o2.ID = o.ID ∧ o2.OrderDetailID = o.OrderDetailID) ∧
    (OrderRepository.UpdateOrderStatus d fault now orderID status).1.order_detail =
      d.order_detail := by
  have hrows : (OrderRepository.UpdateOrderStatus d fault now orderID status).1.orders = d.orders ∨
      (OrderRepository.UpdateOrderStatus d fault now orderID status).1.orders =
        d.orders.map fun order => { order with Status := status, UpdateTime := now } := by
    cases hg : d.AllowGlobalUpdate <;> cases fault <;>
      simp [OrderRepository.UpdateOrderStatus, DB.Where, DB.Updates, Database.TableOrders, hg,
        DB.selects]
  refine ⟨?_, by simp [OrderRepository.UpdateOrderStatus]⟩
  rcases hrows with hr | hr
  · rw [hr]; exact fun o h => ⟨o, h, rfl, rfl⟩
  · rw [hr]
    exact fun o h => ⟨_, List.mem_map_of_mem _ h, rfl, rfl⟩

/-- After a turn of the success reactor the database is the one before, or
the one a status update left. -/
theorem success_turn_db (json : JSON) (st : State) (m : Inbound) :
    (PaymentSuccessConsumer.turn json st m).db = st.db ∨
      ∃ orderID, (PaymentSuccessConsumer.turn json st m).db =
        (OrderRepository.UpdateOrderStatus st.db m.faults.UpdateOrderStatus m.now orderID
          OrderStatusCompleted).1 := by
  unfold PaymentSuccessConsumer.turn
  split
  · exact Or.inl rfl
  · split
    · exact Or.inl rfl
    · rename_i event _
      refine Or.inr ⟨event.OrderID, ?_⟩
      split <;> rename_i heq <;> simp only [OrderService.UpdateOrderStatus] at heq <;>
        rw [heq]

/-- After a turn of the failure reactor the database is the one before, or
the one a status update left. -/
theorem failed_turn_db (json : JSON) (st : State) (m : Inbound) :
    (PaymentFailedConsumer.turn json st m).db = st.db ∨
      ∃ orderID, (PaymentFailedConsumer.turn json st m).db =
        (OrderRepository.UpdateOrderStatus st.db m.faults.UpdateOrderStatus m.now orderID
          OrderStatusCancelled).1 := by
  unfold PaymentFailedConsumer.turn
  split
  · exact Or.inl rfl
  · split
    · exact Or.inl rfl
    · rename_i event _
      refine Or.inr ⟨event.OrderID, ?_⟩
      split
      · rename_i heq
        simp only [OrderService.UpdateOrderStatus] at heq
        rw [heq]
      · rename_i heq
        simp only [OrderService.UpdateOrderStatus] at heq
        rw [heq]
        repeat' split
        all_goals rfl

/-- A move of the process keeps every order row, up to its status and update
time, and every detail row. -/
theorem Step.rows_kept {json : JSON} {a b : State} (h : Step json a b) :
    (∀ o ∈ a.db.orders, ∃ o2 ∈ b.db.orders, o2.ID = o.ID ∧ o2.OrderDetailID = o.OrderDetailID) ∧
    ∀ dt ∈ a.db.order_detail, dt ∈ b.db.order_detail := by
  cases h with
  | checkout now f param =>
    cases he : (OrderUsecase.CheckoutOrder json now f a param).err with
    | some e =>
      obtain ⟨-, ho, hd, -⟩ := OrderUsecase.CheckoutOrder_err json now f a param e he
      rw [ho, hd]
      exact ⟨fun o h => ⟨o, h, rfl, rfl⟩, fun dt h => h⟩
    | none =>
      obtain ⟨hg, hv, h1, h2, h3⟩ := CheckoutOrder_of_no_error json now f a param he
      obtain ⟨-, -, ho, hd, -⟩ := OrderUsecase.CheckoutOrder_ok json now f a param hg hv h1 h2 h3
      rw [ho, hd]
      exact ⟨fun o h => ⟨o, List.mem_append_left _ h, rfl, rfl⟩,
        fun dt h => List.mem_append_left _ h⟩
  | paymentSuccess m =>
    rcases success_turn_db json a m with h | ⟨orderID, h⟩
    · rw [h]; exact ⟨fun o h => ⟨o, h, rfl, rfl⟩, fun dt h => h⟩
    · rw [h]
      obtain ⟨h1, h2⟩ := UpdateOrderStatus_rows_kept a.db m.faults.UpdateOrderStatus m.now
        orderID OrderStatusCompleted
      exact ⟨h1, fun dt h => h2 ▸ h⟩
  | paymentFailed m =>
    rcases failed_turn_db json a m with h | ⟨orderID, h⟩
    · rw [h]; exact ⟨fun o h => ⟨o, h, rfl, rfl⟩, fun dt h => h⟩
    · rw [h]
      obtain ⟨h1, h2⟩ := UpdateOrderStatus_rows_kept a.db m.faults.UpdateOrderStatus m.now
        orderID OrderStatusCancelled
      exact ⟨h1, fun dt h => h2 ▸ h⟩

/-- Once the database holds an order with its products text, it holds it
after any number of moves. -/
theorem Steps.holdsOrder {json : JSON} {a b : State} (h : Steps json a b) (orderID : Int)
    (products : String) (ha : a.db.holdsOrder orderID products) :
    b.db.holdsOrder orderID products := by
  induction h with
  | refl => exact ha
  | tail _ hstep ih =>
    obtain ⟨o, ho, hid, dt, hdt, hfk, hp⟩ := ih
    obtain ⟨hk1, hk2⟩ := hstep.rows_kept
    obtain ⟨o2, ho2, hid2, hfk2⟩ := hk1 o ho
    exact ⟨o2, ho2, hid2.trans hid, dt, hk2 dt hdt, hfk.trans hfk2.symm, hp⟩

/-- A successful checkout leaves the database holding the order it returns,
with the serialised items of the request. -/
theorem CheckoutOrder_holdsOrder (json : JSON) (now : Nat) (f : CheckoutFaults) (st : State)
    (param : CheckoutRequest)
    (h : (OrderUsecase.CheckoutOrder json now f st param).err = none) :
    (OrderUsecase.CheckoutOrder json now f st param).state.db.holdsOrder
      (OrderUsecase.CheckoutOrder json now f st param).orderID
      (json.marshalItems param.Items) := by
  obtain ⟨hg, hv, h1, h2, h3⟩ := CheckoutOrder_of_no_error json now f st param h
  obtain ⟨-, hid, ho, hd, -⟩ := OrderUsecase.CheckoutOrder_ok json now f st param hg hv h1 h2 h3
  refine ⟨insertedOrder st.db param, by rw [ho]; simp, hid.symm,
    insertedDetail json now st.db param, by rw [hd]; simp, rfl, rfl⟩

/-- In a table with pairwise distinct IDs a row is the one found under its
ID. -/
theorem find_order_of_mem (orders : List Order) (o : Order)
    (hnd : (orders.map (·.ID)).Nodup) (ho : o ∈ orders) :
    orders.find? (fun x => x.ID == o.ID) = some o := by
  induction orders with
  | nil => simp at ho
  | cons x rest ih =>
    simp only [List.map_cons, List.nodup_cons, List.mem_map, not_exists, not_and] at hnd
    rcases List.mem_cons.mp ho with rfl | hmem
    · simp [List.find?_cons]
    · have hne : (x.ID == o.ID) = false := by
        simp only [beq_eq_false_iff_ne, ne_eq]
        exact fun h => hnd.1 o hmem h.symm
      simp only [List.find?_cons, hne]
      exact ih hnd.2 hmem

/-- The same for the detail table. -/
theorem find_detail_of_mem (details : List OrderDetail) (dt : OrderDetail)
    (hnd : (details.map (·.ID)).Nodup) (hd : dt ∈ details) :
    details.find? (fun x => x.ID == dt.ID) = some dt := by
  induction details with
  | nil => simp at hd
  | cons x rest ih =>
    simp only [List.map_cons, List.nodup_cons, List.mem_map, not_exists, not_and] at hnd
    rcases List.mem_cons.mp hd with rfl | hmem
    · simp [List.find?_cons]
    · have hne : (x.ID == dt.ID) = false := by
        simp only [beq_eq_false_iff_ne, ne_eq]
        exact fun h => hnd.1 dt hmem h.symm
      simp only [List.find?_cons, hne]
      exact ih hnd.2 hmem

/-- The status update returns no error exactly when the handle allows global
updates and the database carries the update out. -/
theorem UpdateOrderStatus_no_error_iff (d : Database) (fault : Option String) (now : Nat)
    (orderID status : Int) :
    (OrderRepository.UpdateOrderStatus d fault now orderID status).2 = none ↔
      d.AllowGlobalUpdate = true ∧ fault = none := by
  cases hg : d.AllowGlobalUpdate <;> cases fault <;>
    simp [OrderRepository.UpdateOrderStatus, DB.Where, DB.Updates, Database.TableOrders, hg]

/-- Two turns of the success reactor for the same event at the same time, on
a handle that allows global updates, leave the state one turn leaves. -/
theorem success_turn_twice_of_global (json : JSON) (st : State) (m : Inbound) (value : String)
    (event : PaymentUpdateStatusEvent) (hread : m.read = .ok value)
    (hdec : json.unmarshalEvent value = .ok event) (hg : st.db.AllowGlobalUpdate = true)
    (hf : m.faults.UpdateOrderStatus = none) :
    PaymentSuccessConsumer.StartPaymentSuccessConsumer json st [m, m] =
      PaymentSuccessConsumer.StartPaymentSuccessConsumer json st [m] := by
  have h1 := success_turn_of_global json st m value event hread hdec hg hf
  have hg1 : (PaymentSuccessConsumer.turn json st m).db.AllowGlobalUpdate = true := by
    rw [h1]; exact hg
  have h2 := success_turn_of_global json _ m value event hread hdec hg1 hf
  simp only [PaymentSuccessConsumer.StartPaymentSuccessConsumer, List.foldl_cons, List.foldl_nil]
  rw [h2, h1]
  simp [List.map_map, Function.comp_def]

/-- The failure reactor when the status update returns no error, which takes
a handle that allows global updates. Let order X be created by a successful
checkout with items I on a state that meets the store invariant, and let any
number of further moves follow. When a failure payment event for X is read
and decoded, `UpdateOrderStatus` returns no error, the two lookups and the
publish are carried out, the codec reads back the items it wrote and the
rollback event serialises, one turn of `PaymentFailedConsumer.Start` leaves X
with status Cancelled (3) and appends exactly one message to the broker: on
`stock.rollback`, keyed by X, the serialised event with order ID X and
products the (product ID, quantity) pairs of I in request order. -/
theorem failed_event_of_update_success (json : JSON) (now : Nat)
    (f : CheckoutFaults) (st later : State) (param : CheckoutRequest) (m : Inbound)
    (value text : String) (hinv : st.db.Inv)
    (hcheckout : (OrderUsecase.CheckoutOrder json now f st param).err = none)
    (hlater : Steps json (OrderUsecase.CheckoutOrder json now f st param).state later)
    (hcodec : json.unmarshalItems (json.marshalItems param.Items) = .ok param.Items)
    (hread : m.read = .ok value)
    (hdec : json.unmarshalEvent value =
      .ok { OrderID := (OrderUsecase.CheckoutOrder json now f st param).orderID })
    (hupdate : (OrderService.UpdateOrderStatus later.db m.faults.UpdateOrderStatus m.now
      (OrderUsecase.CheckoutOrder json now f st param).orderID OrderStatusCancelled).2 = none)
    (hcalls : m.faults.GetOrderInfoByOrderID = none ∧
      m.faults.GetOrderDetailByOrderDetailID = none ∧
      m.faults.PublishProductStockRollback = none)
    (hmarshal : json.marshalProductStock
      { OrderID := (OrderUsecase.CheckoutOrder json now f st param).orderID,
        Products := OrderUsecase.convertCheckoutItemToProductItems param.Items,
        EventTime := m.now } = .ok text) :
    (∃ o ∈ (PaymentFailedConsumer.Start json later [m]).db.orders,
      o.ID = (OrderUsecase.CheckoutOrder json now f st param).orderID) ∧
    (∀ o ∈ (PaymentFailedConsumer.Start json later [m]).db.orders,
      o.ID = (OrderUsecase.CheckoutOrder json now f st param).orderID →
        o.Status = OrderStatusCancelled) ∧
    OrderStatusCancelled = 3 ∧
    (PaymentFailedConsumer.Start json later [m]).broker = later.broker ++
      [{ Key := KafkaProducer.messageKey (OrderUsecase.CheckoutOrder json now f st param).orderID,
         Value := text, Topic := "stock.rollback" }] ∧
    (json.unmarshalItems (json.marshalItems param.Items)).map
        OrderUsecase.convertCheckoutItemToProductItems =
      .ok (OrderUsecase.convertCheckoutItemToProductItems param.Items) := by
  have hinv1 := CheckoutOrder_inv json now f st param hinv
  have hinv2 := hlater.inv_of_inv hinv1
  obtain ⟨o, ho, hid, dt, hdt, hfk, hp⟩ :=
    hlater.holdsOrder _ _ (CheckoutOrder_holdsOrder json now f st param hcheckout)
  obtain ⟨hglobal, hfu⟩ := (UpdateOrderStatus_no_error_iff _ _ _ _ _).mp hupdate
  have horder := find_order_of_mem later.db.orders o hinv2.1.1 ho
  rw [hid] at horder
  have hdetail := find_detail_of_mem later.db.order_detail dt hinv2.1.2.1 hdt
  rw [hfk] at hdetail
  have hturn := failed_turn_of_global json later m value _ o dt param.Items text hread hdec
    hglobal ⟨hfu, hcalls⟩ horder hdetail (hp ▸ hcodec) hmarshal
  have hstart : PaymentFailedConsumer.Start json later [m] =
      PaymentFailedConsumer.turn json later m := rfl
  rw [hstart, hturn]
  refine ⟨?_, ?_, rfl, rfl, by rw [hcodec]; rfl⟩
  · exact ⟨_, List.mem_map_of_mem _ ho, hid⟩
  · intro x hx _
    obtain ⟨y, -, rfl⟩ := List.mem_map.mp hx
    rfl

/-! ### Message keys -/

/-- Reading digits from an accumulator shifts the accumulator by the number
of digits read. -/
theorem decimalValueFrom_acc (acc : Nat) (text : List Char) :
    decimalValueFrom acc text = acc * 10 ^ text.length + decimalValueFrom 0 text := by
  induction text generalizing acc with
  | nil => simp [decimalValueFrom]
  | cons c rest ih =>
    simp only [decimalValueFrom, List.foldl_cons, List.length_cons] at ih ⊢
    rw [ih (10 * acc + digitValue c), ih (10 * 0 + digitValue c)]
    ring

/-- The digit character of a number below ten stands for that number. -/
theorem digitChar_value (d : Nat) (h : d < 10) : digitValue (Nat.digitChar d) = d := by
  interval_cases d <;> rfl

/-- The digit character of a number below ten is not the minus sign. -/
theorem digitChar_ne_minus (d : Nat) (h : d < 10) : Nat.digitChar d ≠ '-' := by
  interval_cases d <;> decide

/-- With enough fuel, the digits `toDigitsCore` puts in front of `ds` stand
for `n`. -/
theorem toDigitsCore_value (fuel n : Nat) (ds : List Char) (h : n < fuel) :
    decimalValueFrom 0 (Nat.toDigitsCore 10 fuel n ds) =
      n * 10 ^ ds.length + decimalValueFrom 0 ds := by
  induction fuel generalizing n ds with
  | zero => omega
  | succ fuel ih =>
    unfold Nat.toDigitsCore
    simp only []
    have hcons : ∀ c : Char, decimalValueFrom 0 (c :: ds) =
        digitValue c * 10 ^ ds.length + decimalValueFrom 0 ds := by
      intro c
      have := decimalValueFrom_acc (10 * 0 + digitValue c) ds
      simpa [decimalValueFrom] using this
    by_cases hq : n / 10 = 0
    · simp only [hq, if_true]
      rw [hcons, digitChar_value _ (Nat.mod_lt _ (by decide))]
      have : n % 10 = n := Nat.mod_eq_of_lt (by omega)
      rw [this]
    · simp only [hq, if_false]
      rw [ih (n / 10) _ (by omega), hcons, digitChar_value _ (Nat.mod_lt _ (by decide))]
      simp only [List.length_cons]
      have := Nat.div_add_mod n 10
      calc n / 10 * 10 ^ (ds.length + 1) + (n % 10 * 10 ^ ds.length + decimalValueFrom 0 ds)
          = (10 * (n / 10) + n % 10) * 10 ^ ds.length + decimalValueFrom 0 ds := by ring
        _ = n * 10 ^ ds.length + decimalValueFrom 0 ds := by rw [this]

/-- The decimal digits of a number stand for it. -/
theorem toDigits_value (n : Nat) : decimalValueFrom 0 (Nat.toDigits 10 n) = n := by
  have := toDigitsCore_value (n + 1) n [] (by omega)
  simpa [Nat.toDigits, decimalValueFrom] using this

/-- Every character `toDigitsCore` puts in front of `ds` is a digit
character. -/
theorem toDigitsCore_head (fuel n : Nat) (ds : List Char) (h : 0 < fuel) :
    ∃ d rest, d < 10 ∧ Nat.toDigitsCore 10 fuel n ds = Nat.digitChar d :: rest := by
  induction fuel generalizing n ds with
  | zero => omega
  | succ fuel ih =>
    unfold Nat.toDigitsCore
    simp only []
    by_cases hq : n / 10 = 0
    · simp only [hq, if_true]
      exact ⟨n % 10, ds, Nat.mod_lt _ (by decide), rfl⟩
    · simp only [hq, if_false]
      cases fuel with
      | zero => exact ⟨n % 10, ds, Nat.mod_lt _ (by decide), rfl⟩
      | succ fuel => exact ih (n / 10) _ (by omega)

/-- The decimal text of an integer stands for it. -/
theorem decimalInt_toString (i : Int) : decimalInt (toString i).data = i := by
  cases i with
  | ofNat m =>
    obtain ⟨d, rest, hd, hrest⟩ := toDigitsCore_head (m + 1) m [] (by omega)
    have hdata : (toString (Int.ofNat m)).data = Nat.toDigits 10 m := rfl
    have hne : (Nat.toDigits 10 m).head? ≠ some '-' := by
      simp only [Nat.toDigits, hrest, List.head?_cons, ne_eq, Option.some.injEq]
      exact digitChar_ne_minus d hd
    rw [hdata, decimalInt, if_neg hne, toDigits_value]
    rfl
  | negSucc m =>
    have hdata : (toString (Int.negSucc m)).data = '-' :: Nat.toDigits 10 (m + 1) := rfl
    rw [hdata, decimalInt]
    simp only [List.head?_cons, if_true, List.tail_cons, toDigits_value]
    rfl

/-- The decimal text of integers tells them apart. -/
theorem toString_int_injective (a b : Int) (h : toString a = toString b) : a = b := by
  rw [← decimalInt_toString a, ← decimalInt_toString b, h]

/-- Two events get the same key exactly when they have the same order ID. -/
theorem messageKey_eq_iff (a b : Int) :
    KafkaProducer.messageKey a = KafkaProducer.messageKey b ↔ a = b := by
  constructor
  · intro h
    apply toString_int_injective
    have hdata := congrArg String.data h
    simp only [KafkaProducer.messageKey, String.data_append] at hdata
    exact String.ext (List.append_cancel_left hdata)
  · rintro rfl; rfl

/-! ### Publishing -/

/-- An order-created event is refused by `json.Marshal` exactly when its
amount is an infinity or NaN. -/
theorem marshalOrderCreated_error_iff (json : JSON) (event : OrderCreatedEvent) :
    (∃ err, json.marshalOrderCreated event = .error err) ↔ ∀ v, event.TotalAmount ≠ .finite v := by
  unfold JSON.marshalOrderCreated
  split <;> simp_all

/-- The summary of the overflowing request: the line amount 10000 * 1e308 is
beyond the largest `float64`, so the amount is +Inf. -/
theorem calculateOrderSummary_overflow :
    OrderUsecase.calculateOrderSummary CheckoutRequest.overflow.Items = (10000, .inf false) := by
  have hq : (0 : ℚ) < 10000 * Float64.value1e308 := by
    unfold Float64.value1e308
    positivity
  have hbig : (2 : ℚ) ^ (1024 : Nat) ≤ |(10000 : ℚ) * Float64.value1e308| := by
    rw [abs_of_pos hq, show (1024 : Nat) = 48 + 976 from rfl, pow_add]
    unfold Float64.value1e308
    rw [← mul_assoc]
    have h1 : (2 : ℚ) ^ 48 ≤ 10000 * 156575653125701 := by norm_num
    have h2 : (0 : ℚ) ≤ 2 ^ 976 := by positivity
    exact mul_le_mul_of_nonneg_right h1 h2
  have hround := Float64.round_overflow _ hbig
  rw [decide_eq_false (not_lt.mpr (le_of_lt hq))] at hround
  have hof : Float64.ofInt 10000 = .finite 10000 := by
    have := Float64.ofInt_exact 10000 (by norm_num)
    rw [this]
    norm_num
  have hprice : Float64.ofRat Float64.value1e308 = .finite Float64.value1e308 := by
    have hfin : |((156575653125701 : Int) : ℚ) * 2 ^ (976 : Int)| < 2 ^ (1024 : Nat) := by
      rw [abs_of_pos (by positivity), show (1024 : Nat) = 48 + 976 from rfl, pow_add,
        show ((976 : Int)) = ((976 : Nat) : Int) from rfl, zpow_natCast]
      have h1 : ((156575653125701 : Int) : ℚ) < 2 ^ 48 := by norm_num
      have h2 : (0 : ℚ) < 2 ^ 976 := by positivity
      exact mul_lt_mul_of_pos_right h1 h2
    have h := Float64.round_exact 156575653125701 976 (by norm_num) (by norm_num) hfin
    have hv : ((156575653125701 : Int) : ℚ) * 2 ^ (976 : Int) = Float64.value1e308 := by
      unfold Float64.value1e308
      rw [show ((976 : Int)) = ((976 : Nat) : Int) from rfl, zpow_natCast, Int.cast_ofNat]
    rw [hv] at h
    exact h
  unfold OrderUsecase.calculateOrderSummary
  simp only [CheckoutRequest.overflow]
  rw [OrderUsecase.calculateOrderSummaryFrom, OrderUsecase.calculateOrderSummaryFrom, hof,
    hprice]
  show (_, Float64.add 0 (Float64.round (10000 * Float64.value1e308))) = _
  rw [hround]
  rfl

/-- C12 (amended): a publish operation first serialises its event. When
`json.Marshal` succeeds the operation is one broker write of one message, the
serialised event, on its own fixed topic (`order.created`, `stock.update`,
`stock.rollback`) and with the key "order-" followed by the decimal order ID:
carried out, the write appends exactly that message; failing, it appends
nothing and its error is what the operation returns. When `json.Marshal`
refuses the event nothing is written and the marshal error is returned; for
an order-created event that is exactly when the total amount is an infinity
or NaN. The key depends on the order ID only, and two order IDs get the same
key exactly when they are equal. -/
theorem publish_one_keyed_message (json : JSON) (broker : List Message)
    (fault : Option String) (created : OrderCreatedEvent) (stock : ProductStockUpdateEvent) :
    (∀ value, json.marshalOrderCreated created = .ok value →
      KafkaProducer.PublishOrderCreated json broker fault created =
        KafkaProducer.WriteMessages broker fault
          { Key := "order-" ++ toString created.OrderID, Value := value,
            Topic := "order.created" }) ∧
    (∀ value, json.marshalProductStock stock = .ok value →
      KafkaProducer.PublishProductStockUpdate json broker fault stock =
        KafkaProducer.WriteMessages broker fault
          { Key := "order-" ++ toString stock.OrderID, Value := value,
            Topic := "stock.update" } ∧
      KafkaProducer.PublishProductStockRollback json broker fault stock =
        KafkaProducer.WriteMessages broker fault
          { Key := "order-" ++ toString stock.OrderID, Value := value,
            Topic := "stock.rollback" }) ∧
    (∀ err, json.marshalOrderCreated created = .error err →
      KafkaProducer.PublishOrderCreated json broker fault created = (broker, some err)) ∧
    (∀ err, json.marshalProductStock stock = .error err →
      KafkaProducer.PublishProductStockUpdate json broker fault stock = (broker, some err) ∧
      KafkaProducer.PublishProductStockRollback json broker fault stock = (broker, some err)) ∧
    ((∃ err, json.marshalOrderCreated created = .error err) ↔
      ∀ v, created.TotalAmount ≠ .finite v) ∧
    (∀ msg : Message, KafkaProducer.WriteMessages broker none msg = (broker ++ [msg], none)) ∧
    (∀ (text : String) (msg : Message),
      KafkaProducer.WriteMessages broker (some text) msg = (broker, some (.external text))) ∧
    (∀ a b : Int, KafkaProducer.messageKey a = KafkaProducer.messageKey b ↔ a = b) ∧
    (∀ a : Int, KafkaProducer.messageKey a = "order-" ++ toString a) := by
  refine ⟨?_, ?_, ?_, ?_, marshalOrderCreated_error_iff json created, fun _ => rfl,
    fun _ _ => rfl, messageKey_eq_iff, fun _ => rfl⟩
  · intro value h
    simp [KafkaProducer.PublishOrderCreated, h, KafkaProducer.messageKey]
  · intro value h
    simp [KafkaProducer.PublishProductStockUpdate, KafkaProducer.PublishProductStockRollback, h,
      KafkaProducer.messageKey]
  · intro err h
    simp [KafkaProducer.PublishOrderCreated, h]
  · intro err h
    simp [KafkaProducer.PublishProductStockUpdate, KafkaProducer.PublishProductStockRollback, h]

/-- The order-created event of the sample checkout, amount 25, published on
an empty broker that carries the write out: one message on `order.created`,
keyed "order-1". -/
theorem publish_one_keyed_message_witness :
    JSON.sample.marshalOrderCreated
        { OrderID := 1, UserID := 7, TotalAmount := .finite 25, PaymentMethod := "card",
          ShippingAddress := "Jl. Merdeka 1" } =
      .ok ("\x7b\"order_id\":1,\"user_id\":7,\"total_amount\":25,\"payment_method\":\"card\"," ++
        "\"shipping_address\":\"Jl. Merdeka 1\"\x7d") ∧
    KafkaProducer.PublishOrderCreated JSON.sample [] none
        { OrderID := 1, UserID := 7, TotalAmount := .finite 25, PaymentMethod := "card",
          ShippingAddress := "Jl. Merdeka 1" } =
      ([{ Key := "order-1",
          Value := "\x7b\"order_id\":1,\"user_id\":7,\"total_amount\":25," ++
            "\"payment_method\":\"card\",\"shipping_address\":\"Jl. Merdeka 1\"\x7d",
          Topic := "order.created" }], none) :=
  ⟨rfl,
    ((publish_one_keyed_message JSON.sample [] none
      { OrderID := 1, UserID := 7, TotalAmount := .finite 25, PaymentMethod := "card",
        ShippingAddress := "Jl. Merdeka 1" }
      { OrderID := 1, Products := [], EventTime := 1 }).1 _ rfl).trans rfl⟩

/-- C12 (the claim as stated fails): the valid request of 10000 units at
price 1e308 is checked out on an empty state with every call carried out.
Validation passes and the checkout returns order 1 without error; the amount
of the order-created event it dispatches is +Inf; `PublishOrderCreated` on
that event returns the error of `json.Marshal` and writes no message, so the
broker holds the `stock.update` message only. -/
theorem publish_unencodable_event_sends_nothing :
    OrderUsecase.validateProducts CheckoutRequest.overflow.Items = none ∧
    (OrderUsecase.CheckoutOrder JSON.sample 1 CheckoutFaults.none State.empty
      CheckoutRequest.overflow).err = none ∧
    (OrderUsecase.CheckoutOrder JSON.sample 1 CheckoutFaults.none State.empty
      CheckoutRequest.overflow).dispatched.head? =
      some (.orderCreated
        { OrderID := 1, UserID := 7, TotalAmount := .inf false, PaymentMethod := "card",
          ShippingAddress := "Jl. Merdeka 1" }) ∧
    KafkaProducer.PublishOrderCreated JSON.sample [] none
        { OrderID := 1, UserID := 7, TotalAmount := .inf false, PaymentMethod := "card",
          ShippingAddress := "Jl. Merdeka 1" } =
      ([], some (.external "json: unsupported value: +Inf")) ∧
    (OrderUsecase.CheckoutOrder JSON.sample 1 CheckoutFaults.none State.empty
      CheckoutRequest.overflow).state.broker.map (·.Topic) = ["stock.update"] := by
  have hs := calculateOrderSummary_overflow
  have hv : OrderUsecase.validateProducts CheckoutRequest.overflow.Items = none := by
    rw [OrderUsecase.validateProducts_eq_none]
    refine ⟨by simp [CheckoutRequest.overflow], ?_⟩
    intro item hitem
    simp only [CheckoutRequest.overflow, List.mem_singleton] at hitem
    subst hitem
    exact ⟨by norm_num, by norm_num, by unfold Float64.value1e308; positivity⟩
  have hg : OrderUsecase.idempotencyGuard State.empty.db CheckoutFaults.none.CheckIdempotency
      CheckoutRequest.overflow.IdempotencyToken = none := rfl
  refine ⟨hv, ?_, ?_, rfl, ?_⟩
  · simp only [OrderUsecase.CheckoutOrder, hg, hv, hs]
    rfl
  · simp only [OrderUsecase.CheckoutOrder, hg, hv, hs]
    rfl
  · simp only [OrderUsecase.CheckoutOrder, hg, hv, hs]
    rfl

/-! ### The order history -/

/-- C11: with the query carried out, `GetOrderHistoriesByUserID` returns a nil
error and one entry per row of the query, in row order, whatever the decoder
makes of the texts: each entry carries its row's ID and the display label
`OrderStatusTranslated` of its row's status (0 "Created", 1 "Processing",
2 "Completed", 3 "Cancelled"). The decoding error is dropped: the entry holds
the decoded list when its products (history) text decodes, and otherwise what
the decoder left in the nil slice. -/
theorem history_tolerates_malformed_payloads (json : JSON) (d : Database)
    (param : OrderHistoryParam) :
    (OrderRepository.GetOrderHistoriesByUserID json d none param).2 = none ∧
    (OrderRepository.GetOrderHistoriesByUserID json d none param).1.length =
      (historyQuery d param).length ∧
    (OrderRepository.GetOrderHistoriesByUserID json d none param).1.map
        (fun entry => (entry.OrderID, entry.Status)) =
      (historyQuery d param).map (fun row => (row.ID, OrderStatusTranslated row.Status)) ∧
    (∀ (i : Nat) (hi : i < (historyQuery d param).length)
        (hj : i < (OrderRepository.GetOrderHistoriesByUserID json d none param).1.length),
      (∀ items, json.unmarshalItems ((historyQuery d param).get ⟨i, hi⟩).Products = .ok items →
        ((OrderRepository.GetOrderHistoriesByUserID json d none param).1.get ⟨i, hj⟩).Products =
          items) ∧
      (∀ e, json.unmarshalItems ((historyQuery d param).get ⟨i, hi⟩).Products = .error e →
        ((OrderRepository.GetOrderHistoriesByUserID json d none param).1.get ⟨i, hj⟩).Products =
          json.itemsOnError ((historyQuery d param).get ⟨i, hi⟩).Products) ∧
      (∀ history,
        json.unmarshalHistory ((historyQuery d param).get ⟨i, hi⟩).OrderHistory = .ok history →
        ((OrderRepository.GetOrderHistoriesByUserID json d none param).1.get ⟨i, hj⟩).History =
          history) ∧
      (∀ e, json.unmarshalHistory ((historyQuery d param).get ⟨i, hi⟩).OrderHistory = .error e →
        ((OrderRepository.GetOrderHistoriesByUserID json d none param).1.get ⟨i, hj⟩).History =
          json.historyOnError ((historyQuery d param).get ⟨i, hi⟩).OrderHistory)) ∧
    OrderStatusTranslated 0 = "Created" ∧ OrderStatusTranslated 1 = "Processing" ∧
    OrderStatusTranslated 2 = "Completed" ∧ OrderStatusTranslated 3 = "Cancelled" := by
  refine ⟨rfl, by simp [OrderRepository.GetOrderHistoriesByUserID],
    by simp [OrderRepository.GetOrderHistoriesByUserID, List.map_map, Function.comp_def], ?_,
    rfl, rfl, rfl, rfl⟩
  intro i hi hj
  refine ⟨?_, ?_, ?_, ?_⟩ <;> intro e he <;> rw [List.get_eq_getElem] at he <;>
    simp [OrderRepository.GetOrderHistoriesByUserID, he, decodeIgnoringError]

/-- The history of user 7 on a database whose detail rows hold a products
text that is not JSON (order 3), one in which a string stands where the
quantity belongs (order 2) and one that decodes (order 1): one entry per
order, newest first, with the display labels; the entry of order 3 has no
products, that of order 2 keeps the two items read, the mismatched quantity
left 0, and that of order 1 has the decoded item. -/
theorem history_tolerates_malformed_payloads_witness :
    (OrderRepository.GetOrderHistoriesByUserID JSON.sample Database.malformed none
      { UserID := 7, Status := 0 }).2 = none ∧
    (OrderRepository.GetOrderHistoriesByUserID JSON.sample Database.malformed none
      { UserID := 7, Status := 0 }).1.map
        (fun entry => (entry.OrderID, entry.Status, entry.Products)) =
      [(3, "Created", []),
        (2, "Cancelled",
          [{ ProductID := 1, Quantity := 2, Price := 10 },
            { ProductID := 2, Quantity := 0, Price := 5 }]),
        (1, "Completed", [{ ProductID := 1, Quantity := 2, Price := 10 }])] ∧
    (JSON.sample.unmarshalItems "not json").toOption = none ∧
    (JSON.sample.unmarshalItems ("[\x7b\"product_id\":1,\"quantity\":2,\"price\":10\x7d," ++
      "\x7b\"product_id\":2,\"quantity\":\"x\",\"price\":5\x7d]")).toOption = none :=
  ⟨(history_tolerates_malformed_payloads JSON.sample Database.malformed
      { UserID := 7, Status := 0 }).1, by rfl, by rfl, by rfl⟩

/-- C14: for a valid request with a non-empty token that has no record, with
the idempotency query and the order write carried out, `CheckoutOrder` returns
the ID of the inserted order and a nil error whatever `SaveIdempotencyToken`
answers; the order and detail rows are persisted either way, and when the
token insert fails the request log simply stays without the token. -/
theorem checkout_ignores_token_save_failure (json : JSON) (now : Nat) (f : CheckoutFaults)
    (st : State) (param : CheckoutRequest) (tokenFault : Option String)
    (hvalid : ValidItems param.Items) (htoken : param.IdempotencyToken ≠ "")
    (hfresh : ¬ st.db.hasToken param.IdempotencyToken)
    (hquery : f.CheckIdempotency = none)
    (hwrite : f.InsertOrderDetailTx = none ∧ f.InsertOrderTx = none ∧ f.Commit = none) :
    (OrderUsecase.CheckoutOrder json now { f with SaveIdempotencyToken := tokenFault } st
      param).err = none ∧
    (OrderUsecase.CheckoutOrder json now { f with SaveIdempotencyToken := tokenFault } st
      param).orderID = (insertedOrder st.db param).ID ∧
    (OrderUsecase.CheckoutOrder json now { f with SaveIdempotencyToken := tokenFault } st
      param).state.db.orders = st.db.orders ++ [insertedOrder st.db param] ∧
    (OrderUsecase.CheckoutOrder json now { f with SaveIdempotencyToken := tokenFault } st
      param).state.db.order_detail =
        st.db.order_detail ++ [insertedDetail json now st.db param] ∧
    (tokenFault ≠ none →
      (OrderUsecase.CheckoutOrder json now { f with SaveIdempotencyToken := tokenFault } st
        param).state.db.order_request_log = st.db.order_request_log) ∧
    (tokenFault = none →
      (OrderUsecase.CheckoutOrder json now { f with SaveIdempotencyToken := tokenFault } st
        param).state.db.order_request_log = st.db.order_request_log ++
          [{ IdempotencyToken := param.IdempotencyToken, CreateTime := now }]) := by
  have hg := OrderUsecase.idempotencyGuard_passes st.db f.CheckIdempotency
    param.IdempotencyToken (Or.inr ⟨hquery, hfresh⟩)
  have hv := (OrderUsecase.validateProducts_eq_none param.Items).mpr hvalid
  obtain ⟨h1, h2, h3, h4, h5, -⟩ := OrderUsecase.CheckoutOrder_ok json now
    { f with SaveIdempotencyToken := tokenFault } st param hg hv hwrite.1 hwrite.2.1 hwrite.2.2
  refine ⟨h1, h2, h3, h4, fun hne => ?_, fun heq => ?_⟩
  · rw [h5]
    simp [hne]
  · rw [h5]
    simp [htoken, heq]

/-- The sample request on an empty state, with the token insert refused by
the database: order 1 is returned and stored, the log stays empty. -/
theorem checkout_ignores_token_save_failure_witness :
    (OrderUsecase.CheckoutOrder JSON.sample 1
      { CheckoutFaults.none with SaveIdempotencyToken := some "connection refused" }
      State.empty CheckoutRequest.sample).err = none ∧
    (OrderUsecase.CheckoutOrder JSON.sample 1
      { CheckoutFaults.none with SaveIdempotencyToken := some "connection refused" }
      State.empty CheckoutRequest.sample).orderID = 1 ∧
    (OrderUsecase.CheckoutOrder JSON.sample 1
      { CheckoutFaults.none with SaveIdempotencyToken := some "connection refused" }
      State.empty CheckoutRequest.sample).state.db.order_request_log = [] := by
  have hvalid : ValidItems CheckoutRequest.sample.Items := by
    refine ⟨by decide, ?_⟩
    intro item hitem
    simp [CheckoutRequest.sample] at hitem
    rcases hitem with rfl | rfl <;> norm_num
  have h := checkout_ignores_token_save_failure JSON.sample 1 CheckoutFaults.none State.empty
    CheckoutRequest.sample (some "connection refused") hvalid (by decide)
    (by simp [Database.hasToken, State.empty, Database.empty]) rfl ⟨rfl, rfl, rfl⟩
  exact ⟨h.1, by rfl, h.2.2.2.2.1 (by simp)⟩

/-- C15: a `CheckoutOrder` call that returns no error dispatches exactly two
events, one `OrderCreatedEvent` and one `ProductStockUpdateEvent`: the first
carries the returned order ID, the request's user ID, payment method and
shipping address and the `Amount` of the order row persisted under that ID;
the second carries the returned order ID and the (product ID, quantity) pair
of each request item, in request order. The returned ID and error are the same
whatever the two publishes answer, and a call that returns an error dispatches
no event and writes no message. -/
theorem checkout_dispatches_two_events (json : JSON) (now : Nat) (f : CheckoutFaults)
    (st : State) (param : CheckoutRequest) :
    ((OrderUsecase.CheckoutOrder json now f st param).err = none →
      ∃ order ∈ (OrderUsecase.CheckoutOrder json now f st param).state.db.orders,
        order.ID = (OrderUsecase.CheckoutOrder json now f st param).orderID ∧
        (OrderUsecase.CheckoutOrder json now f st param).dispatched =
          [.orderCreated
              { OrderID := (OrderUsecase.CheckoutOrder json now f st param).orderID,
                UserID := param.UserID, TotalAmount := order.Amount,
                PaymentMethod := param.PaymentMethod,
                ShippingAddress := param.ShippingAddress },
            .productStock
              { OrderID := (OrderUsecase.CheckoutOrder json now f st param).orderID,
                Products := param.Items.map fun item =>
                  { ProductID := item.ProductID, Qty := item.Quantity },
                EventTime := now }]) ∧
    (∀ created stock : Option String,
      (OrderUsecase.CheckoutOrder json now
          { f with PublishOrderCreated := created, PublishProductStockUpdate := stock } st
          param).orderID = (OrderUsecase.CheckoutOrder json now f st param).orderID ∧
        (OrderUsecase.CheckoutOrder json now
          { f with PublishOrderCreated := created, PublishProductStockUpdate := stock } st
          param).err = (OrderUsecase.CheckoutOrder json now f st param).err) ∧
    (∀ e, (OrderUsecase.CheckoutOrder json now f st param).err = some e →
      (OrderUsecase.CheckoutOrder json now f st param).dispatched = [] ∧
        (OrderUsecase.CheckoutOrder json now f st param).state.broker = st.broker) := by
  refine ⟨fun h => ?_, fun created stock => ?_, fun e h => ?_⟩
  · obtain ⟨hg, hv, h1, h2, h3⟩ := CheckoutOrder_of_no_error json now f st param h
    obtain ⟨-, hid, ho, -, -, hdisp⟩ :=
      OrderUsecase.CheckoutOrder_ok json now f st param hg hv h1 h2 h3
    refine ⟨insertedOrder st.db param, by rw [ho]; simp, hid.symm, ?_⟩
    rw [hdisp, hid]
    rfl
  · simp only [OrderUsecase.CheckoutOrder]
    split
    · exact ⟨rfl, rfl⟩
    · split
      · exact ⟨rfl, rfl⟩
      · simp only [OrderUsecase.constructOrderDetail]
        split <;> exact ⟨rfl, rfl⟩
  · obtain ⟨-, -, -, -, hb, hd⟩ := OrderUsecase.CheckoutOrder_err json now f st param e h
    exact ⟨hd, hb⟩

/-- The sample request on an empty state with both publishes refused by the
broker: order 1 is returned without error, two events were dispatched and no
message reached the broker. -/
theorem checkout_dispatches_two_events_witness :
    (OrderUsecase.CheckoutOrder JSON.sample 1
      { CheckoutFaults.none with PublishOrderCreated := some "broker down",
                                 PublishProductStockUpdate := some "broker down" }
      State.empty CheckoutRequest.sample).orderID = 1 ∧
    (OrderUsecase.CheckoutOrder JSON.sample 1
      { CheckoutFaults.none with PublishOrderCreated := some "broker down",
                                 PublishProductStockUpdate := some "broker down" }
      State.empty CheckoutRequest.sample).dispatched.length = 2 ∧
    (OrderUsecase.CheckoutOrder JSON.sample 1
      { CheckoutFaults.none with PublishOrderCreated := some "broker down",
                                 PublishProductStockUpdate := some "broker down" }
      State.empty CheckoutRequest.sample).state.broker = [] := by
  have h := (checkout_dispatches_two_events JSON.sample 1
    { CheckoutFaults.none with PublishOrderCreated := some "broker down",
                               PublishProductStockUpdate := some "broker down" }
    State.empty CheckoutRequest.sample).1 rfl
  obtain ⟨order, -, -, hd⟩ := h
  refine ⟨by rfl, by rw [hd]; rfl, ?_⟩
  have hs := OrderUsecase.calculateOrderSummary_example 1 2
  simp only [OrderUsecase.CheckoutOrder, CheckoutRequest.sample, hs]
  rfl

/-! ### The failure reactor, step by step -/

/-- A status update that returns an error leaves the database as it was. -/
theorem UpdateOrderStatus_of_error (d : Database) (fault : Option String) (now : Nat)
    (orderID status : Int) (e : Err)
    (h : (OrderRepository.UpdateOrderStatus d fault now orderID status).2 = some e) :
    (OrderRepository.UpdateOrderStatus d fault now orderID status).1 = d := by
  cases d
  rename_i g _ _ _ _ _
  cases g <;> cases fault <;>
    simp_all [OrderRepository.UpdateOrderStatus, DB.Where, DB.Updates, Database.TableOrders]

/-- C13: in one turn of the failure reactor a failing sub-step ends the work
on that message. When the message cannot be read or decoded, or
`UpdateOrderStatus` returns an error, the turn leaves the state as it was,
whatever the later lookups would have answered: nothing is looked up to any
effect and nothing is published. When the update went through and the order
lookup, the detail lookup or the decoding of the stored items fails, the turn
keeps the updated database (every order it holds has status Cancelled) and
publishes nothing. In every case the loop goes on with the next message: the
failed one is not handled again. -/
theorem failure_reactor_aborts_on_error (json : JSON) (st : State) (m : Inbound) :
    (∀ e, m.read = .error e → PaymentFailedConsumer.turn json st m = st) ∧
    (∀ value e, m.read = .ok value → json.unmarshalEvent value = .error e →
      PaymentFailedConsumer.turn json st m = st) ∧
    (∀ value event e, m.read = .ok value → json.unmarshalEvent value = .ok event →
      (OrderService.UpdateOrderStatus st.db m.faults.UpdateOrderStatus m.now event.OrderID
        OrderStatusCancelled).2 = some e →
      PaymentFailedConsumer.turn json st m = st) ∧
    (∀ value event, m.read = .ok value → json.unmarshalEvent value = .ok event →
      (OrderService.UpdateOrderStatus st.db m.faults.UpdateOrderStatus m.now event.OrderID
        OrderStatusCancelled).2 = none →
      ((OrderService.GetOrderInfoByOrderID
            (OrderService.UpdateOrderStatus st.db m.faults.UpdateOrderStatus m.now event.OrderID
              OrderStatusCancelled).1 m.faults.GetOrderInfoByOrderID event.OrderID).2 ≠ none ∨
        (OrderService.GetOrderDetailByOrderDetailID
            (OrderService.UpdateOrderStatus st.db m.faults.UpdateOrderStatus m.now event.OrderID
              OrderStatusCancelled).1 m.faults.GetOrderDetailByOrderDetailID
            (OrderService.GetOrderInfoByOrderID
              (OrderService.UpdateOrderStatus st.db m.faults.UpdateOrderStatus m.now
                event.OrderID OrderStatusCancelled).1 m.faults.GetOrderInfoByOrderID
              event.OrderID).1.OrderDetailID).2 ≠ none ∨
        ∃ e, json.unmarshalItems
          (OrderService.GetOrderDetailByOrderDetailID
            (OrderService.UpdateOrderStatus st.db m.faults.UpdateOrderStatus m.now event.OrderID
              OrderStatusCancelled).1 m.faults.GetOrderDetailByOrderDetailID
            (OrderService.GetOrderInfoByOrderID
              (OrderService.UpdateOrderStatus st.db m.faults.UpdateOrderStatus m.now
                event.OrderID OrderStatusCancelled).1 m.faults.GetOrderInfoByOrderID
              event.OrderID).1.OrderDetailID).1.Products = .error e) →
      PaymentFailedConsumer.turn json st m =
          { db := (OrderService.UpdateOrderStatus st.db m.faults.UpdateOrderStatus m.now
              event.OrderID OrderStatusCancelled).1, broker := st.broker } ∧
        ∀ o ∈ (PaymentFailedConsumer.turn json st m).db.orders,
          o.Status = OrderStatusCancelled) ∧
    (∀ rest, PaymentFailedConsumer.Start json st (m :: rest) =
      PaymentFailedConsumer.Start json (PaymentFailedConsumer.turn json st m) rest) := by
  refine ⟨?_, ?_, ?_, ?_, fun rest => rfl⟩
  · intro e hread
    simp [PaymentFailedConsumer.turn, hread]
  · intro value e hread hdec
    simp [PaymentFailedConsumer.turn, hread, hdec]
  · intro value event e hread hdec hupd
    have hdb := UpdateOrderStatus_of_error _ _ _ _ _ e hupd
    simp only [OrderService.UpdateOrderStatus] at hupd
    have hpair : OrderService.UpdateOrderStatus st.db m.faults.UpdateOrderStatus m.now
        event.OrderID OrderStatusCancelled = (st.db, some e) := by
      simp only [OrderService.UpdateOrderStatus]
      exact Prod.ext hdb hupd
    simp [PaymentFailedConsumer.turn, hread, hdec, hpair]
  · intro value event hread hdec hupd hfail
    generalize hU : OrderService.UpdateOrderStatus st.db m.faults.UpdateOrderStatus m.now
      event.OrderID OrderStatusCancelled = upd at hupd hfail ⊢
    obtain ⟨d1, e1⟩ := upd
    simp only at hupd
    subst hupd
    have hturn : PaymentFailedConsumer.turn json st m = { db := d1, broker := st.broker } := by
      simp only [PaymentFailedConsumer.turn, hread, hdec, hU]
      generalize OrderService.GetOrderInfoByOrderID d1 m.faults.GetOrderInfoByOrderID
        event.OrderID = l1 at hfail ⊢
      obtain ⟨o1, e1⟩ := l1
      cases e1 with
      | some _ => rfl
      | none =>
        simp only at hfail ⊢
        generalize OrderService.GetOrderDetailByOrderDetailID d1
          m.faults.GetOrderDetailByOrderDetailID o1.OrderDetailID = l2 at hfail ⊢
        obtain ⟨o2, e2⟩ := l2
        cases e2 with
        | some _ => rfl
        | none =>
          simp only at hfail ⊢
          rcases hfail with h | h | ⟨e, h⟩
          · exact absurd rfl h
          · exact absurd rfl h
          · simp only [h]
    refine ⟨hturn, ?_⟩
    rw [hturn]
    have hok : (OrderRepository.UpdateOrderStatus st.db m.faults.UpdateOrderStatus m.now
        event.OrderID OrderStatusCancelled).2 = none := by
      have := congrArg Prod.snd hU
      simpa [OrderService.UpdateOrderStatus] using this
    obtain ⟨hglobal, hfault⟩ := (UpdateOrderStatus_no_error_iff _ _ _ _ _).mp hok
    have hd1 : d1 = (OrderRepository.UpdateOrderStatus st.db m.faults.UpdateOrderStatus m.now
        event.OrderID OrderStatusCancelled).1 := by
      have := congrArg Prod.fst hU
      simpa [OrderService.UpdateOrderStatus] using this.symm
    rw [hfault, UpdateOrderStatus_of_global _ _ _ _ hglobal] at hd1
    intro o ho
    rw [hd1] at ho
    simp only [List.mem_map] at ho
    obtain ⟨y, -, rfl⟩ := ho
    rfl

/-- The sample order checked out on a handle that allows global updates, then
a failure event for it whose order lookup the database refuses: the order is
Cancelled and no message is written to `stock.rollback`. -/
theorem failure_reactor_aborts_on_error_witness :
    ((PaymentFailedConsumer.turn JSON.sample
        (OrderUsecase.CheckoutOrder JSON.sample 1 CheckoutFaults.none
          { State.empty with db := { Database.empty with AllowGlobalUpdate := true } }
          CheckoutRequest.sample).state
        { Inbound.sample with
          faults := { ReactorFaults.none with GetOrderInfoByOrderID := some "timeout" } }).broker.filter
      fun msg => msg.Topic == "stock.rollback") = [] ∧
    ∀ o ∈ (PaymentFailedConsumer.turn JSON.sample
        (OrderUsecase.CheckoutOrder JSON.sample 1 CheckoutFaults.none
          { State.empty with db := { Database.empty with AllowGlobalUpdate := true } }
          CheckoutRequest.sample).state
        { Inbound.sample with
          faults := { ReactorFaults.none with GetOrderInfoByOrderID := some "timeout" } }).db.orders,
      o.Status = OrderStatusCancelled := by
  have h := (failure_reactor_aborts_on_error JSON.sample
    (OrderUsecase.CheckoutOrder JSON.sample 1 CheckoutFaults.none
      { State.empty with db := { Database.empty with AllowGlobalUpdate := true } }
      CheckoutRequest.sample).state
    { Inbound.sample with
      faults := { ReactorFaults.none with GetOrderInfoByOrderID := some "timeout" } }).2.2.2.1
    "\x7b\"order_id\":1\x7d" { OrderID := 1 } rfl rfl rfl (Or.inl (by decide))
  refine ⟨?_, h.2⟩
  rw [h.1]
  simp only [sample_checkout_broker true]
  rfl

/-! ### Positive IDs -/

/-- An empty database has positive IDs. -/
theorem Database.empty_positiveIDs (g : Bool) :
    ({ Database.empty with AllowGlobalUpdate := g }).PositiveIDs := by
  simp [Database.PositiveIDs, Database.empty]

/-- Appending rows with the next IDs keeps the IDs positive. -/
theorem Database.PositiveIDs.append {d d1 : Database} (h : d.PositiveIDs) (o : Order)
    (dt : OrderDetail) (ho : d1.orders = d.orders ++ [o])
    (hd : d1.order_detail = d.order_detail ++ [dt]) (hoid : o.ID = d.ordersSeq + 1)
    (hdid : dt.ID = d.orderDetailSeq + 1) (hos : d1.ordersSeq = d.ordersSeq + 1)
    (hds : d1.orderDetailSeq = d.orderDetailSeq + 1) : d1.PositiveIDs := by
  obtain ⟨h1, h2, h3, h4⟩ := h
  refine ⟨by omega, by omega, ?_, ?_⟩
  · intro x hx
    rw [ho] at hx
    rcases List.mem_append.mp hx with hx | hx
    · exact h3 x hx
    · rw [List.mem_singleton] at hx; subst hx; omega
  · intro x hx
    rw [hd] at hx
    rcases List.mem_append.mp hx with hx | hx
    · exact h4 x hx
    · rw [List.mem_singleton] at hx; subst hx; omega

/-- Keeping the rows and not lowering the sequences keeps the IDs positive. -/
theorem Database.PositiveIDs.of_same_rows {d d1 : Database} (h : d.PositiveIDs)
    (ho : d1.orders = d.orders) (hd : d1.order_detail = d.order_detail)
    (hos : d.ordersSeq ≤ d1.ordersSeq) (hds : d.orderDetailSeq ≤ d1.orderDetailSeq) :
    d1.PositiveIDs := by
  obtain ⟨h1, h2, h3, h4⟩ := h
  exact ⟨by omega, by omega, ho ▸ h3, hd ▸ h4⟩

/-- The atomic write keeps the IDs positive. -/
theorem SaveOrderAndOrderDetail_positiveIDs (d : Database)
    (detailFault orderFault commitFault : Option String) (order : Order)
    (orderDetail : OrderDetail) (h : d.PositiveIDs) :
    (OrderService.SaveOrderAndOrderDetail d detailFault orderFault commitFault order
      orderDetail).db.PositiveIDs := by
  cases detailFault <;> cases orderFault <;> cases commitFault
  · rw [OrderService.SaveOrderAndOrderDetail_ok]
    exact h.append _ _ rfl rfl rfl rfl rfl rfl
  all_goals
    refine h.of_same_rows ?_ ?_ ?_ ?_ <;>
      simp [OrderService.SaveOrderAndOrderDetail, OrderRepository.WithTransaction,
        OrderRepository.InsertOrderDetailTx, OrderRepository.InsertOrderTx, Tx.Commit,
        Tx.Rollback, Database.Begin]

/-- A checkout keeps the IDs positive. -/
theorem CheckoutOrder_positiveIDs (json : JSON) (now : Nat) (f : CheckoutFaults) (st : State)
    (param : CheckoutRequest) (h : st.db.PositiveIDs) :
    (OrderUsecase.CheckoutOrder json now f st param).state.db.PositiveIDs := by
  unfold OrderUsecase.CheckoutOrder
  split
  · exact h
  · split
    · exact h
    · simp only [OrderUsecase.constructOrderDetail]
      split
      · exact SaveOrderAndOrderDetail_positiveIDs _ _ _ _ _ _ h
      · have hs := SaveOrderAndOrderDetail_positiveIDs st.db f.InsertOrderDetailTx
          f.InsertOrderTx f.Commit
          (OrderUsecase.newOrder param (OrderUsecase.calculateOrderSummary param.Items).1
            (OrderUsecase.calculateOrderSummary param.Items).2)
          { OrderDetail.zero with Products := json.marshalItems param.Items,
                                  OrderHistory := json.marshalHistory now } h
        simp only []
        split
        · cases hf : f.SaveIdempotencyToken <;>
            exact hs.of_same_rows (by simp [OrderService.SaveIdempotencyToken,
              OrderRepository.SaveIdempotencyToken, hf]) (by simp [OrderService.SaveIdempotencyToken,
              OrderRepository.SaveIdempotencyToken, hf]) (by simp [OrderService.SaveIdempotencyToken,
              OrderRepository.SaveIdempotencyToken, hf]) (by simp [OrderService.SaveIdempotencyToken,
              OrderRepository.SaveIdempotencyToken, hf])
        · exact hs

/-- The status update keeps the IDs positive. -/
theorem UpdateOrderStatus_positiveIDs (d : Database) (fault : Option String) (now : Nat)
    (orderID status : Int) (h : d.PositiveIDs) :
    (OrderRepository.UpdateOrderStatus d fault now orderID status).1.PositiveIDs := by
  have hrows : (OrderRepository.UpdateOrderStatus d fault now orderID status).1.orders = d.orders ∨
      (OrderRepository.UpdateOrderStatus d fault now orderID status).1.orders =
        d.orders.map fun order => { order with Status := status, UpdateTime := now } := by
    cases hg : d.AllowGlobalUpdate <;> cases fault <;>
      simp [OrderRepository.UpdateOrderStatus, DB.Where, DB.Updates, Database.TableOrders, hg,
        DB.selects]
  obtain ⟨h1, h2, h3, h4⟩ := h
  refine ⟨h1, h2, ?_, h4⟩
  rcases hrows with hr | hr
  · rw [hr]; exact h3
  · rw [hr]
    intro x hx
    obtain ⟨y, hy, rfl⟩ := List.mem_map.mp hx
    exact h3 y hy

/-- A move of the process keeps the IDs positive. -/
theorem Step.positiveIDs_of_step {json : JSON} {a b : State} (h : Step json a b)
    (ha : a.db.PositiveIDs) : b.db.PositiveIDs := by
  cases h with
  | checkout now f param => exact CheckoutOrder_positiveIDs json now f a param ha
  | paymentSuccess m =>
    rcases success_turn_db json a m with h | ⟨orderID, h⟩
    · rw [h]; exact ha
    · rw [h]; exact UpdateOrderStatus_positiveIDs _ _ _ _ _ ha
  | paymentFailed m =>
    rcases failed_turn_db json a m with h | ⟨orderID, h⟩
    · rw [h]; exact ha
    · rw [h]; exact UpdateOrderStatus_positiveIDs _ _ _ _ _ ha

/-- Every reachable state has positive IDs: no row carries ID 0. -/
theorem Reachable.positiveIDs_of_reachable {json : JSON} {st : State} (h : Reachable json st) :
    st.db.PositiveIDs := by
  obtain ⟨g, hsteps⟩ := h
  have hstart := Database.empty_positiveIDs g
  induction hsteps with
  | refl => exact hstart
  | tail _ hstep ih => exact hstep.positiveIDs_of_step ih

/-! ### Events for orders the store does not hold -/

/-- A carried-out order lookup for an ID no row carries yields the zero value
and no error. -/
theorem GetOrderInfoByOrderID_of_absent (d : Database) (orderID : Int)
    (h : ∀ o ∈ d.orders, o.ID ≠ orderID) :
    OrderService.GetOrderInfoByOrderID d none orderID = (Order.zero, none) := by
  have hfind : d.orders.find? (fun o => o.ID == orderID) = none := by
    rw [List.find?_eq_none]
    intro x hx
    simpa using h x hx
  simp [OrderService.GetOrderInfoByOrderID, OrderRepository.GetOrderInfoByOrderID, DB.Find,
    DB.Where, Database.TableOrders, DB.selects_single, hfind]

/-- A carried-out detail lookup for an ID no row carries yields the zero value
and no error. -/
theorem GetOrderDetailByOrderDetailID_of_absent (d : Database) (detailID : Int)
    (h : ∀ dt ∈ d.order_detail, dt.ID ≠ detailID) :
    OrderService.GetOrderDetailByOrderDetailID d none detailID = (OrderDetail.zero, none) := by
  have hfind : d.order_detail.find? (fun dt => dt.ID == detailID) = none := by
    rw [List.find?_eq_none]
    intro x hx
    simpa using h x hx
  simp [OrderService.GetOrderDetailByOrderDetailID,
    OrderRepository.GetOrderDetailByOrderDetailID, DB.Find, DB.Where,
    Database.TableOrderDetail, DB.selects_single, hfind]

/-- A lookup the database refuses returns the zero value and the error. -/
theorem GetOrderInfoByOrderID_of_fault (d : Database) (msg : String) (orderID : Int) :
    OrderService.GetOrderInfoByOrderID d (some msg) orderID =
      (Order.zero, some (.external msg)) := by
  simp [OrderService.GetOrderInfoByOrderID, OrderRepository.GetOrderInfoByOrderID, DB.Find,
    DB.Where, Database.TableOrders]

/-- A detail lookup the database refuses returns the zero value and the
error. -/
theorem GetOrderDetailByOrderDetailID_of_fault (d : Database) (msg : String)
    (detailID : Int) :
    OrderService.GetOrderDetailByOrderDetailID d (some msg) detailID =
      (OrderDetail.zero, some (.external msg)) := by
  simp [OrderService.GetOrderDetailByOrderDetailID,
    OrderRepository.GetOrderDetailByOrderDetailID, DB.Find, DB.Where,
    Database.TableOrderDetail]

/-- The status update changes no order ID and leaves the detail table
alone. -/
theorem UpdateOrderStatus_ids (d : Database) (fault : Option String) (now : Nat)
    (orderID status : Int) :
    (∀ o ∈ (OrderRepository.UpdateOrderStatus d fault now orderID status).1.orders,
      ∃ o0 ∈ d.orders, o.ID = o0.ID) ∧
    (OrderRepository.UpdateOrderStatus d fault now orderID status).1.order_detail =
      d.order_detail := by
  have hrows : (OrderRepository.UpdateOrderStatus d fault now orderID status).1.orders = d.orders ∨
      (OrderRepository.UpdateOrderStatus d fault now orderID status).1.orders =
        d.orders.map fun order => { order with Status := status, UpdateTime := now } := by
    cases hg : d.AllowGlobalUpdate <;> cases fault <;>
      simp [OrderRepository.UpdateOrderStatus, DB.Where, DB.Updates, Database.TableOrders, hg,
        DB.selects]
  refine ⟨?_, by simp [OrderRepository.UpdateOrderStatus]⟩
  rcases hrows with hr | hr
  · rw [hr]; exact fun o h => ⟨o, h, rfl⟩
  · rw [hr]
    intro o ho
    obtain ⟨y, hy, rfl⟩ := List.mem_map.mp ho
    exact ⟨y, hy, rfl⟩

/-- C16: a failure payment event is read and decoded, no order row carries
its order ID, the store's IDs are positive (as in every reachable state) and
the decoder rejects the empty text. Then the turn of the failure reactor
publishes nothing, whatever the database answers. On the database the status
update leaves, the carried-out order lookup yields the zero-valued order
without error, the carried-out detail lookup for its detail ID 0 yields the
zero-valued detail without error, and decoding that detail's empty products
text fails, which ends the turn before the publish step. -/
theorem failure_event_for_unknown_order (json : JSON) (st : State) (m : Inbound)
    (value : String) (event : PaymentUpdateStatusEvent) (e : Err)
    (hread : m.read = .ok value) (hdec : json.unmarshalEvent value = .ok event)
    (hno : ∀ o ∈ st.db.orders, o.ID ≠ event.OrderID) (hpos : st.db.PositiveIDs)
    (hempty : json.unmarshalItems "" = .error e) :
    (PaymentFailedConsumer.Start json st [m]).broker = st.broker ∧
    OrderService.GetOrderInfoByOrderID
        (OrderService.UpdateOrderStatus st.db m.faults.UpdateOrderStatus m.now event.OrderID
          OrderStatusCancelled).1 none event.OrderID = (Order.zero, none) ∧
    Order.zero.OrderDetailID = 0 ∧
    OrderService.GetOrderDetailByOrderDetailID
        (OrderService.UpdateOrderStatus st.db m.faults.UpdateOrderStatus m.now event.OrderID
          OrderStatusCancelled).1 none 0 = (OrderDetail.zero, none) ∧
    OrderDetail.zero.Products = "" ∧
    json.unmarshalItems OrderDetail.zero.Products = .error e := by
  obtain ⟨hids, hdet⟩ := UpdateOrderStatus_ids st.db m.faults.UpdateOrderStatus m.now
    event.OrderID OrderStatusCancelled
  have hno1 : ∀ o ∈ (OrderService.UpdateOrderStatus st.db m.faults.UpdateOrderStatus m.now
      event.OrderID OrderStatusCancelled).1.orders, o.ID ≠ event.OrderID := by
    intro o ho
    obtain ⟨o0, ho0, hid⟩ := hids o ho
    rw [hid]
    exact hno o0 ho0
  have hzero1 : ∀ dt ∈ (OrderService.UpdateOrderStatus st.db m.faults.UpdateOrderStatus m.now
      event.OrderID OrderStatusCancelled).1.order_detail, dt.ID ≠ 0 := by
    intro dt hdt
    have hdt0 : dt ∈ st.db.order_detail := by
      simp only [OrderService.UpdateOrderStatus] at hdt
      rwa [hdet] at hdt
    have := hpos.2.2.2 dt hdt0
    omega
  have hl1 := GetOrderInfoByOrderID_of_absent _ event.OrderID hno1
  have hl2 := GetOrderDetailByOrderDetailID_of_absent _ 0 hzero1
  refine ⟨?_, hl1, rfl, hl2, rfl, hempty⟩
  have hstart : PaymentFailedConsumer.Start json st [m] =
      PaymentFailedConsumer.turn json st m := rfl
  rw [hstart]
  simp only [PaymentFailedConsumer.turn, hread, hdec]
  generalize hU : OrderService.UpdateOrderStatus st.db m.faults.UpdateOrderStatus m.now
    event.OrderID OrderStatusCancelled = upd at hl1 hl2 ⊢
  obtain ⟨d1, e1⟩ := upd
  cases e1 with
  | some _ => rfl
  | none =>
    simp only at hl1 hl2 ⊢
    cases hf1 : m.faults.GetOrderInfoByOrderID with
    | some msg => simp [GetOrderInfoByOrderID_of_fault]
    | none =>
      simp only [hl1]
      have hz : Order.zero.OrderDetailID = 0 := rfl
      rw [hz]
      cases hf2 : m.faults.GetOrderDetailByOrderDetailID with
      | some msg => simp [GetOrderDetailByOrderDetailID_of_fault]
      | none =>
        simp only [hl2]
        have hp : OrderDetail.zero.Products = "" := rfl
        simp [hp, hempty]

/-- A failure event for order 99 on the state that holds only order 1, on a
handle that allows global updates: the lookups come back empty and nothing is
written to the broker beyond what the checkout wrote. -/
theorem failure_event_for_unknown_order_witness :
    (PaymentFailedConsumer.Start JSON.sample
      (OrderUsecase.CheckoutOrder JSON.sample 1 CheckoutFaults.none
        { State.empty with db := { Database.empty with AllowGlobalUpdate := true } }
        CheckoutRequest.sample).state
      [{ Inbound.sample with read := .ok "\x7b\"order_id\":99\x7d" }]).broker =
    (OrderUsecase.CheckoutOrder JSON.sample 1 CheckoutFaults.none
      { State.empty with db := { Database.empty with AllowGlobalUpdate := true } }
      CheckoutRequest.sample).state.broker :=
  (failure_event_for_unknown_order JSON.sample
    (OrderUsecase.CheckoutOrder JSON.sample 1 CheckoutFaults.none
      { State.empty with db := { Database.empty with AllowGlobalUpdate := true } }
      CheckoutRequest.sample).state
    { Inbound.sample with read := .ok "\x7b\"order_id\":99\x7d" }
    "\x7b\"order_id\":99\x7d" { OrderID := 99 } _ rfl rfl (by decide)
    (CheckoutOrder_positiveIDs _ _ _ _ _ (Database.empty_positiveIDs true)) rfl).1

/-! ### Requests without items -/

/-- C17: `validateProducts` returns nil on the empty list, so `CheckoutOrder`
does not refuse a request without items: when the idempotency block passes
(empty token, or no record and the query carried out) and the write goes
through, it stores an order with `TotalQty` 0, `Amount` 0 and status Created
and returns its ID. The handler `Checkout` is what refuses such a request: it
answers 400 "items must not be empty" without calling `CheckoutOrder`, so the
state is left as it was. -/
theorem empty_request_refused_by_handler_only (json : JSON) (now : Nat) (f : CheckoutFaults)
    (st : State) (param : CheckoutRequest) (hitems : param.Items = [])
    (hguard : param.IdempotencyToken = "" ∨
      (f.CheckIdempotency = none ∧ ¬ st.db.hasToken param.IdempotencyToken))
    (hwrite : f.InsertOrderDetailTx = none ∧ f.InsertOrderTx = none ∧ f.Commit = none) :
    OrderUsecase.validateProducts [] = none ∧
    (∃ order, (OrderUsecase.CheckoutOrder json now f st param).state.db.orders =
        st.db.orders ++ [order] ∧
      (OrderUsecase.CheckoutOrder json now f st param).err = none ∧
      (OrderUsecase.CheckoutOrder json now f st param).orderID = order.ID ∧
      order.TotalQty = 0 ∧ order.Amount = 0 ∧ order.Status = OrderStatusCreated) ∧
    ∀ userID : Option ContextValue,
      OrderHandler.Checkout json now f st (.ok param) userID =
        (st, { code := 400, body := [("error", "items must not be empty")] }) := by
  have hg := OrderUsecase.idempotencyGuard_passes st.db f.CheckIdempotency
    param.IdempotencyToken hguard
  have hv : OrderUsecase.validateProducts param.Items = none := by rw [hitems]; rfl
  obtain ⟨h1, h2, h3, -⟩ :=
    OrderUsecase.CheckoutOrder_ok json now f st param hg hv hwrite.1 hwrite.2.1 hwrite.2.2
  refine ⟨rfl, ⟨insertedOrder st.db param, h3, h1, h2, ?_, ?_, rfl⟩, fun userID => ?_⟩
  · simp [insertedOrder, OrderUsecase.newOrder, OrderUsecase.calculateOrderSummary_eq, hitems]
  · simp [insertedOrder, OrderUsecase.newOrder, OrderUsecase.calculateOrderSummary_eq, hitems,
      Float64.sum]
  · simp [OrderHandler.Checkout, hitems]

/-- The sample request with its items removed, on an empty state: the usecase
stores order 1 with totals 0; the handler answers 400 and stores nothing. -/
theorem empty_request_refused_by_handler_only_witness :
    (∃ order, (OrderUsecase.CheckoutOrder JSON.sample 1 CheckoutFaults.none State.empty
        { CheckoutRequest.sample with Items := [] }).state.db.orders = [order] ∧
      order.ID = 1 ∧ order.TotalQty = 0 ∧ order.Amount = 0 ∧ order.Status = 0) ∧
    OrderHandler.Checkout JSON.sample 1 CheckoutFaults.none State.empty
        (.ok { CheckoutRequest.sample with Items := [] }) (some (.float64 7)) =
      (State.empty, { code := 400, body := [("error", "items must not be empty")] }) := by
  have h := empty_request_refused_by_handler_only JSON.sample 1 CheckoutFaults.none State.empty
    { CheckoutRequest.sample with Items := [] } rfl
    (Or.inr ⟨rfl, by simp [Database.hasToken, State.empty, Database.empty]⟩) ⟨rfl, rfl, rfl⟩
  obtain ⟨-, ⟨order, h1, -, h2, h3, h4, h5⟩, h6⟩ := h
  refine ⟨⟨order, by simpa [State.empty, Database.empty] using h1, ?_, h3, h4, h5⟩, h6 _⟩
  rw [← h2]
  rfl

/-- With items and a session the handler passes the request on: the sample
request is answered 200 with the new order ID. -/
theorem Checkout_handler_sample :
    (OrderHandler.Checkout JSON.sample 1 CheckoutFaults.none State.empty
        (.ok CheckoutRequest.sample) (some (.float64 7))).2 =
      { code := 200, body := [("order_id", "1"), ("status", "created")] } := by
  rfl

end OrderFC
